import Mathlib

/-!
# GvmLightControl: hex codec, CRC-16/XMODEM, frame decoding, set commands and joining

A shallow embedding of `HexFunctions.cpp` and `GvmLightControl.cpp`.

Conventions of the embedding
* a C `char` buffer is a `List Char`; a byte buffer is a `List Nat` whose
  entries are read modulo 256;
* a read at an index past the end of a list yields the zero the C arrays are
  initialised with (`charAt`, `byteAt`);
* `uint8_t` / `uint16_t` arithmetic is `Nat` arithmetic with an explicit
  `% 256` / `% 65536` wherever the C code stores into such a variable;
* C `int` values that may be negative are `Int`;
* the WiFi stack, the sockets and the clock are a record of functions over a
  state of their own (`Collaborator`), and what the code does to them is kept
  as a list of events.
-/

namespace GvmLight

open Polynomial

/-! ## HexFunctions.cpp -/

/-- Read of `buf[i]` in a character buffer (NUL past the stored text). -/
def charAt (buf : List Char) (i : Nat) : Char := buf.getD i (Char.ofNat 0)

/-- Read of `buf[i]` in a byte buffer (zero past the stored bytes). -/
def byteAt (buf : List Nat) (i : Nat) : Nat := buf.getD i 0 % 256

/-- `uint8_t charToVal(char c)`: value of a hexadecimal character, 0 for any
other character. Character codes: '0' = 48, '9' = 57, 'a' = 97, 'f' = 102,
'A' = 65, 'F' = 70. -/
def charToVal (c : Char) : Nat :=
  if 48 ≤ c.toNat ∧ c.toNat ≤ 57 then c.toNat - 48
  else if 97 ≤ c.toNat ∧ c.toNat ≤ 102 then c.toNat - 97 + 10
  else if 65 ≤ c.toNat ∧ c.toNat ≤ 70 then c.toNat - 65 + 10
  else 0

/-- `char valToChar(uint8_t v)`: hexadecimal character of a number 0..15,
'X' for any other number. -/
def valToChar (v : Nat) : Char :=
  if 0 ≤ v ∧ v ≤ 9 then Char.ofNat (48 + v)
  else if 10 ≤ v ∧ v ≤ 15 then Char.ofNat (65 + v - 10)
  else 'X'

/-- `void hexStringToBytes(char *hexstr, int len, unsigned char *out)`: the
bytes written to `out`, one per iteration of `while (len >= 2)`. -/
def hexStringToBytes (hexstr : List Char) : Nat → List Nat
  | len + 2 =>
    ((charToVal (charAt hexstr 0) <<< 4 ||| charToVal (charAt hexstr 1)) % 256)
      :: hexStringToBytes (hexstr.drop 2) len
  | _ => []

/-- `void bytesToHexString(unsigned char *in, int len, char *out)`: the
characters written to `out`, two per iteration of the `for` loop. -/
def bytesToHexString (inp : List Nat) : Nat → List Char
  | 0 => []
  | len + 1 =>
    valToChar (byteAt inp 0 >>> 4) :: valToChar (byteAt inp 0 &&& 0xf)
      :: bytesToHexString (inp.drop 1) len

/-- `void shortToHex(unsigned short num, char *out)`: `htons` puts the high
byte of `num` first in memory; the four characters written to `out`. -/
def shortToHex (num : Nat) : List Char :=
  let b0 := (num % 65536) / 256
  let b1 := (num % 65536) % 256
  [valToChar (b0 >>> 4), valToChar (b0 &&& 0xf), valToChar (b1 >>> 4), valToChar (b1 &&& 0xf)]

/-! ## GvmLightControl.cpp: CRC -/

/-- One iteration of the inner `for` loop of `calcCrcFromHexStr` on the
`uint16_t crc`. -/
def crcShift (crc : Nat) : Nat :=
  if crc &&& 0x8000 ≠ 0 then ((crc <<< 1) ^^^ 0x1021) % 65536
  else (crc <<< 1) % 65536

/-- The loop `for (int i = 0; i < 8; i++)` run for `n` iterations. -/
def crcBits : Nat → Nat → Nat
  | 0, crc => crc
  | n + 1, crc => crcBits n (crcShift crc)

/-- The loop `while (len >= 2)` of `calcCrcFromHexStr`, from register `crc`. -/
def calcCrcLoop (str : List Char) : Nat → Nat → Nat
  | len + 2, crc =>
    let c := (charToVal (charAt str 0) <<< 4) % 256
    let c := (c + charToVal (charAt str 1)) % 256
    let crc := (crc ^^^ (c <<< 8)) % 65536
    calcCrcLoop (str.drop 2) len (crcBits 8 crc)
  | _, crc => crc

/-- `uint16_t calcCrcFromHexStr(const char *str, int len)`. -/
def calcCrcFromHexStr (str : List Char) (len : Nat) : Nat :=
  calcCrcLoop str len 0 &&& 0xFFFF

/-! ## GvmLightControl.h: constants and state -/

def LIGHT_VAR_ON_OFF : Nat := 0
def LIGHT_VAR_CHANNEL : Nat := 1
def LIGHT_VAR_BRIGHTNESS : Nat := 2
def LIGHT_VAR_CCT : Nat := 3
def LIGHT_VAR_HUE : Nat := 4
def LIGHT_VAR_SATURATION : Nat := 5

def LIGHT_MSG_SETVAR : Nat := 0x57
def LIGHT_MSG_VAR_SET : Nat := 0x2
def LIGHT_MSG_VAR_ALL : Nat := 0x3

/-- The hello message `first_connect`. -/
def first_connect : List Char := "4C5409000053000001009474".toList

/-- `class LightStatus`: six `int` members. -/
structure LightStatus where
  on_off : Int
  channel : Int
  hue : Int
  brightness : Int
  cct : Int
  saturation : Int
deriving DecidableEq, Repr

/-- The constructor `LightStatus()`: every member is -1. -/
def LightStatus.init : LightStatus :=
  { on_off := -1, channel := -1, hue := -1, brightness := -1, cct := -1, saturation := -1 }

/-- `class GvmLightControl`: the members of the object, and two traces of what
it does to its environment: the number of calls made through the
`onStatusUpdated` pointer and the payloads handed to `broadcast_udp` (oldest
first). A callback member is `true` when the pointer is not `NULL`. -/
structure GvmLightControl where
  light_status : LightStatus
  udp_2525_fd : Int
  udp_1112_fd : Int
  onWiFiConnectAttempt : Bool
  onStatusUpdated : Bool
  statusUpdatedCalls : Nat
  broadcasts : List (List Char)
deriving DecidableEq, Repr

/-- The constructor `GvmLightControl(bool debug)`. -/
def GvmLightControl.init : GvmLightControl :=
  { light_status := LightStatus.init, udp_2525_fd := -1, udp_1112_fd := -1,
    onWiFiConnectAttempt := false, onStatusUpdated := false,
    statusUpdatedCalls := 0, broadcasts := [] }

/-- `callbackOnStatusUpdated(callback)` with a non-null callback. -/
def callbackOnStatusUpdated (g : GvmLightControl) : GvmLightControl :=
  { g with onStatusUpdated := true }

/-- The statement `if (onStatusUpdated) onStatusUpdated();`. -/
def notifyStatusUpdated (g : GvmLightControl) : GvmLightControl :=
  if g.onStatusUpdated then { g with statusUpdatedCalls := g.statusUpdatedCalls + 1 } else g

/-! ## GvmLightControl.cpp: setters and the encode path -/

/-- `inline int set_bounded(int val, int min, int max)`. -/
def set_bounded (val min max : Int) : Int :=
  if val < min then max
  else if val > max then min
  else val

/-- Conversion of an `int` to `int8_t`. -/
def toInt8 (v : Int) : Int := (v + 128) % 256 - 128

/-- Conversion of an `int8_t` to the `uint8_t` parameter of a send function. -/
def toUInt8 (v : Int) : Nat := (v % 256).toNat

/-- `int GvmLightControl::broadcast_udp(const void *d, int len)`: the payload
is handed to `sendto` on the command socket. -/
def broadcast_udp (g : GvmLightControl) (d : List Char) : GvmLightControl :=
  { g with broadcasts := g.broadcasts ++ [d] }

/-- `int GvmLightControl::send_hello_msg()`. -/
def send_hello_msg (g : GvmLightControl) : GvmLightControl × Int :=
  if g.udp_2525_fd = -1 then (g, -1)
  else (broadcast_udp g first_connect, 0)

/-- The array `cmd_buffer[3 + 3 + 4 + 2]` of `send_set_cmd` after the ten
assignments (the last two bytes are never written nor read). -/
def cmd_buffer (setting value : Nat) : List Nat :=
  let sizeof_cmd_buffer := 3 + 3 + 4 + 2
  let b := List.replicate sizeof_cmd_buffer 0
  let b := b.set 0 0x4C
  let b := b.set 1 0x54
  let b := b.set 2 ((sizeof_cmd_buffer - 3) % 256)
  let b := b.set 3 0x0
  let b := b.set 4 0x30
  let b := b.set 5 LIGHT_MSG_SETVAR
  let b := b.set 6 0x0
  let b := b.set 7 (setting % 256)
  let b := b.set 8 0x1
  b.set 9 (value % 256)

/-- The array `encoded_cmd_buffer[sizeof(cmd_buffer) * 2]` of `send_set_cmd`
when it is handed to `broadcast_udp`. -/
def encoded_cmd_buffer (setting value : Nat) : List Char :=
  let sizeof_cmd_buffer := 3 + 3 + 4 + 2
  let sizeof_encoded := sizeof_cmd_buffer * 2
  let hex := bytesToHexString (cmd_buffer setting value) (sizeof_cmd_buffer - 2)
  let crc := calcCrcFromHexStr hex ((sizeof_cmd_buffer - 2) * 2)
  (hex ++ shortToHex crc).take sizeof_encoded

/-- `int GvmLightControl::send_set_cmd(uint8_t setting, uint8_t value)`. -/
def send_set_cmd (g : GvmLightControl) (setting value : Nat) : GvmLightControl × Int :=
  if g.udp_2525_fd = -1 then (g, -1)
  else (broadcast_udp g (encoded_cmd_buffer setting value), 0)

/-- `int GvmLightControl::send_set_cmd_and_hello(uint8_t setting, uint8_t value)`. -/
def send_set_cmd_and_hello (g : GvmLightControl) (setting value : Nat) :
    GvmLightControl × Int :=
  let r := send_set_cmd g setting value
  if r.2 ≠ 0 then r
  else send_hello_msg r.1

/-- `int GvmLightControl::setOnOff(int on_off)`. -/
def setOnOff (g : GvmLightControl) (on_off : Int) : GvmLightControl × Int :=
  let newVal := toInt8 (set_bounded on_off 0 1)
  let g := { g with light_status := { g.light_status with on_off := newVal } }
  ((send_set_cmd_and_hello g LIGHT_VAR_ON_OFF (toUInt8 newVal)).1, newVal)

/-- `int GvmLightControl::setChannel(int channel)`. -/
def setChannel (g : GvmLightControl) (channel : Int) : GvmLightControl × Int :=
  let newVal := toInt8 (set_bounded channel 1 12)
  let g := { g with light_status := { g.light_status with channel := newVal } }
  ((send_set_cmd_and_hello g LIGHT_VAR_CHANNEL (toUInt8 newVal)).1, newVal)

/-- `int GvmLightControl::setBrightness(int brightness)`. -/
def setBrightness (g : GvmLightControl) (brightness : Int) : GvmLightControl × Int :=
  let newVal := toInt8 (set_bounded brightness 0 100)
  let g := { g with light_status := { g.light_status with brightness := newVal } }
  ((send_set_cmd_and_hello g LIGHT_VAR_BRIGHTNESS (toUInt8 newVal)).1, newVal)

/-- `int GvmLightControl::setCct(int cct)`. -/
def setCct (g : GvmLightControl) (cct : Int) : GvmLightControl × Int :=
  let newVal := toInt8 (set_bounded cct 32 56)
  let g := { g with light_status := { g.light_status with cct := newVal } }
  ((send_set_cmd_and_hello g LIGHT_VAR_CCT (toUInt8 newVal)).1, newVal)

/-- `int GvmLightControl::setHue(int hue)`. -/
def setHue (g : GvmLightControl) (hue : Int) : GvmLightControl × Int :=
  let newVal := toInt8 (set_bounded hue 0 72)
  let g := { g with light_status := { g.light_status with hue := newVal } }
  ((send_set_cmd_and_hello g LIGHT_VAR_HUE (toUInt8 newVal)).1, newVal)

/-- `int GvmLightControl::setSaturation(int saturation)`: as in the source, it
stores into `light_status.hue` and sends `LIGHT_VAR_HUE`. -/
def setSaturation (g : GvmLightControl) (saturation : Int) : GvmLightControl × Int :=
  let newVal := toInt8 (set_bounded saturation 0 100)
  let g := { g with light_status := { g.light_status with hue := newVal } }
  ((send_set_cmd_and_hello g LIGHT_VAR_HUE (toUInt8 newVal)).1, newVal)

/-! ## GvmLightControl.cpp: the decode path of `read_udp` -/

/-- The variables of the inner `while` loop of `read_udp`: the object, the
frame counter, the remaining length, and the two cursors as offsets into
`decodeBuffer` and `rx_buffer`. -/
structure RxLoop where
  g : GvmLightControl
  msgs_processed : Nat
  rx_len : Nat
  hexDecode : Nat
  msgDecode : Nat
deriving DecidableEq, Repr

/-- The loop condition: `rx_len >= (3 * 2) && hexDecode[0] == 'L' &&
hexDecode[1] == 'T' && hexDecode[2] <= rx_len / 2 - 3`. -/
def frameGuard (decodeBuffer : List Nat) (s : RxLoop) : Bool :=
  decide (s.rx_len ≥ 3 * 2) &&
  decide (byteAt decodeBuffer (s.hexDecode + 0) = 0x4C) &&
  decide (byteAt decodeBuffer (s.hexDecode + 1) = 0x54) &&
  decide (byteAt decodeBuffer (s.hexDecode + 2) ≤ s.rx_len / 2 - 3)

/-- The branch `hexDecode[5] == LIGHT_MSG_VAR_ALL`. -/
def applyVarAll (decodeBuffer : List Nat) (hexDecode : Nat) (g : GvmLightControl) :
    GvmLightControl :=
  let st := g.light_status
  let st := { st with on_off := (byteAt decodeBuffer (hexDecode + 6) : Int) }
  let st := { st with channel := (byteAt decodeBuffer (hexDecode + 7) : Int) }
  let st := { st with brightness := (byteAt decodeBuffer (hexDecode + 8) : Int) }
  let st := { st with cct := (byteAt decodeBuffer (hexDecode + 9) : Int) }
  let st := { st with hue := (byteAt decodeBuffer (hexDecode + 10) : Int) }
  let st := { st with saturation := (byteAt decodeBuffer (hexDecode + 11) : Int) }
  notifyStatusUpdated { g with light_status := st }

/-- The branch `hexDecode[5] == LIGHT_MSG_VAR_SET`: the `switch` on
`hexDecode[7]` assigning `hexDecode[8]`. -/
def applyVarSet (decodeBuffer : List Nat) (hexDecode : Nat) (g : GvmLightControl) :
    GvmLightControl :=
  let st := g.light_status
  let field := byteAt decodeBuffer (hexDecode + 7)
  let value : Int := (byteAt decodeBuffer (hexDecode + 8) : Int)
  let st :=
    if field = LIGHT_VAR_ON_OFF then { st with on_off := value }
    else if field = LIGHT_VAR_CHANNEL then { st with channel := value }
    else if field = LIGHT_VAR_BRIGHTNESS then { st with brightness := value }
    else if field = LIGHT_VAR_CCT then { st with cct := value }
    else if field = LIGHT_VAR_HUE then { st with hue := value }
    else if field = LIGHT_VAR_SATURATION then { st with saturation := value }
    else st
  notifyStatusUpdated { g with light_status := st }

/-- The dispatch on the message type `hexDecode[5]`. -/
def applyMessage (decodeBuffer : List Nat) (hexDecode : Nat) (g : GvmLightControl) :
    GvmLightControl :=
  if byteAt decodeBuffer (hexDecode + 5) = LIGHT_MSG_VAR_ALL then
    applyVarAll decodeBuffer hexDecode g
  else if byteAt decodeBuffer (hexDecode + 5) = LIGHT_MSG_VAR_SET then
    applyVarSet decodeBuffer hexDecode g
  else g

/-- The value `crc` computed in the loop body. -/
def frameCrc (rx_buffer : List Char) (decodeBuffer : List Nat) (s : RxLoop) : Nat :=
  calcCrcFromHexStr (rx_buffer.drop s.msgDecode)
    (2 * (3 + byteAt decodeBuffer (s.hexDecode + 2) - 2))

/-- The value `msgcrc`: `ntohs` of the two bytes at
`hexDecode[3 + hexDecode[2] - 2]`. -/
def frameMsgCrc (decodeBuffer : List Nat) (s : RxLoop) : Nat :=
  let pos := s.hexDecode + (3 + byteAt decodeBuffer (s.hexDecode + 2) - 2)
  byteAt decodeBuffer pos * 256 + byteAt decodeBuffer (pos + 1)

/-- The inner `while` loop of `read_udp`, at most `fuel` iterations. -/
def decodeFrames (rx_buffer : List Char) (decodeBuffer : List Nat) : Nat → RxLoop → RxLoop
  | 0, s => s
  | fuel + 1, s =>
    if frameGuard decodeBuffer s then
      let msglen := 3 + byteAt decodeBuffer (s.hexDecode + 2)
      if frameCrc rx_buffer decodeBuffer s ≠ frameMsgCrc decodeBuffer s then s
      else
        decodeFrames rx_buffer decodeBuffer fuel
          { g := applyMessage decodeBuffer s.hexDecode s.g
            msgs_processed := s.msgs_processed + 1
            rx_len := s.rx_len - msglen * 2
            hexDecode := s.hexDecode + msglen
            msgDecode := s.msgDecode + msglen * 2 }
    else s

/-- The call `hexStringToBytes(rx_buffer, rx_len, decodeBuffer)`: the decoded
bytes overwrite the start of `decodeBuffer`, the rest keeps what it held. -/
def decodeInto (decodeBuffer : List Nat) (rx_buffer : List Char) (rx_len : Nat) : List Nat :=
  let out := hexStringToBytes rx_buffer rx_len
  out ++ decodeBuffer.drop out.length

/-- The body of the outer `while` loop of `read_udp` for one received
datagram: `recvfrom` stores at most `sizeof(rx_buffer) - 1 = 2047` characters.
Every iteration of the inner loop consumes at least six characters, so
`rx_len / 6 + 1` iterations are never exhausted. -/
def processDatagram (decodeBuffer : List Nat) (g : GvmLightControl) (msgs_processed : Nat)
    (datagram : List Char) : List Nat × GvmLightControl × Nat :=
  let rx_buffer := datagram.take 2047
  let rx_len := rx_buffer.length
  let decodeBuffer := decodeInto decodeBuffer rx_buffer rx_len
  let s := decodeFrames rx_buffer decodeBuffer (rx_len / 6 + 1)
    { g := g, msgs_processed := msgs_processed, rx_len := rx_len, hexDecode := 0, msgDecode := 0 }
  (decodeBuffer, s.g, s.msgs_processed)

/-- The outer loop `while ((rx_len = recvfrom(...)) > -1)` over the datagrams
pending on the socket. -/
def recvLoop (decodeBuffer : List Nat) (g : GvmLightControl) (msgs_processed : Nat) :
    List (List Char) → GvmLightControl × Nat
  | [] => (g, msgs_processed)
  | datagram :: pending =>
    let r := processDatagram decodeBuffer g msgs_processed datagram
    recvLoop r.1 r.2.1 r.2.2 pending

/-- `int GvmLightControl::read_udp(int fd)`, given the datagrams `recvfrom`
delivers on `fd` before it reports that nothing is pending; `decodeBuffer` is
the zero-initialised array of `sizeof(rx_buffer) / 2 = 1024` bytes (a read past
its end, which the C code can make for a frame in the last bytes of a maximal
datagram, yields 0 here). The result is the object after the call and the
returned `msgs_processed`. -/
def read_udp (g : GvmLightControl) (pending : List (List Char)) : GvmLightControl × Nat :=
  recvLoop (List.replicate 1024 0) g 0 pending

/-! ## Notions used to state and prove the properties -/

/-- One byte folded into the CRC register: the body of the `while` loop of
`calcCrcFromHexStr` once the byte `c` is known. -/
def crcByte (crc c : Nat) : Nat := crcBits 8 ((crc ^^^ (c <<< 8)) % 65536)

/-- The byte that digit pair `k` of a hex text decodes to. -/
def textByte (t : List Char) (k : Nat) : Nat :=
  16 * charToVal (charAt t (2 * k)) + charToVal (charAt t (2 * k + 1))

/-- Byte `k` of the decoded form of a hex text. -/
def frameByte (t : List Char) (k : Nat) : Nat := byteAt (hexStringToBytes t t.length) k

/-- A single-frame buffer that the decoder accepts: at least the three header
bytes, magic 'L' 'T', declared length `L` with exactly `2 * (3 + L)` hex
digits, and the last two bytes (big-endian) equal to `calcCrcFromHexStr` of
the digits before them. -/
def validFrame (t : List Char) : Prop :=
  6 ≤ t.length ∧ frameByte t 0 = 0x4C ∧ frameByte t 1 = 0x54 ∧
    t.length = 2 * (3 + frameByte t 2) ∧
    calcCrcFromHexStr t (2 * (3 + frameByte t 2 - 2)) =
      frameByte t (3 + frameByte t 2 - 2) * 256 + frameByte t (3 + frameByte t 2 - 2 + 1)

instance (t : List Char) : Decidable (validFrame t) := by
  unfold validFrame
  infer_instance

/-- The frame `f` sits in the receive buffer at the cursors of loop state `s`:
the text at `msgDecode` and the decoded bytes at `hexDecode`. -/
def FrameAtCursor (rx : List Char) (buf : List Nat) (s : RxLoop) (f : List Char) : Prop :=
  f.length ≤ s.rx_len ∧
    (∀ j, j < f.length → charAt rx (s.msgDecode + j) = charAt f j) ∧
    (∀ k, k < f.length / 2 → byteAt buf (s.hexDecode + k) = textByte f k)

/-- Every byte the decode loop reads for the frame lies inside the frame: its
type byte, offsets up to 11 when the type is 3, offsets up to 8 when it is 2. -/
def readsInside (f : List Char) : Prop :=
  6 ≤ f.length / 2 ∧ (frameByte f 5 = LIGHT_MSG_VAR_ALL → 12 ≤ f.length / 2) ∧
    (frameByte f 5 = LIGHT_MSG_VAR_SET → 9 ≤ f.length / 2)

instance (f : List Char) : Decidable (readsInside f) := by
  unfold readsInside
  infer_instance

/-- The `light_status` member selected by a field code of the protocol:
0 power, 1 channel, 2 brightness, 3 colour temperature, 4 hue, 5 saturation. -/
def LightStatus.field (st : LightStatus) (code : Nat) : Option Int :=
  match code with
  | 0 => some st.on_off
  | 1 => some st.channel
  | 2 => some st.brightness
  | 3 => some st.cct
  | 4 => some st.hue
  | 5 => some st.saturation
  | _ => none

/-! ## CRC-16/XMODEM and uppercase hex text, as the spec words them -/

/-- One bit step of the CRC-16/XMODEM register, as the spec words it: if the
high bit is set, shift left and XOR with the polynomial 0x1021, else shift
left (the register keeps 16 bits). -/
def xmodemBit (reg : Nat) : Nat :=
  if reg.testBit 15 then (reg * 2 % 65536) ^^^ 0x1021 else reg * 2 % 65536

/-- One byte step: XOR the byte into the high byte of the register, then 8 bit
steps. -/
def xmodemByte (reg b : Nat) : Nat := xmodemBit^[8] (reg ^^^ (b * 256))

/-- CRC-16/XMODEM of a byte sequence: initial value 0, bytes folded in order,
no reflection, no final XOR. -/
def crc16_xmodem (bytes : List Nat) : Nat := bytes.foldl xmodemByte 0

/-- Uppercase hexadecimal digit of a number 0..15, as the spec words it. -/
def upperHexDigit (v : Nat) : Char := "0123456789ABCDEF".toList.getD v 'X'

/-- Uppercase hex text of a byte sequence: two digits per byte, high nibble
first. -/
def upperHexText : List Nat → List Char
  | [] => []
  | b :: bs => upperHexDigit (b / 16) :: upperHexDigit (b % 16) :: upperHexText bs

/-- The four uppercase hex digits of a 16-bit value, most significant first. -/
def upperHex16 (n : Nat) : List Char :=
  [upperHexDigit (n / 4096 % 16), upperHexDigit (n / 256 % 16), upperHexDigit (n / 16 % 16),
    upperHexDigit (n % 16)]

/-- The set commands documented in `GvmLightControl.h`: setting, value, text. -/
def documentedSetCommands : List (Nat × Nat × String) :=
  [ (2, 0x00, "4C5409003057000201005C9E"), (2, 0x03, "4C5409003057000201036CFD"),
    (2, 0x32, "4C5409003057000201324A8F"), (2, 0x64, "4C5409003057000201644C1E"),
    (3, 0x20, "4C5409003057000301204FCC"), (3, 0x2C, "4C54090030570003012C8E40"),
    (3, 0x38, "4C540900305700030138DCF5"), (4, 0x00, "4C540900305700040100EE3E"),
    (4, 0x01, "4C540900305700040101FE1F"), (4, 0x38, "4C5409003057000401385965"),
    (4, 0x3C, "4C54090030570004013C19E1"), (5, 0x00, "4C540900305700050100D90E"),
    (5, 0x19, "4C5409003057000501195A16"), (5, 0x64, "4C540900305700050164F52C") ]

/-- The `light_status` with the member selected by a field code replaced by
`v`, unchanged for a code above 5 (the table of `LightStatus.field`). -/
def LightStatus.setField (st : LightStatus) (code : Nat) (v : Int) : LightStatus :=
  match code with
  | 0 => { st with on_off := v }
  | 1 => { st with channel := v }
  | 2 => { st with brightness := v }
  | 3 => { st with cct := v }
  | 4 => { st with hue := v }
  | 5 => { st with saturation := v }
  | _ => st

/-! ## Sequences of operations on the object, and the ranges of its fields -/

/-- An operation a caller performs on the object: one call of `read_udp` (with
the datagrams pending on the socket) or one call of a setter. -/
inductive Op where
  | decode (pending : List (List Char))
  | setOnOff (v : Int)
  | setChannel (v : Int)
  | setBrightness (v : Int)
  | setCct (v : Int)
  | setHue (v : Int)
  | setSaturation (v : Int)
deriving Repr

/-- The object after one operation. -/
def Op.apply (g : GvmLightControl) : Op → GvmLightControl
  | Op.decode pending => (read_udp g pending).1
  | Op.setOnOff v => (GvmLight.setOnOff g v).1
  | Op.setChannel v => (GvmLight.setChannel g v).1
  | Op.setBrightness v => (GvmLight.setBrightness g v).1
  | Op.setCct v => (GvmLight.setCct g v).1
  | Op.setHue v => (GvmLight.setHue g v).1
  | Op.setSaturation v => (GvmLight.setSaturation g v).1

/-- The object after a sequence of operations, first to last. -/
def runOps (g : GvmLightControl) (ops : List Op) : GvmLightControl := ops.foldl Op.apply g

/-- The documented range invariant: every field is unknown (-1) or within its
range: power 0..1, channel 1..12, brightness 0..100, cct 32..56, hue 0..72,
saturation 0..100. -/
def LightStatus.inDocumentedRanges (st : LightStatus) : Prop :=
  (st.on_off = -1 ∨ (0 ≤ st.on_off ∧ st.on_off ≤ 1)) ∧
    (st.channel = -1 ∨ (1 ≤ st.channel ∧ st.channel ≤ 12)) ∧
    (st.brightness = -1 ∨ (0 ≤ st.brightness ∧ st.brightness ≤ 100)) ∧
    (st.cct = -1 ∨ (32 ≤ st.cct ∧ st.cct ≤ 56)) ∧
    (st.hue = -1 ∨ (0 ≤ st.hue ∧ st.hue ≤ 72)) ∧
    (st.saturation = -1 ∨ (0 ≤ st.saturation ∧ st.saturation ≤ 100))

instance (st : LightStatus) : Decidable st.inDocumentedRanges := by
  unfold LightStatus.inDocumentedRanges
  infer_instance

/-- Every field is unknown (-1) or a byte value 0..255. -/
def LightStatus.bytesOrUnknown (st : LightStatus) : Prop :=
  (-1 ≤ st.on_off ∧ st.on_off ≤ 255) ∧ (-1 ≤ st.channel ∧ st.channel ≤ 255) ∧
    (-1 ≤ st.brightness ∧ st.brightness ≤ 255) ∧ (-1 ≤ st.cct ∧ st.cct ≤ 255) ∧
    (-1 ≤ st.hue ∧ st.hue ≤ 255) ∧ (-1 ≤ st.saturation ∧ st.saturation ≤ 255)

instance (st : LightStatus) : Decidable st.bytesOrUnknown := by
  unfold LightStatus.bytesOrUnknown
  infer_instance

/-! ## Buffers of several frames -/

/-- The first candidate frame of a received buffer fails validation: fewer
than 6 digits, wrong magic, a declared length exceeding the remaining bytes,
or a CRC mismatch. -/
def firstFrameRejected (d : List Char) : Prop :=
  d.length < 6 ∨ frameByte d 0 ≠ 0x4C ∨ frameByte d 1 ≠ 0x54 ∨
    d.length / 2 - 3 < frameByte d 2 ∨
    calcCrcFromHexStr d (2 * (3 + frameByte d 2 - 2)) ≠
      frameByte d (3 + frameByte d 2 - 2) * 256 + frameByte d (3 + frameByte d 2 - 2 + 1)

instance (d : List Char) : Decidable (firstFrameRejected d) := by
  unfold firstFrameRejected
  infer_instance

/-- The messages of consecutive frames applied in order, each read at its own
offset in the decode buffer. -/
def applyFrames (buf : List Nat) : Nat → GvmLightControl → List (List Char) → GvmLightControl
  | _, g, [] => g
  | off, g, f :: fs => applyFrames buf (off + f.length / 2) (applyMessage buf off g) fs

/-- What is left of the buffer at the cursors of loop state `s` is the text
`r`. -/
def RestAtCursor (rx : List Char) (buf : List Nat) (s : RxLoop) (r : List Char) : Prop :=
  s.rx_len = r.length ∧
    (∀ j, j < r.length → charAt rx (s.msgDecode + j) = charAt r j) ∧
    (∀ k, k < r.length / 2 → byteAt buf (s.hexDecode + k) = textByte r k)

/-! ## GvmLightControl.cpp: joining the light's network

The WiFi stack, the sockets and the clock are collaborators of the code. They
are a record of functions over a state `W` of their own: `WiFi.status()` and
the flag `disconnected` are reads of that state, which the code advances by
calling the collaborator (`WiFi.begin`, `socket`, `recvfrom`, ...) or by
sleeping in `delay`. What the code does to its environment is kept as a list
of events. -/

/-- The strings `ssid` and `password` of the source. -/
def ssid : String := "GVM_LED"

def password : String := "gvm_admin"

/-- An entry of the scan: `WiFi.SSID(i)`, `WiFi.channel(i)`, `WiFi.BSSID(i)`. -/
structure ScanEntry where
  ssid : String
  channel : Int
  bssid : List Nat
deriving DecidableEq, Repr

/-- The remembered station configuration `current_conf.sta`. -/
structure StaConfig where
  ssid : String
  password : String
  channel : Int
  bssid : List Nat
deriving DecidableEq, Repr

/-- What the code does to its environment while joining. -/
inductive Event where
  | connectAttempt (bssid : List Nat) (attempt : Int)
  | wifiBegin (ssid password : String) (channel : Int) (bssid : List Nat)
  | delay (ms : Nat)
  | openUdp (port : Nat)
  | poll (fd : Int) (msgs : Nat)
  | clearWifi
  | scanNetworks
deriving DecidableEq, Repr

/-- The collaborators, over their own state `W`:
`connected` is `WiFi.status() == WL_CONNECTED`; `disconnected` is the flag set
by `WiFiStationDisconnected` and `clearDisconnected` the assignment
`disconnected = 0`; `begin` is `WiFi.begin(ssid, password, channel, bssid)`;
`delay` is `delay(ms)`; `socket` is the descriptor `open_udp_port` obtains for a
port and `close` is `close(fd)`; `recv` gives the datagrams `recvfrom` returns
on a descriptor before it reports that nothing is pending; `getConfig` is the
configuration `esp_wifi_get_config` returns when it answers `ESP_OK`;
`setMode` is `WiFi.mode` with `WiFi.onEvent`; `clear` is the three calls of
`clear_wifi`; `scan` is `WiFi.scanNetworks()` with the entries it found (a
failed scan, which returns a negative count, acts as an empty list). -/
structure Collaborator (W : Type) where
  connected : W → Bool
  disconnected : W → Bool
  clearDisconnected : W → W
  begin : W → String → String → Int → List Nat → W
  delay : W → Nat → W
  socket : W → Nat → Int × W
  close : W → Int → W
  recv : W → Int → List (List Char) × W
  getConfig : W → Option StaConfig
  setMode : W → W
  clear : W → W
  scan : W → List ScanEntry × W

/-- The object, the state of its collaborators and the events so far. -/
structure World (W : Type) where
  g : GvmLightControl
  net : W
  events : List Event

/-- The call `delay(ms)`. -/
def doDelay {W : Type} (S : Collaborator W) (ms : Nat) (w : World W) : World W :=
  { w with net := S.delay w.net ms, events := w.events ++ [Event.delay ms] }

/-- The loop `while (WiFi.status() != WL_CONNECTED && !disconnected &&
wait_tests-- > 0) delay(100);` of `try_connect_wifi`, from `wait_tests`. -/
def waitConnected {W : Type} (S : Collaborator W) : Nat → World W → World W
  | 0, w => w
  | wait_tests + 1, w =>
    if !S.connected w.net && !S.disconnected w.net then
      waitConnected S wait_tests (doDelay S 100 w)
    else w

/-- The body of the attempt loop of `try_connect_wifi` up to its last `if`:
the callback when one is registered, `disconnected = 0`, `WiFi.begin`, and the
wait with `wait_tests = 35`. -/
def joinAttempt {W : Type} (S : Collaborator W) (ssid password : String) (channel : Int)
    (bssid : List Nat) (connection_attempts : Int) (w : World W) : World W :=
  let w :=
    if w.g.onWiFiConnectAttempt then
      { w with events := w.events ++ [Event.connectAttempt bssid connection_attempts] }
    else w
  let w := { w with net := S.clearDisconnected w.net }
  let w := { w with
    net := S.begin w.net ssid password channel bssid,
    events := w.events ++ [Event.wifiBegin ssid password channel bssid] }
  waitConnected S 35 w

/-- The loop `while (connection_attempts++ < 2) { ...; if (WiFi.status() ==
WL_CONNECTED) break; }` of `try_connect_wifi`, at most `fuel` tests of its
condition. -/
def connectAttempts {W : Type} (S : Collaborator W) (ssid password : String) (channel : Int)
    (bssid : List Nat) : Nat → Int → World W → World W
  | 0, _, w => w
  | fuel + 1, connection_attempts, w =>
    if connection_attempts < 2 then
      let w := joinAttempt S ssid password channel bssid (connection_attempts + 1) w
      if S.connected w.net then w
      else connectAttempts S ssid password channel bssid fuel (connection_attempts + 1) w
    else w

/-- `static int open_udp_port(int *fd, int port)`: the world after the call
and the descriptor stored in `*fd`. -/
def open_udp_port {W : Type} (S : Collaborator W) (fd : Int) (port : Nat) (w : World W) :
    World W × Int :=
  let net := if fd ≠ -1 then S.close w.net fd else w.net
  let r := S.socket net port
  ({ w with net := r.2, events := w.events ++ [Event.openUdp port] }, r.1)

/-- The loop `while (waits-- >= 0) { if (read_udp(udp_1112_fd)) return 0;
delay(20); }` of `test_light_connection` followed by `return -1`, at most
`fuel` tests of its condition. -/
def pollLoop {W : Type} (S : Collaborator W) : Nat → Int → World W → World W × Int
  | 0, _, w => (w, -1)
  | fuel + 1, waits, w =>
    if waits ≥ 0 then
      let p := S.recv w.net w.g.udp_1112_fd
      let r := read_udp w.g p.1
      let w' : World W :=
        { g := r.1, net := p.2, events := w.events ++ [Event.poll w.g.udp_1112_fd r.2] }
      if r.2 ≠ 0 then (w', 0)
      else pollLoop S fuel (waits - 1) (doDelay S 20 w')
    else (w, -1)

/-- `int GvmLightControl::test_light_connection()`: both ports are opened, the
hello message is sent and the status socket is polled with `waits = 60`. -/
def test_light_connection {W : Type} (S : Collaborator W) (w : World W) : World W × Int :=
  let r := open_udp_port S w.g.udp_2525_fd 2525 w
  let w : World W := { r.1 with g := { r.1.g with udp_2525_fd := r.2 } }
  let r := open_udp_port S w.g.udp_1112_fd 1112 w
  let w : World W := { r.1 with g := { r.1.g with udp_1112_fd := r.2 } }
  let w : World W := { w with g := (send_hello_msg w.g).1 }
  pollLoop S 62 60 w

/-- `int GvmLightControl::try_connect_wifi(ssid, password, channel, bssid)`. -/
def try_connect_wifi {W : Type} (S : Collaborator W) (ssid password : String) (channel : Int)
    (bssid : List Nat) (w : World W) : World W × Int :=
  let w := connectAttempts S ssid password channel bssid 3 0 w
  if !S.connected w.net then (w, -1)
  else
    let r := test_light_connection S w
    if r.2 = 0 then (r.1, 0) else (r.1, -1)

/-- `static void clear_wifi()`. -/
def clear_wifi {W : Type} (S : Collaborator W) (w : World W) : World W :=
  let w : World W := { w with net := S.clear w.net, events := w.events ++ [Event.clearWifi] }
  doDelay S 300 (doDelay S 100 w)

/-- The loop `for (int i = 0; i < n; ++i)` of `find_and_join_light_wifi` over
the scanned entries, followed by `return -1`: the world, the value returned
and `*networks_found`. -/
def scanLoop {W : Type} (S : Collaborator W) : List ScanEntry → Nat → World W → World W × Int × Nat
  | [], networks_found, w => (w, -1, networks_found)
  | e :: rest, networks_found, w =>
    if e.ssid ≠ ssid then scanLoop S rest networks_found w
    else
      let r := try_connect_wifi S e.ssid password e.channel e.bssid w
      if r.2 = 0 then (r.1, 0, networks_found + 1)
      else scanLoop S rest (networks_found + 1) r.1

/-- The first part of `find_and_join_light_wifi`: station mode, then the
attempt on the remembered configuration when there is one. The world after it
and whether the function returns 0 there. -/
def tryRemembered {W : Type} (S : Collaborator W) (w : World W) : World W × Bool :=
  let w : World W := { w with net := S.setMode w.net }
  match S.getConfig w.net with
  | some c =>
    let r := try_connect_wifi S c.ssid c.password c.channel c.bssid w
    (r.1, decide (r.2 = 0))
  | none => (w, false)

/-- The call `WiFi.scanNetworks()` of `find_and_join_light_wifi`, after
`clear_wifi()`: the world after it and the entries found. -/
def scanAfterClear {W : Type} (S : Collaborator W) (w : World W) : World W × List ScanEntry :=
  let w := clear_wifi S w
  let r := S.scan w.net
  ({ w with net := r.2, events := w.events ++ [Event.scanNetworks] }, r.1)

/-- `int GvmLightControl::find_and_join_light_wifi(int *networks_found)` with a
non-null `networks_found`: the world, the value returned and `*networks_found`
after the call. -/
def find_and_join_light_wifi {W : Type} (S : Collaborator W) (w : World W) :
    World W × Int × Nat :=
  let networks_found := 0
  let r := tryRemembered S w
  if r.2 then (r.1, 0, networks_found)
  else
    let sc := scanAfterClear S r.1
    if sc.2.length = 0 then (sc.1, -1, networks_found)
    else scanLoop S sc.2 networks_found sc.1

/-! ## A scripted collaborator, and how events are read -/

/-- State of the scripted collaborator: the calls of `WiFi.begin` and the
polls of a socket so far, and whether the station is associated. -/
structure ScriptState where
  begins : Nat
  polls : Nat
  associated : Bool
deriving DecidableEq, Repr

/-- A collaborator that follows a script: the `n`-th call of `WiFi.begin`
associates at once when `n` is in `associateOn` and never otherwise; the
`n`-th poll of a socket delivers the datagram `reply` when `n` is in `replyOn`
and nothing otherwise; a socket for a port gets the port number as its
descriptor; nothing is remembered; the scan finds `found`. -/
def scripted (associateOn replyOn : List Nat) (reply : List Char) (found : List ScanEntry) :
    Collaborator ScriptState where
  connected s := s.associated
  disconnected _ := false
  clearDisconnected s := s
  begin s _ _ _ _ :=
    { s with begins := s.begins + 1, associated := decide (s.begins + 1 ∈ associateOn) }
  delay s _ := s
  socket s port := ((port : Int), s)
  close s _ := s
  recv s _ := (if s.polls + 1 ∈ replyOn then [reply] else [], { s with polls := s.polls + 1 })
  getConfig _ := none
  setMode s := s
  clear s := { s with associated := false }
  scan s := (found, s)

/-- The world a session starts from: the object as constructed, with a
connect-attempt callback registered. -/
def World.start : World ScriptState :=
  { g := { GvmLightControl.init with onWiFiConnectAttempt := true },
    net := { begins := 0, polls := 0, associated := false },
    events := [] }

/-- The events of joining: calls of the connect-attempt callback and of
`WiFi.begin`. -/
def Event.isJoin : Event → Bool
  | Event.connectAttempt _ _ => true
  | Event.wifiBegin _ _ _ _ => true
  | _ => false

/-- The events of verification: opening a port and polling a socket. -/
def Event.isVerify : Event → Bool
  | Event.openUdp _ => true
  | Event.poll _ _ => true
  | _ => false

/-- The join events of one attempt with number `n`: the callback when one is
registered, then `WiFi.begin`. -/
def attemptEvents (registered : Bool) (ssid password : String) (channel : Int)
    (bssid : List Nat) (n : Int) : List Event :=
  (if registered then [Event.connectAttempt bssid n] else []) ++
    [Event.wifiBegin ssid password channel bssid]

/-- The number of scanned entries whose name is that of the light's
network. -/
def countLightNetworks (found : List ScanEntry) : Nat := found.countP (fun e => e.ssid = ssid)

/-- The events of `n` polls of descriptor `fd` that each validate no frame,
every one followed by the 20 ms delay. -/
def idlePolls (fd : Int) (n : Nat) : List Event :=
  (List.replicate n [Event.poll fd 0, Event.delay 20]).flatten

/-- Every matching entry of `found`, tried in scan order from the world the
one before it left, failed (`try_connect_wifi` returned non-zero); `w'` is the
world after the last of them. Entries with another name are passed over. -/
def triedAndFailed {W : Type} (S : Collaborator W) : List ScanEntry → World W → World W → Prop
  | [], w, w' => w' = w
  | e :: rest, w, w' =>
    if e.ssid ≠ ssid then triedAndFailed S rest w w'
    else
      (try_connect_wifi S e.ssid password e.channel e.bssid w).2 ≠ 0 ∧
        triedAndFailed S rest (try_connect_wifi S e.ssid password e.channel e.bssid w).1 w'

/-- Every call of `WiFi.begin` among the events names the network `ssid` with
the password `password`. -/
def joinsOnly (ssid password : String) (evs : List Event) : Prop :=
  ∀ s p c b, Event.wifiBegin s p c b ∈ evs → s = ssid ∧ p = password

/-- The setters with the documented range of their setting: power 0..1,
channel 1..12, brightness 0..100, colour temperature 32..56, hue 0..72,
saturation 0..100. -/
def documentedSetters : List ((GvmLightControl → Int → GvmLightControl × Int) × Int × Int) :=
  [(setOnOff, 0, 1), (setChannel, 1, 12), (setBrightness, 0, 100), (setCct, 32, 56),
    (setHue, 0, 72), (setSaturation, 0, 100)]

/-! # Properties -/

/-! ## Hex codec lemmas -/

theorem charToVal_lt (c : Char) : charToVal c < 16 := by
  unfold charToVal
  split_ifs <;> omega

theorem charToVal_valToChar (v : Nat) (h : v < 16) : charToVal (valToChar v) = v := by
  interval_cases v <;> decide

theorem nibbles_or (v1 v2 : Nat) (h1 : v1 < 16) (h2 : v2 < 16) :
    v1 <<< 4 ||| v2 = 16 * v1 + v2 := by
  interval_cases v1 <;> interval_cases v2 <;> rfl

theorem byte_shift_lt (b : Nat) (h : b < 256) : b >>> 4 < 16 := by
  rw [Nat.shiftRight_eq_div_pow]; omega

theorem byte_and_lt (b : Nat) : b &&& 0xf < 16 := by
  have := Nat.and_le_right (n := b) (m := 0xf)
  omega

theorem byte_split (b : Nat) : 16 * (b >>> 4) + (b &&& 0xf) = b := by
  rw [Nat.shiftRight_eq_div_pow]
  have h : b &&& 0xf = b % 16 := Nat.and_pow_two_sub_one_eq_mod b 4
  rw [h]; omega

theorem byteAt_cons_zero (x : Nat) (xs : List Nat) : byteAt (x :: xs) 0 = x % 256 := by
  simp [byteAt]

theorem hexStringToBytes_cons (c1 c2 : Char) (rest : List Char) (len : Nat) :
    hexStringToBytes (c1 :: c2 :: rest) (len + 2) =
      (16 * charToVal c1 + charToVal c2) :: hexStringToBytes rest len := by
  have h1 := charToVal_lt c1
  have h2 := charToVal_lt c2
  simp only [hexStringToBytes, charAt, List.getD_cons_zero, List.getD_cons_succ, List.drop_succ_cons,
    List.drop_zero]
  rw [nibbles_or _ _ h1 h2]
  congr 1
  omega

theorem bytesToHexString_cons (x : Nat) (xs : List Nat) (len : Nat) :
    bytesToHexString (x :: xs) (len + 1) =
      valToChar ((x % 256) >>> 4) :: valToChar ((x % 256) &&& 0xf) :: bytesToHexString xs len := by
  simp [bytesToHexString, byteAt_cons_zero]

theorem hexStringToBytes_bytesToHexString (b : List Nat) (hb : ∀ x ∈ b, x < 256) :
    hexStringToBytes (bytesToHexString b b.length) (2 * b.length) = b := by
  induction b with
  | nil => rfl
  | cons x xs ih =>
    have hx : x < 256 := hb x (List.mem_cons_self _ _)
    have hxs : ∀ y ∈ xs, y < 256 := fun y hy => hb y (List.mem_cons_of_mem _ hy)
    rw [List.length_cons, bytesToHexString_cons, Nat.mul_succ, hexStringToBytes_cons, ih hxs,
      Nat.mod_eq_of_lt hx, charToVal_valToChar _ (byte_shift_lt x hx),
      charToVal_valToChar _ (byte_and_lt x), byte_split]

/-! ## Claims on the hex codec -/

/-- C5: hex round trip. For every byte sequence `b` (entries below 256) of
length `n`, `hexStringToBytes(bytesToHexString(b, n), 2n)` writes exactly the
`n` bytes of `b`. -/
theorem hex_round_trip (b : List Nat) (hb : ∀ x ∈ b, x < 256) :
    hexStringToBytes (bytesToHexString b b.length) (2 * b.length) = b ∧
      (hexStringToBytes (bytesToHexString b b.length) (2 * b.length)).length = b.length := by
  rw [hexStringToBytes_bytesToHexString b hb]
  exact ⟨rfl, rfl⟩

/-- Witness of `hex_round_trip` on the bytes 4C 54 09 00 FF. -/
theorem hex_round_trip_witness :
    hexStringToBytes (bytesToHexString [0x4C, 0x54, 0x09, 0x00, 0xFF] 5) (2 * 5)
      = [0x4C, 0x54, 0x09, 0x00, 0xFF] :=
  (hex_round_trip [0x4C, 0x54, 0x09, 0x00, 0xFF] (by decide)).1

/-! ## CRC lemmas -/

theorem xor_const_mod (a : Nat) : (a ^^^ 0x1021) % 65536 = (a % 65536) ^^^ 0x1021 := by
  apply Nat.eq_of_testBit_eq
  intro i
  have e : (65536 : Nat) = 2 ^ 16 := rfl
  rw [e, Nat.testBit_mod_two_pow, Nat.testBit_xor, Nat.testBit_xor, Nat.testBit_mod_two_pow]
  by_cases h : i < 16
  · simp [h]
  · have hk : Nat.testBit 0x1021 i = false := by
      apply Nat.testBit_lt_two_pow
      calc (0x1021 : Nat) < 2 ^ 16 := by decide
        _ ≤ 2 ^ i := Nat.pow_le_pow_right (by decide) (by omega)
    simp [h, hk]

theorem testBit_8000 (i : Nat) : Nat.testBit 0x8000 i = decide (15 = i) := by
  have e15 : (0x8000 : Nat) = 2 ^ 15 := rfl
  rw [e15, Nat.testBit_two_pow]

theorem testBit_15 (c : Nat) (h : c < 65536) : Nat.testBit c 15 = decide (32768 ≤ c) := by
  rw [Nat.testBit_to_div_mod]
  congr 1
  apply propext
  constructor <;> intro h' <;> omega

theorem and_8000 (c : Nat) (h : c < 65536) : (c &&& 0x8000 ≠ 0) ↔ 32768 ≤ c := by
  have e : c &&& 0x8000 = if 32768 ≤ c then 0x8000 else 0 := by
    apply Nat.eq_of_testBit_eq
    intro i
    rw [Nat.testBit_and, testBit_8000]
    by_cases hc : 32768 ≤ c
    · rw [if_pos hc, testBit_8000]
      by_cases hi : 15 = i
      · subst hi
        simp [testBit_15 c h, hc]
      · simp [hi]
    · rw [if_neg hc, Nat.zero_testBit]
      by_cases hi : 15 = i
      · subst hi
        simp [testBit_15 c h, hc]
      · simp [hi]
  rw [e]
  by_cases hc : 32768 ≤ c <;> simp [hc]

theorem crcShift_eq (c : Nat) (h : c < 65536) :
    crcShift c = if 32768 ≤ c then (2 * c % 65536) ^^^ 0x1021 else 2 * c % 65536 := by
  unfold crcShift
  have hs : c <<< 1 = 2 * c := by rw [Nat.shiftLeft_eq]; omega
  rw [hs, xor_const_mod]
  by_cases hc : 32768 ≤ c
  · rw [if_pos ((and_8000 c h).2 hc), if_pos hc]
  · rw [if_neg (fun h' => hc ((and_8000 c h).1 h')), if_neg hc]

theorem crcShift_lt (c : Nat) : crcShift c < 65536 := by
  unfold crcShift
  split_ifs <;> omega

theorem crcShift_inj (a b : Nat) (ha : a < 65536) (hb : b < 65536)
    (h : crcShift a = crcShift b) : a = b := by
  rw [crcShift_eq a ha, crcShift_eq b hb] at h
  have pa : ((2 * a % 65536) ^^^ 0x1021) % 2 = 1 := by rw [Nat.xor_mod_two_eq]; omega
  have pb : ((2 * b % 65536) ^^^ 0x1021) % 2 = 1 := by rw [Nat.xor_mod_two_eq]; omega
  by_cases hca : 32768 ≤ a <;> by_cases hcb : 32768 ≤ b
  · rw [if_pos hca, if_pos hcb] at h
    have := Nat.xor_left_inj.1 h
    omega
  · rw [if_pos hca, if_neg hcb] at h
    rw [h] at pa
    omega
  · rw [if_neg hca, if_pos hcb] at h
    rw [← h] at pb
    omega
  · rw [if_neg hca, if_neg hcb] at h
    omega

theorem crcBits_lt (n c : Nat) (h : c < 65536) : crcBits n c < 65536 := by
  induction n generalizing c with
  | zero => exact h
  | succ n ih => exact ih _ (crcShift_lt c)

theorem crcBits_inj (n a b : Nat) (ha : a < 65536) (hb : b < 65536)
    (h : crcBits n a = crcBits n b) : a = b := by
  induction n generalizing a b with
  | zero => exact h
  | succ n ih =>
    exact crcShift_inj a b ha hb (ih _ _ (crcShift_lt a) (crcShift_lt b) h)

theorem crcByte_lt (crc c : Nat) : crcByte crc c < 65536 :=
  crcBits_lt 8 _ (Nat.mod_lt _ (by decide))

theorem xor_shift8_lt (crc c : Nat) (h : crc < 65536) (hc : c < 256) :
    crc ^^^ (c <<< 8) < 65536 := by
  have e : (65536 : Nat) = 2 ^ 16 := rfl
  rw [e]
  apply Nat.xor_lt_two_pow
  · rw [← e]; exact h
  · rw [Nat.shiftLeft_eq, ← e]; omega

/-- Different registers stay different after folding the same byte. -/
theorem crcByte_inj_crc (a b c : Nat) (ha : a < 65536) (hb : b < 65536) (hc : c < 256)
    (h : crcByte a c = crcByte b c) : a = b := by
  unfold crcByte at h
  have h1 := crcBits_inj 8 _ _ (Nat.mod_lt _ (by decide)) (Nat.mod_lt _ (by decide)) h
  rw [Nat.mod_eq_of_lt (xor_shift8_lt a c ha hc), Nat.mod_eq_of_lt (xor_shift8_lt b c hb hc)] at h1
  exact Nat.xor_left_inj.1 h1

/-- Different bytes folded into the same register give different registers. -/
theorem crcByte_inj_byte (crc c d : Nat) (h0 : crc < 65536) (hc : c < 256) (hd : d < 256)
    (h : crcByte crc c = crcByte crc d) : c = d := by
  unfold crcByte at h
  have h1 := crcBits_inj 8 _ _ (Nat.mod_lt _ (by decide)) (Nat.mod_lt _ (by decide)) h
  rw [Nat.mod_eq_of_lt (xor_shift8_lt crc c h0 hc),
    Nat.mod_eq_of_lt (xor_shift8_lt crc d h0 hd)] at h1
  have h2 := Nat.xor_right_inj.1 h1
  rw [Nat.shiftLeft_eq, Nat.shiftLeft_eq] at h2
  omega

theorem calcCrcLoop_cons (c1 c2 : Char) (rest : List Char) (len crc : Nat) :
    calcCrcLoop (c1 :: c2 :: rest) (len + 2) crc =
      calcCrcLoop rest len (crcByte crc (16 * charToVal c1 + charToVal c2)) := by
  have h1 := charToVal_lt c1
  have h2 := charToVal_lt c2
  simp only [calcCrcLoop, charAt, List.getD_cons_zero, List.getD_cons_succ, List.drop_succ_cons,
    List.drop_zero, crcByte]
  have e : (charToVal c1 <<< 4 % 256 + charToVal c2) % 256 = 16 * charToVal c1 + charToVal c2 := by
    rw [Nat.shiftLeft_eq]; omega
  rw [e]

theorem calcCrcLoop_lt : ∀ (len : Nat) (str : List Char) (crc : Nat), crc < 65536 →
    calcCrcLoop str len crc < 65536
  | 0, _, _, h => h
  | 1, _, _, h => h
  | len + 2, str, crc, _ => by
    unfold calcCrcLoop
    exact calcCrcLoop_lt len _ _ (crcBits_lt 8 _ (Nat.mod_lt _ (by decide)))

theorem calcCrcFromHexStr_eq (str : List Char) (len : Nat) :
    calcCrcFromHexStr str len = calcCrcLoop str len 0 := by
  unfold calcCrcFromHexStr
  have e : (0xFFFF : Nat) = 2 ^ 16 - 1 := rfl
  rw [e, Nat.and_pow_two_sub_one_eq_mod]
  exact Nat.mod_eq_of_lt (calcCrcLoop_lt len str 0 (by decide))

theorem calcCrcFromHexStr_lt (str : List Char) (len : Nat) : calcCrcFromHexStr str len < 65536 := by
  unfold calcCrcFromHexStr
  have := Nat.and_le_right (n := calcCrcLoop str len 0) (m := 0xFFFF)
  omega

/-! ## Reading bytes and CRCs off the text -/

theorem textByte_lt (t : List Char) (k : Nat) : textByte t k < 256 := by
  have h1 := charToVal_lt (charAt t (2 * k))
  have h2 := charToVal_lt (charAt t (2 * k + 1))
  unfold textByte; omega

theorem charAt_drop (t : List Char) (n i : Nat) : charAt (t.drop n) i = charAt t (n + i) := by
  simp [charAt, List.getD_eq_getElem?_getD, List.getElem?_drop]

theorem textByte_drop (t : List Char) (n k : Nat) :
    textByte (t.drop (2 * n)) k = textByte t (n + k) := by
  simp only [textByte, charAt_drop]
  have e1 : 2 * n + 2 * k = 2 * (n + k) := by omega
  have e2 : 2 * n + (2 * k + 1) = 2 * (n + k) + 1 := by omega
  rw [e1, e2]

theorem hexStringToBytes_step (t : List Char) (len : Nat) :
    hexStringToBytes t (len + 2) = textByte t 0 :: hexStringToBytes (t.drop 2) len := by
  have h1 := charToVal_lt (charAt t 0)
  have h2 := charToVal_lt (charAt t 1)
  simp only [hexStringToBytes, textByte]
  rw [nibbles_or _ _ h1 h2]
  congr 1
  simp only [Nat.mul_zero, Nat.zero_add]
  omega

theorem hexStringToBytes_length : ∀ (len : Nat) (t : List Char),
    (hexStringToBytes t len).length = len / 2
  | 0, _ => rfl
  | 1, _ => rfl
  | len + 2, t => by
    rw [hexStringToBytes_step, List.length_cons, hexStringToBytes_length len]
    omega

theorem getD_hexStringToBytes : ∀ (len : Nat) (t : List Char) (k : Nat), k < len / 2 →
    (hexStringToBytes t len).getD k 0 = textByte t k
  | 0, _, k, h => by omega
  | 1, _, k, h => by omega
  | len + 2, t, 0, _ => by
    rw [hexStringToBytes_step, List.getD_cons_zero]
  | len + 2, t, k + 1, h => by
    rw [hexStringToBytes_step, List.getD_cons_succ,
      getD_hexStringToBytes len (t.drop 2) k (by omega)]
    have := textByte_drop t 1 k
    rw [Nat.mul_one] at this
    rw [this, Nat.add_comm]

/-- Byte `k` written by `hexStringToBytes` is `16 * charToVal` of digit `2k`
plus `charToVal` of digit `2k + 1`. -/
theorem byteAt_hexStringToBytes (len : Nat) (t : List Char) (k : Nat) (h : k < len / 2) :
    byteAt (hexStringToBytes t len) k = textByte t k := by
  unfold byteAt
  rw [getD_hexStringToBytes len t k h]
  exact Nat.mod_eq_of_lt (textByte_lt t k)

theorem byteAt_decodeInto (buf : List Nat) (t : List Char) (len k : Nat) (h : k < len / 2) :
    byteAt (decodeInto buf t len) k = textByte t k := by
  have hl := hexStringToBytes_length len t
  unfold decodeInto byteAt
  simp only []
  rw [List.getD_append _ _ _ _ (by omega), getD_hexStringToBytes len t k h]
  exact Nat.mod_eq_of_lt (textByte_lt t k)

theorem calcCrcLoop_step (t : List Char) (len crc : Nat) :
    calcCrcLoop t (len + 2) crc = calcCrcLoop (t.drop 2) len (crcByte crc (textByte t 0)) := by
  have h1 := charToVal_lt (charAt t 0)
  have h2 := charToVal_lt (charAt t 1)
  simp only [calcCrcLoop, crcByte, textByte, Nat.mul_zero, Nat.zero_add]
  have e : (charToVal (charAt t 0) <<< 4 % 256 + charToVal (charAt t 1)) % 256
      = 16 * charToVal (charAt t 0) + charToVal (charAt t 1) := by
    rw [Nat.shiftLeft_eq]; omega
  rw [e]

/-- The CRC loop reads only the first `len` characters. -/
theorem calcCrcLoop_congr : ∀ (len : Nat) (t u : List Char) (crc : Nat),
    (∀ i, i < 2 * (len / 2) → charAt t i = charAt u i) →
    calcCrcLoop t len crc = calcCrcLoop u len crc
  | 0, _, _, _, _ => rfl
  | 1, _, _, _, _ => rfl
  | len + 2, t, u, crc, h => by
    rw [calcCrcLoop_step, calcCrcLoop_step]
    have e : textByte t 0 = textByte u 0 := by
      unfold textByte
      rw [h (2 * 0) (by omega), h (2 * 0 + 1) (by omega)]
    rw [e]
    apply calcCrcLoop_congr len
    intro i hi
    rw [charAt_drop, charAt_drop]
    exact h _ (by omega)

theorem calcCrcLoop_inj : ∀ (len : Nat) (t : List Char) (a b : Nat), a < 65536 → b < 65536 →
    a ≠ b → calcCrcLoop t len a ≠ calcCrcLoop t len b
  | 0, _, _, _, _, _, h => h
  | 1, _, _, _, _, _, h => h
  | len + 2, t, a, b, ha, hb, h => by
    rw [calcCrcLoop_step, calcCrcLoop_step]
    apply calcCrcLoop_inj len _ _ _ (crcByte_lt _ _) (crcByte_lt _ _)
    intro he
    exact h (crcByte_inj_crc a b _ ha hb (textByte_lt t 0) he)

theorem charAt_set (t : List Char) (i : Nat) (c : Char) (j : Nat) (hi : i < t.length) :
    charAt (t.set i c) j = if j = i then c else charAt t j := by
  unfold charAt
  rw [List.getD_eq_getElem?_getD, List.getD_eq_getElem?_getD, List.getElem?_set]
  by_cases h : i = j
  · subst h
    simp [hi]
  · have h' : ¬ j = i := fun e => h e.symm
    simp [h, h']

theorem drop_two_set (t : List Char) (j : Nat) (c : Char) :
    (t.set (j + 2) c).drop 2 = (t.drop 2).set j c := by
  match t with
  | [] => simp
  | [_] => simp
  | _ :: _ :: _ => simp

/-- Changing the value of one hex digit inside the range the CRC loop reads
changes the CRC register it ends with. -/
theorem calcCrcLoop_set_ne : ∀ (len : Nat) (t : List Char) (i : Nat) (c : Char) (crc : Nat),
    crc < 65536 → i < 2 * (len / 2) → i < t.length →
    charToVal c ≠ charToVal (charAt t i) →
    calcCrcLoop (t.set i c) len crc ≠ calcCrcLoop t len crc
  | 0, _, i, _, _, _, h, _, _ => by omega
  | 1, _, i, _, _, _, h, _, _ => by omega
  | len + 2, t, 0, c, crc, hcrc, _, hlen, hne => by
    rw [calcCrcLoop_step, calcCrcLoop_step]
    have hd : (t.set 0 c).drop 2 = t.drop 2 := by
      match t with
      | [] => simp
      | [_] => simp
      | _ :: _ :: _ => simp
    rw [hd]
    apply calcCrcLoop_inj len _ _ _ (crcByte_lt _ _) (crcByte_lt _ _)
    intro he
    have hb := crcByte_inj_byte crc _ _ hcrc (textByte_lt _ 0) (textByte_lt _ 0) he
    unfold textByte at hb
    rw [charAt_set t 0 c _ hlen, charAt_set t 0 c _ hlen] at hb
    simp only [Nat.mul_zero, Nat.zero_add, if_true] at hb
    rw [if_neg (by decide)] at hb
    omega
  | len + 2, t, 1, c, crc, hcrc, _, hlen, hne => by
    rw [calcCrcLoop_step, calcCrcLoop_step]
    have hd : (t.set 1 c).drop 2 = t.drop 2 := by
      match t with
      | [] => simp
      | [_] => simp
      | _ :: _ :: _ => simp
    rw [hd]
    apply calcCrcLoop_inj len _ _ _ (crcByte_lt _ _) (crcByte_lt _ _)
    intro he
    have hb := crcByte_inj_byte crc _ _ hcrc (textByte_lt _ 0) (textByte_lt _ 0) he
    unfold textByte at hb
    rw [charAt_set t 1 c _ hlen, charAt_set t 1 c _ hlen] at hb
    simp only [Nat.mul_zero, Nat.zero_add, if_true] at hb
    rw [if_neg (by decide)] at hb
    omega
  | len + 2, t, j + 2, c, crc, hcrc, hi, hlen, hne => by
    rw [calcCrcLoop_step, calcCrcLoop_step, drop_two_set]
    have e : textByte (t.set (j + 2) c) 0 = textByte t 0 := by
      unfold textByte
      rw [charAt_set t (j + 2) c _ hlen, charAt_set t (j + 2) c _ hlen, if_neg (by omega),
        if_neg (by omega)]
    rw [e]
    apply calcCrcLoop_set_ne len (t.drop 2) j c _ (crcByte_lt _ _) (by omega)
      (by rw [List.length_drop]; omega)
    rw [charAt_drop, Nat.add_comm]
    exact hne

/-! ## The decode loop, one iteration at a time -/

theorem frameByte_eq (t : List Char) (k : Nat) (h : k < t.length / 2) :
    frameByte t k = textByte t k :=
  byteAt_hexStringToBytes t.length t k h

theorem validFrame_length_le (t : List Char) (h : validFrame t) : t.length ≤ 516 := by
  obtain ⟨h6, -, -, hl, -⟩ := h
  have := frameByte_eq t 2 (by omega)
  have := textByte_lt t 2
  omega

theorem decodeFrames_succ (rx : List Char) (buf : List Nat) (fuel : Nat) (s : RxLoop) :
    decodeFrames rx buf (fuel + 1) s =
      if frameGuard buf s then
        if frameCrc rx buf s ≠ frameMsgCrc buf s then s
        else
          decodeFrames rx buf fuel
            { g := applyMessage buf s.hexDecode s.g
              msgs_processed := s.msgs_processed + 1
              rx_len := s.rx_len - (3 + byteAt buf (s.hexDecode + 2)) * 2
              hexDecode := s.hexDecode + (3 + byteAt buf (s.hexDecode + 2))
              msgDecode := s.msgDecode + (3 + byteAt buf (s.hexDecode + 2)) * 2 }
      else s := rfl

/-- The loop stops where the guard fails, whatever iterations remain. -/
theorem decodeFrames_stop (rx : List Char) (buf : List Nat) (fuel : Nat) (s : RxLoop)
    (h : frameGuard buf s = false) : decodeFrames rx buf fuel s = s := by
  cases fuel with
  | zero => rfl
  | succ n => rw [decodeFrames_succ, h]; rfl

theorem frameGuard_short (buf : List Nat) (s : RxLoop) (h : s.rx_len < 6) :
    frameGuard buf s = false := by
  unfold frameGuard
  have : ¬ (s.rx_len ≥ 3 * 2) := by omega
  simp [this]

/-- The guard of the loop holds only when at least six characters remain. -/
theorem frameGuard_rx_len (buf : List Nat) (s : RxLoop) (h : frameGuard buf s = true) :
    6 ≤ s.rx_len := by
  by_contra hlt
  rw [frameGuard_short buf s (by omega)] at h
  exact Bool.false_ne_true h

/-- The bound on the iterations is never what ends the loop: any two bounds
above `rx_len / 6` give the same result, so `decodeFrames` with
`rx_len / 6 + 1` iterations is the `while` loop run to its exit. -/
theorem decodeFrames_fuel (rx : List Char) (buf : List Nat) :
    ∀ (fuel fuel' : Nat) (s : RxLoop), s.rx_len / 6 < fuel → s.rx_len / 6 < fuel' →
      decodeFrames rx buf fuel s = decodeFrames rx buf fuel' s
  | 0, _, _, h, _ => by omega
  | _ + 1, 0, _, _, h => by omega
  | n + 1, m + 1, s, hn, hm => by
    rw [decodeFrames_succ, decodeFrames_succ]
    by_cases hg : frameGuard buf s = true
    · have h6 := frameGuard_rx_len buf s hg
      rw [if_pos hg, if_pos hg]
      by_cases hc : frameCrc rx buf s ≠ frameMsgCrc buf s
      · rw [if_pos hc, if_pos hc]
      · rw [if_neg hc, if_neg hc]
        apply decodeFrames_fuel rx buf n m
        · show (s.rx_len - (3 + byteAt buf (s.hexDecode + 2)) * 2) / 6 < n
          omega
        · show (s.rx_len - (3 + byteAt buf (s.hexDecode + 2)) * 2) / 6 < m
          omega
    · rw [if_neg hg, if_neg hg]

theorem frameCrc_of_cursor (rx : List Char) (buf : List Nat) (s : RxLoop) (f : List Char)
    (h6 : 6 ≤ f.length) (hl : f.length = 2 * (3 + textByte f 2))
    (hw : FrameAtCursor rx buf s f) :
    frameCrc rx buf s = calcCrcFromHexStr f (2 * (3 + textByte f 2 - 2)) := by
  obtain ⟨-, hc, hb⟩ := hw
  unfold frameCrc
  rw [hb 2 (by omega), calcCrcFromHexStr_eq, calcCrcFromHexStr_eq]
  apply calcCrcLoop_congr
  intro i hi
  rw [charAt_drop]
  exact hc i (by omega)

theorem frameMsgCrc_of_cursor (buf : List Nat) (s : RxLoop) (f : List Char)
    (h6 : 6 ≤ f.length) (hl : f.length = 2 * (3 + textByte f 2))
    (hb : ∀ k, k < f.length / 2 → byteAt buf (s.hexDecode + k) = textByte f k) :
    frameMsgCrc buf s =
      textByte f (3 + textByte f 2 - 2) * 256 + textByte f (3 + textByte f 2 - 2 + 1) := by
  unfold frameMsgCrc
  simp only []
  rw [hb 2 (by omega), Nat.add_assoc, hb _ (by omega), hb _ (by omega)]

theorem frameGuard_of_cursor (rx : List Char) (buf : List Nat) (s : RxLoop) (f : List Char)
    (h6 : 6 ≤ f.length) (h0 : textByte f 0 = 0x4C) (h1 : textByte f 1 = 0x54)
    (hl : f.length = 2 * (3 + textByte f 2)) (hw : FrameAtCursor rx buf s f) :
    frameGuard buf s = true := by
  obtain ⟨hr, -, hb⟩ := hw
  unfold frameGuard
  rw [hb 0 (by omega), hb 1 (by omega), hb 2 (by omega), h0, h1]
  have a : s.rx_len ≥ 3 * 2 := by omega
  have b : textByte f 2 ≤ s.rx_len / 2 - 3 := by omega
  simp [a, b]

theorem validFrame_text (f : List Char) (h : validFrame f) :
    6 ≤ f.length ∧ textByte f 0 = 0x4C ∧ textByte f 1 = 0x54 ∧
      f.length = 2 * (3 + textByte f 2) ∧
      calcCrcFromHexStr f (2 * (3 + textByte f 2 - 2)) =
        textByte f (3 + textByte f 2 - 2) * 256 + textByte f (3 + textByte f 2 - 2 + 1) := by
  obtain ⟨h6, h0, h1, hl, hc⟩ := h
  rw [frameByte_eq f 0 (by omega)] at h0
  rw [frameByte_eq f 1 (by omega)] at h1
  rw [frameByte_eq f 2 (by omega)] at hl hc
  rw [frameByte_eq f _ (by omega), frameByte_eq f _ (by omega)] at hc
  exact ⟨h6, h0, h1, hl, hc⟩

/-- One iteration on a valid frame at the cursors: the frame is counted, its
message is applied and both cursors move past it. -/
theorem decodeFrames_accept (rx : List Char) (buf : List Nat) (fuel : Nat) (s : RxLoop)
    (f : List Char) (hv : validFrame f) (hw : FrameAtCursor rx buf s f) :
    decodeFrames rx buf (fuel + 1) s =
      decodeFrames rx buf fuel
        { g := applyMessage buf s.hexDecode s.g
          msgs_processed := s.msgs_processed + 1
          rx_len := s.rx_len - f.length
          hexDecode := s.hexDecode + f.length / 2
          msgDecode := s.msgDecode + f.length } := by
  obtain ⟨h6, h0, h1, hl, hc⟩ := validFrame_text f hv
  rw [decodeFrames_succ, frameGuard_of_cursor rx buf s f h6 h0 h1 hl hw,
    frameCrc_of_cursor rx buf s f h6 hl hw, frameMsgCrc_of_cursor buf s f h6 hl hw.2.2, hc]
  have hb2 := hw.2.2 2 (by omega)
  have e1 : (3 + byteAt buf (s.hexDecode + 2)) * 2 = f.length := by rw [hb2]; omega
  have e2 : 3 + byteAt buf (s.hexDecode + 2) = f.length / 2 := by rw [hb2]; omega
  simp only [if_true, ne_eq, not_true_eq_false, if_false, e1]
  rw [e2]

/-! ## A datagram holding one frame -/

theorem processDatagram_eq (buf : List Nat) (g : GvmLightControl) (m : Nat) (d : List Char)
    (hd : d.length ≤ 2047) :
    processDatagram buf g m d =
      (decodeInto buf d d.length,
        (decodeFrames d (decodeInto buf d d.length) (d.length / 6 + 1)
          { g := g, msgs_processed := m, rx_len := d.length, hexDecode := 0, msgDecode := 0 }).g,
        (decodeFrames d (decodeInto buf d d.length) (d.length / 6 + 1)
          { g := g, msgs_processed := m, rx_len := d.length, hexDecode := 0,
            msgDecode := 0 }).msgs_processed) := by
  unfold processDatagram
  simp only [List.take_of_length_le hd]

theorem read_udp_single (g : GvmLightControl) (d : List Char) :
    read_udp g [d] =
      ((processDatagram (List.replicate 1024 0) g 0 d).2.1,
        (processDatagram (List.replicate 1024 0) g 0 d).2.2) := rfl

/-- At the start of a datagram the whole text sits at the cursors. -/
theorem frameAtCursor_start (buf : List Nat) (g : GvmLightControl) (m : Nat) (d : List Char) :
    FrameAtCursor d (decodeInto buf d d.length)
      { g := g, msgs_processed := m, rx_len := d.length, hexDecode := 0, msgDecode := 0 } d := by
  refine ⟨Nat.le_refl _, ?_, ?_⟩
  · intro j _
    simp only [Nat.zero_add]
  · intro k hk
    simp only [Nat.zero_add]
    exact byteAt_decodeInto buf d d.length k hk

theorem textByte_set (t : List Char) (i : Nat) (c : Char) (k : Nat) (hi : i < t.length)
    (h1 : i ≠ 2 * k) (h2 : i ≠ 2 * k + 1) : textByte (t.set i c) k = textByte t k := by
  unfold textByte
  rw [charAt_set t i c _ hi, charAt_set t i c _ hi, if_neg (fun e => h1 e.symm),
    if_neg (fun e => h2 e.symm)]

/-- Changing the value of one of the four digits of two adjacent bytes
changes the 16-bit value they store. -/
theorem stored_crc_set_ne (t : List Char) (i : Nat) (c : Char) (n : Nat) (hi : i < t.length)
    (hc : charToVal c ≠ charToVal (charAt t i))
    (hcases : i = 2 * n ∨ i = 2 * n + 1 ∨ i = 2 * (n + 1) ∨ i = 2 * (n + 1) + 1) :
    textByte t n * 256 + textByte t (n + 1) ≠
      textByte (t.set i c) n * 256 + textByte (t.set i c) (n + 1) := by
  unfold textByte
  simp only [charAt_set t i c _ hi]
  have b1 := charToVal_lt (charAt t (2 * n))
  have b2 := charToVal_lt (charAt t (2 * n + 1))
  have b3 := charToVal_lt (charAt t (2 * (n + 1)))
  have b4 := charToVal_lt (charAt t (2 * (n + 1) + 1))
  have bc := charToVal_lt c
  rcases hcases with e | e | e | e
  · rw [if_pos e.symm, if_neg (by omega), if_neg (by omega), if_neg (by omega)]
    rw [e] at hc
    omega
  · rw [if_neg (by omega), if_pos e.symm, if_neg (by omega), if_neg (by omega)]
    rw [e] at hc
    omega
  · rw [if_neg (by omega), if_neg (by omega), if_pos e.symm, if_neg (by omega)]
    rw [e] at hc
    omega
  · rw [if_neg (by omega), if_neg (by omega), if_neg (by omega), if_pos e.symm]
    rw [e] at hc
    omega

/-- Changing the value of one hex digit after the header of a valid frame
makes the computed CRC differ from the stored one. -/
theorem corrupted_crc_mismatch (t : List Char) (i : Nat) (c : Char) (hv : validFrame t)
    (hi : i < t.length) (hc : charToVal c ≠ charToVal (charAt t i)) :
    calcCrcFromHexStr (t.set i c) (2 * (3 + textByte t 2 - 2)) ≠
      textByte (t.set i c) (3 + textByte t 2 - 2) * 256 +
        textByte (t.set i c) (3 + textByte t 2 - 2 + 1) := by
  obtain ⟨-, -, -, hl, hcrc⟩ := validFrame_text t hv
  by_cases hbody : i < 2 * (3 + textByte t 2 - 2)
  · rw [textByte_set t i c _ hi (by omega) (by omega),
      textByte_set t i c _ hi (by omega) (by omega), ← hcrc, calcCrcFromHexStr_eq,
      calcCrcFromHexStr_eq]
    exact calcCrcLoop_set_ne _ t i c 0 (by decide) (by omega) hi hc
  · have hsame : calcCrcFromHexStr (t.set i c) (2 * (3 + textByte t 2 - 2)) =
        calcCrcFromHexStr t (2 * (3 + textByte t 2 - 2)) := by
      rw [calcCrcFromHexStr_eq, calcCrcFromHexStr_eq]
      apply calcCrcLoop_congr
      intro j hj
      rw [charAt_set t i c j hi, if_neg (by omega)]
    rw [hsame, hcrc]
    exact stored_crc_set_ne t i c _ hi hc (by omega)

/-- Decoding a datagram that holds exactly one valid frame: the frame is
counted once and its message is applied to the object. -/
theorem read_udp_valid_frame (g : GvmLightControl) (t : List Char) (hv : validFrame t) :
    read_udp g [t] =
      (applyMessage (decodeInto (List.replicate 1024 0) t t.length) 0 g, 1) := by
  have hle := validFrame_length_le t hv
  have hw := frameAtCursor_start (List.replicate 1024 0) g 0 t
  rw [read_udp_single, processDatagram_eq _ _ _ _ (by omega),
    decodeFrames_accept _ _ _ _ t hv hw, decodeFrames_stop _ _ _ _ (frameGuard_short _ _ _)]
  simp only [Nat.sub_self, Nat.zero_lt_succ]

/-! ## A datagram holding a frame followed by more text -/

theorem charAt_append_left (a b : List Char) (j : Nat) (h : j < a.length) :
    charAt (a ++ b) j = charAt a j := by
  unfold charAt
  rw [List.getD_append _ _ _ _ h]

theorem charAt_append_right (a b : List Char) (j : Nat) :
    charAt (a ++ b) (a.length + j) = charAt b j := by
  unfold charAt
  rw [List.getD_append_right _ _ _ _ (by omega)]
  congr 1
  omega

theorem textByte_append_left (a b : List Char) (k : Nat) (h : 2 * k + 1 < a.length) :
    textByte (a ++ b) k = textByte a k := by
  unfold textByte
  rw [charAt_append_left a b _ (by omega), charAt_append_left a b _ h]

theorem textByte_append_right (a b : List Char) (n k : Nat) (h : a.length = 2 * n) :
    textByte (a ++ b) (n + k) = textByte b k := by
  unfold textByte
  have e1 : 2 * (n + k) = a.length + 2 * k := by omega
  have e2 : 2 * (n + k) + 1 = a.length + (2 * k + 1) := by omega
  rw [e2, e1, charAt_append_right, charAt_append_right]

/-- The first frame of a datagram sits at the start cursors. -/
theorem frameAtCursor_first (buf : List Nat) (g : GvmLightControl) (m : Nat)
    (f rest : List Char) :
    FrameAtCursor (f ++ rest) (decodeInto buf (f ++ rest) (f ++ rest).length)
      { g := g, msgs_processed := m, rx_len := (f ++ rest).length, hexDecode := 0,
        msgDecode := 0 } f := by
  refine ⟨?_, ?_, ?_⟩
  · show f.length ≤ (f ++ rest).length
    rw [List.length_append]; omega
  · intro j hj
    simp only [Nat.zero_add]
    exact charAt_append_left f rest j hj
  · intro k hk
    simp only [Nat.zero_add]
    rw [byteAt_decodeInto _ _ _ _ (by rw [List.length_append]; omega),
      textByte_append_left f rest k (by omega)]

/-- Decoding a datagram that starts with a valid frame `f`: the first
iteration accepts `f` and the loop goes on with the cursors behind it. -/
theorem decodeFrames_first (buf : List Nat) (g : GvmLightControl) (f rest : List Char)
    (hv : validFrame f) :
    decodeFrames (f ++ rest) (decodeInto buf (f ++ rest) (f ++ rest).length)
        ((f ++ rest).length / 6 + 1)
        { g := g, msgs_processed := 0, rx_len := (f ++ rest).length, hexDecode := 0,
          msgDecode := 0 } =
      decodeFrames (f ++ rest) (decodeInto buf (f ++ rest) (f ++ rest).length)
        ((f ++ rest).length / 6)
        { g := applyMessage (decodeInto buf (f ++ rest) (f ++ rest).length) 0 g
          msgs_processed := 1
          rx_len := rest.length
          hexDecode := f.length / 2
          msgDecode := f.length } := by
  rw [decodeFrames_accept _ _ _ _ f hv (frameAtCursor_first buf g 0 f rest)]
  simp only [List.length_append, Nat.add_sub_cancel_left, Nat.zero_add]

/-- Decoding the concatenation of two valid frames: both are counted and
their messages are applied in order, each read at its own cursor. -/
theorem read_udp_two_frames (g : GvmLightControl) (f1 f2 : List Char) (hv1 : validFrame f1)
    (hv2 : validFrame f2) :
    read_udp g [f1 ++ f2] =
      (applyMessage (decodeInto (List.replicate 1024 0) (f1 ++ f2) (f1 ++ f2).length)
          (f1.length / 2)
          (applyMessage (decodeInto (List.replicate 1024 0) (f1 ++ f2) (f1 ++ f2).length) 0 g),
        2) := by
  have hle1 := validFrame_length_le f1 hv1
  have hle2 := validFrame_length_le f2 hv2
  have h61 := hv1.1
  have h62 := hv2.1
  have hev1 : f1.length = 2 * (f1.length / 2) := by
    have := hv1.2.2.2.1
    omega
  have hlen : (f1 ++ f2).length = f1.length + f2.length := List.length_append _ _
  obtain ⟨n, hn⟩ : ∃ n, (f1 ++ f2).length / 6 = n + 1 := ⟨(f1 ++ f2).length / 6 - 1, by omega⟩
  have hw2 : FrameAtCursor (f1 ++ f2)
      (decodeInto (List.replicate 1024 0) (f1 ++ f2) (f1 ++ f2).length)
      { g := applyMessage (decodeInto (List.replicate 1024 0) (f1 ++ f2) (f1 ++ f2).length) 0 g
        msgs_processed := 1
        rx_len := f2.length
        hexDecode := f1.length / 2
        msgDecode := f1.length } f2 := by
    refine ⟨Nat.le_refl _, ?_, ?_⟩
    · intro j _
      exact charAt_append_right f1 f2 j
    · intro k hk
      show byteAt _ (f1.length / 2 + k) = _
      rw [byteAt_decodeInto _ _ _ _ (by omega), textByte_append_right f1 f2 _ k hev1]
  rw [read_udp_single, processDatagram_eq _ _ _ _ (by omega), decodeFrames_first _ _ _ _ hv1,
    hn, decodeFrames_accept _ _ _ _ f2 hv2 hw2,
    decodeFrames_stop _ _ _ _ (frameGuard_short _ _ (by simp))]

/-- Decoding a valid frame followed by a non-empty strict prefix of a valid
frame: the loop accepts the frame and stops at the truncated one. -/
theorem read_udp_frame_then_truncated (g : GvmLightControl) (f p fr : List Char)
    (hv : validFrame f) (hfr : validFrame fr) (hp : p <+: fr) (hlt : p.length < fr.length) :
    read_udp g [f ++ p] =
      (applyMessage (decodeInto (List.replicate 1024 0) (f ++ p) (f ++ p).length) 0 g, 1) := by
  have hle1 := validFrame_length_le f hv
  have hle2 := validFrame_length_le fr hfr
  have h61 := hv.1
  have hev : f.length = 2 * (f.length / 2) := by
    have := hv.2.2.2.1
    omega
  have hlen : (f ++ p).length = f.length + p.length := List.length_append _ _
  obtain ⟨r, rfl⟩ := hp
  obtain ⟨-, -, -, hl, -⟩ := validFrame_text (p ++ r) hfr
  rw [List.length_append] at hl hlt hle2
  have hstop : frameGuard (decodeInto (List.replicate 1024 0) (f ++ p) (f ++ p).length)
      { g := applyMessage (decodeInto (List.replicate 1024 0) (f ++ p) (f ++ p).length) 0 g
        msgs_processed := 1
        rx_len := p.length
        hexDecode := f.length / 2
        msgDecode := f.length } = false := by
    by_cases h6 : p.length < 6
    · exact frameGuard_short _ _ h6
    · have e2 : byteAt (decodeInto (List.replicate 1024 0) (f ++ p) (f ++ p).length)
          (f.length / 2 + 2) = textByte (p ++ r) 2 := by
        rw [byteAt_decodeInto _ _ _ _ (by omega), textByte_append_right f p _ 2 hev,
          textByte_append_left p r 2 (by omega)]
      unfold frameGuard
      simp only [e2]
      have : ¬ (textByte (p ++ r) 2 ≤ p.length / 2 - 3) := by omega
      rw [decide_eq_false this, Bool.and_false]
  rw [read_udp_single, processDatagram_eq _ _ _ _ (by omega), decodeFrames_first _ _ _ _ hv,
    decodeFrames_stop _ _ _ _ hstop]

/-! ## What a frame does to the object -/

/-- The message of a frame depends only on the bytes the dispatch reads: the
type at offset 5, offsets 6..11 for type 3, offsets 7 and 8 for type 2. -/
theorem applyMessage_congr (buf buf' : List Nat) (off off' : Nat) (g : GvmLightControl)
    (h5 : byteAt buf (off + 5) = byteAt buf' (off' + 5))
    (h3 : byteAt buf (off + 5) = LIGHT_MSG_VAR_ALL →
      ∀ k, 6 ≤ k → k ≤ 11 → byteAt buf (off + k) = byteAt buf' (off' + k))
    (h2 : byteAt buf (off + 5) = LIGHT_MSG_VAR_SET →
      ∀ k, 7 ≤ k → k ≤ 8 → byteAt buf (off + k) = byteAt buf' (off' + k)) :
    applyMessage buf off g = applyMessage buf' off' g := by
  unfold applyMessage
  rw [← h5]
  by_cases hk3 : byteAt buf (off + 5) = LIGHT_MSG_VAR_ALL
  · rw [if_pos hk3, if_pos hk3]
    unfold applyVarAll
    rw [h3 hk3 6 (by omega) (by omega), h3 hk3 7 (by omega) (by omega),
      h3 hk3 8 (by omega) (by omega), h3 hk3 9 (by omega) (by omega),
      h3 hk3 10 (by omega) (by omega), h3 hk3 11 (by omega) (by omega)]
  · rw [if_neg hk3, if_neg hk3]
    by_cases hk2 : byteAt buf (off + 5) = LIGHT_MSG_VAR_SET
    · rw [if_pos hk2, if_pos hk2]
      unfold applyVarSet
      rw [h2 hk2 7 (by omega) (by omega), h2 hk2 8 (by omega) (by omega)]
    · rw [if_neg hk2, if_neg hk2]

/-- A frame of type 2 or 3 calls `onStatusUpdated` once when it is registered,
and never changes the registration. -/
theorem applyMessage_calls (buf : List Nat) (off : Nat) (g : GvmLightControl)
    (hk : byteAt buf (off + 5) = LIGHT_MSG_VAR_ALL ∨ byteAt buf (off + 5) = LIGHT_MSG_VAR_SET) :
    (applyMessage buf off g).onStatusUpdated = g.onStatusUpdated ∧
      (applyMessage buf off g).statusUpdatedCalls =
        g.statusUpdatedCalls + (if g.onStatusUpdated then 1 else 0) := by
  unfold applyMessage
  rcases hk with hk | hk
  · rw [if_pos hk]
    unfold applyVarAll notifyStatusUpdated
    by_cases hn : g.onStatusUpdated <;> simp [hn]
  · have hne : ¬ byteAt buf (off + 5) = LIGHT_MSG_VAR_ALL := by
      rw [hk]; decide
    rw [if_neg hne, if_pos hk]
    unfold applyVarSet notifyStatusUpdated
    by_cases hn : g.onStatusUpdated <;> simp [hn]

/-- For a frame that holds every byte read for it, the message applied at a
cursor is the message of the frame decoded on its own. -/
theorem applyMessage_of_frame (buf : List Nat) (off : Nat) (g : GvmLightControl)
    (f : List Char) (hin : readsInside f)
    (hb : ∀ k, k < f.length / 2 → byteAt buf (off + k) = textByte f k) :
    applyMessage buf off g =
      applyMessage (decodeInto (List.replicate 1024 0) f f.length) 0 g := by
  obtain ⟨h6, h3, h2⟩ := hin
  have hb' : ∀ k, k < f.length / 2 →
      byteAt buf (off + k) = byteAt (decodeInto (List.replicate 1024 0) f f.length) (0 + k) := by
    intro k hk
    rw [hb k hk, Nat.zero_add, byteAt_decodeInto _ _ _ _ hk]
  have h5 : byteAt buf (off + 5) = frameByte f 5 := by
    rw [hb 5 (by omega), frameByte_eq f 5 (by omega)]
  apply applyMessage_congr
  · exact hb' 5 (by omega)
  · intro hk k _ hk2
    rw [h5] at hk
    exact hb' k (by have := h3 hk; omega)
  · intro hk k _ hk2
    rw [h5] at hk
    exact hb' k (by have := h2 hk; omega)

/-- Frames applied in order: when both frames hold every byte read for them,
decoding the concatenation gives the object obtained by decoding the first
frame and then the second, and returns 2. -/
theorem two_frames_in_order (g : GvmLightControl) (f1 f2 : List Char) (hv1 : validFrame f1)
    (hv2 : validFrame f2) (hin1 : readsInside f1) (hin2 : readsInside f2) :
    read_udp g [f1 ++ f2] = ((read_udp (read_udp g [f1]).1 [f2]).1, 2) := by
  have hle1 := validFrame_length_le f1 hv1
  have hle2 := validFrame_length_le f2 hv2
  have hev1 : f1.length = 2 * (f1.length / 2) := by
    have := hv1.2.2.2.1
    omega
  have hlen : (f1 ++ f2).length = f1.length + f2.length := List.length_append _ _
  rw [read_udp_two_frames g f1 f2 hv1 hv2, read_udp_valid_frame g f1 hv1,
    read_udp_valid_frame _ f2 hv2]
  have e1 := applyMessage_of_frame
    (decodeInto (List.replicate 1024 0) (f1 ++ f2) (f1 ++ f2).length) 0 g f1 hin1 (by
      intro k hk
      rw [Nat.zero_add, byteAt_decodeInto _ _ _ _ (by omega),
        textByte_append_left f1 f2 k (by omega)])
  have e2 := applyMessage_of_frame
    (decodeInto (List.replicate 1024 0) (f1 ++ f2) (f1 ++ f2).length) (f1.length / 2)
    (applyMessage (decodeInto (List.replicate 1024 0) f1 f1.length) 0 g) f2 hin2 (by
      intro k hk
      rw [byteAt_decodeInto _ _ _ _ (by omega), textByte_append_right f1 f2 _ k hev1])
  rw [e1, e2]

/-- Two valid frames of type 2 or 3 in one datagram: 2 is returned and
`onStatusUpdated` is called once per frame, whatever their lengths. -/
theorem two_frames_counted_and_notified (g : GvmLightControl) (f1 f2 : List Char)
    (hv1 : validFrame f1) (hv2 : validFrame f2)
    (hk1 : frameByte f1 5 = LIGHT_MSG_VAR_ALL ∨ frameByte f1 5 = LIGHT_MSG_VAR_SET)
    (hk2 : frameByte f2 5 = LIGHT_MSG_VAR_ALL ∨ frameByte f2 5 = LIGHT_MSG_VAR_SET)
    (hl1 : 6 ≤ f1.length / 2) (hl2 : 6 ≤ f2.length / 2) :
    (read_udp g [f1 ++ f2]).2 = 2 ∧
      (read_udp g [f1 ++ f2]).1.statusUpdatedCalls =
        g.statusUpdatedCalls + (if g.onStatusUpdated then 2 else 0) := by
  have hle1 := validFrame_length_le f1 hv1
  have hle2 := validFrame_length_le f2 hv2
  have hev1 : f1.length = 2 * (f1.length / 2) := by
    have := hv1.2.2.2.1
    omega
  have hlen : (f1 ++ f2).length = f1.length + f2.length := List.length_append _ _
  rw [read_udp_two_frames g f1 f2 hv1 hv2]
  refine ⟨rfl, ?_⟩
  have b1 : byteAt (decodeInto (List.replicate 1024 0) (f1 ++ f2) (f1 ++ f2).length) (0 + 5)
      = frameByte f1 5 := by
    rw [Nat.zero_add, byteAt_decodeInto _ _ _ _ (by omega),
      textByte_append_left f1 f2 5 (by omega), frameByte_eq f1 5 (by omega)]
  have b2 : byteAt (decodeInto (List.replicate 1024 0) (f1 ++ f2) (f1 ++ f2).length)
      (f1.length / 2 + 5) = frameByte f2 5 := by
    rw [byteAt_decodeInto _ _ _ _ (by omega), textByte_append_right f1 f2 _ 5 hev1,
      frameByte_eq f2 5 (by omega)]
  obtain ⟨c1, c2⟩ := applyMessage_calls
    (decodeInto (List.replicate 1024 0) (f1 ++ f2) (f1 ++ f2).length) 0 g (by rw [b1]; exact hk1)
  obtain ⟨-, c4⟩ := applyMessage_calls
    (decodeInto (List.replicate 1024 0) (f1 ++ f2) (f1 ++ f2).length) (f1.length / 2)
    (applyMessage (decodeInto (List.replicate 1024 0) (f1 ++ f2) (f1 ++ f2).length) 0 g)
    (by rw [b2]; exact hk2)
  show (applyMessage _ (f1.length / 2) (applyMessage _ 0 g)).statusUpdatedCalls = _
  rw [c4, c1, c2]
  by_cases hn : g.onStatusUpdated <;> simp [hn]

/-- A valid frame that holds every byte read for it, followed by a truncated
frame: 1 is returned and the object is the one obtained by decoding the frame
alone. -/
theorem frame_then_prefix_alone (g : GvmLightControl) (f p fr : List Char) (hv : validFrame f)
    (hin : readsInside f) (hfr : validFrame fr) (hp : p <+: fr) (hlt : p.length < fr.length) :
    read_udp g [f ++ p] = ((read_udp g [f]).1, 1) := by
  have hle1 := validFrame_length_le f hv
  have hle2 := validFrame_length_le fr hfr
  have hpl : p.length ≤ fr.length := hp.length_le
  have hlen : (f ++ p).length = f.length + p.length := List.length_append _ _
  rw [read_udp_frame_then_truncated g f p fr hv hfr hp hlt, read_udp_valid_frame g f hv]
  have e1 := applyMessage_of_frame
    (decodeInto (List.replicate 1024 0) (f ++ p) (f ++ p).length) 0 g f hin (by
      intro k hk
      rw [Nat.zero_add, byteAt_decodeInto _ _ _ _ (by omega),
        textByte_append_left f p k (by omega)])
  rw [e1]

/-! ## Claims on the decode path -/

/-- C1: for every single-frame buffer `t` that the decoder accepts and every
digit position `i` after the 3-byte header (payload or checksum digits),
replacing that digit by a character `c` of a different hex value makes the
decode loop of `read_udp` process zero frames and leave the object unchanged:
all six `light_status` fields keep their values and `onStatusUpdated` is not
called. -/
theorem corrupted_digit_drops_frame (g : GvmLightControl) (t : List Char) (i : Nat) (c : Char)
    (hv : validFrame t) (h6 : 6 ≤ i) (hi : i < t.length)
    (hc : charToVal c ≠ charToVal (charAt t i)) :
    read_udp g [t.set i c] = (g, 0) := by
  have hlen : (t.set i c).length = t.length := List.length_set _ _ _
  have hle := validFrame_length_le t hv
  obtain ⟨h6', h0, h1, hl, -⟩ := validFrame_text t hv
  have e0 : textByte (t.set i c) 0 = 0x4C := by
    rw [textByte_set t i c 0 hi (by omega) (by omega)]; exact h0
  have e1 : textByte (t.set i c) 1 = 0x54 := by
    rw [textByte_set t i c 1 hi (by omega) (by omega)]; exact h1
  have e2 : textByte (t.set i c) 2 = textByte t 2 :=
    textByte_set t i c 2 hi (by omega) (by omega)
  have hl' : (t.set i c).length = 2 * (3 + textByte (t.set i c) 2) := by rw [hlen, e2]; exact hl
  have hw := frameAtCursor_start (List.replicate 1024 0) g 0 (t.set i c)
  have hmis := corrupted_crc_mismatch t i c hv hi hc
  rw [read_udp_single, processDatagram_eq _ _ _ _ (by omega), decodeFrames_succ,
    frameGuard_of_cursor _ _ _ (t.set i c) (by omega) e0 e1 hl' hw,
    frameCrc_of_cursor _ _ _ (t.set i c) (by omega) hl' hw,
    frameMsgCrc_of_cursor _ _ (t.set i c) (by omega) hl' hw.2.2, e2]
  simp only [if_true, if_pos hmis]

/-- Witness of `corrupted_digit_drops_frame`: the value digit `3` of the
documented acknowledgement "4C54080030020002030AEA" replaced by `7`. -/
theorem corrupted_digit_drops_frame_witness :
    read_udp GvmLightControl.init ["4C54080030020002070AEA".toList] = (GvmLightControl.init, 0) :=
  corrupted_digit_drops_frame GvmLightControl.init "4C54080030020002030AEA".toList 17 '7'
    (by decide!) (by decide) (by decide) (by decide)

/-- C9: for every valid frame of kind 0x03 with declared length 11, decoding
it returns 1, sets power, channel, brightness, cct, hue and saturation to the
bytes at frame offsets 6, 7, 8, 9, 10 and 11, and calls `onStatusUpdated`
exactly once (when one is registered; nothing else of the object changes). The
documented broadcast "4C540B0030030102322C3819D268" is accepted and yields
power 1, channel 2, brightness 50, cct 44, hue 56, saturation 25. -/
theorem status_broadcast_sets_all (g : GvmLightControl) (t : List Char) (hv : validFrame t)
    (hkind : frameByte t 5 = 0x03) (hlen : frameByte t 2 = 11) :
    read_udp g [t] =
        ({ g with
            light_status :=
              { on_off := frameByte t 6, channel := frameByte t 7, brightness := frameByte t 8,
                cct := frameByte t 9, hue := frameByte t 10, saturation := frameByte t 11 },
            statusUpdatedCalls :=
              if g.onStatusUpdated then g.statusUpdatedCalls + 1 else g.statusUpdatedCalls }, 1) ∧
      validFrame "4C540B0030030102322C3819D268".toList ∧
      read_udp (callbackOnStatusUpdated GvmLightControl.init)
          ["4C540B0030030102322C3819D268".toList] =
        ({ callbackOnStatusUpdated GvmLightControl.init with
            light_status :=
              { on_off := 1, channel := 2, brightness := 50, cct := 44, hue := 56,
                saturation := 25 },
            statusUpdatedCalls := 1 }, 1) := by
  refine ⟨?_, by decide!, by decide!⟩
  have hl := hv.2.2.2.1
  rw [hlen] at hl
  have hb : ∀ k, k < 14 →
      byteAt (decodeInto (List.replicate 1024 0) t t.length) (0 + k) = frameByte t k := by
    intro k hk
    rw [Nat.zero_add, byteAt_decodeInto _ _ _ _ (by omega), frameByte_eq _ _ (by omega)]
  rw [read_udp_valid_frame g t hv]
  unfold applyMessage
  rw [hb 5 (by omega), hkind, if_pos (show 0x03 = LIGHT_MSG_VAR_ALL from rfl)]
  unfold applyVarAll
  simp only [hb 6 (by omega), hb 7 (by omega), hb 8 (by omega), hb 9 (by omega),
    hb 10 (by omega), hb 11 (by omega), notifyStatusUpdated]
  split_ifs <;> rfl

/-- Witness of `status_broadcast_sets_all`: the second status report quoted in
the header, "4C540B00300301080220485FED15". -/
theorem status_broadcast_sets_all_witness :
    read_udp GvmLightControl.init ["4C540B00300301080220485FED15".toList] =
      ({ GvmLightControl.init with
          light_status :=
            { on_off := 1, channel := 8, brightness := 2, cct := 32, hue := 72,
              saturation := 95 } }, 1) :=
  ((status_broadcast_sets_all GvmLightControl.init "4C540B00300301080220485FED15".toList
    (by decide!) (by decide!) (by decide!)).1).trans (by decide!)

/-- What the `switch` of the set-acknowledge branch does for a field code in
0..5: the selected member becomes `value`. -/
theorem applyVarSet_field (buf : List Nat) (off : Nat) (g : GvmLightControl)
    (h : byteAt buf (off + 7) ≤ 5) :
    (applyVarSet buf off g).light_status.field (byteAt buf (off + 7)) =
      some (byteAt buf (off + 8) : Int) := by
  unfold applyVarSet notifyStatusUpdated
  generalize byteAt buf (off + 7) = f at h
  generalize byteAt buf (off + 8) = v
  have hf : f = 0 ∨ f = 1 ∨ f = 2 ∨ f = 3 ∨ f = 4 ∨ f = 5 := by omega
  rcases hf with e | e | e | e | e | e <;> subst e <;> by_cases hn : g.onStatusUpdated <;>
    simp [hn, LightStatus.field, LIGHT_VAR_ON_OFF, LIGHT_VAR_CHANNEL, LIGHT_VAR_BRIGHTNESS,
      LIGHT_VAR_CCT, LIGHT_VAR_HUE, LIGHT_VAR_SATURATION]

/-- C10 (as stated, refuted): the valid set-acknowledge frame
"4C5409003002000201327CEA" has the 4-byte payload 00 02 01 32 (reserved, field
code 2 = brightness, argument count 1, value 0x32 = 50); decoding it sets
brightness to 1, the argument count, not to 50. -/
theorem set_ack_four_byte_payload_takes_count :
    validFrame "4C5409003002000201327CEA".toList ∧
      hexStringToBytes "4C5409003002000201327CEA".toList 24 =
        [0x4C, 0x54, 0x09, 0x00, 0x30, 0x02, 0x00, 0x02, 0x01, 0x32, 0x7C, 0xEA] ∧
      (read_udp GvmLightControl.init ["4C5409003002000201327CEA".toList]).1.light_status.brightness
        = 1 ∧
      (read_udp GvmLightControl.init
        ["4C5409003002000201327CEA".toList]).1.light_status.field 2 ≠ some 0x32 := by
  decide!

/-- C10 (amended): for every valid set-acknowledge frame (kind 0x02) whose
kind-specific payload is the 4 bytes reserved 0x00, field code `f` in 0..5,
argument count 0x01, value `v`, decoding it sets the `light_status` member
selected by the table 0 power, 1 channel, 2 brightness, 3 cct, 4 hue,
5 saturation to the byte at frame offset 8, which in this layout is the
argument count 0x01; the value `v` at offset 9 is not read. -/
theorem set_ack_sets_field_from_offset_8 (g : GvmLightControl) (t : List Char) (f v : Nat)
    (hv : validFrame t) (hlen : frameByte t 2 = 9) (hkind : frameByte t 5 = 0x02)
    (_h6 : frameByte t 6 = 0x00) (h7 : frameByte t 7 = f) (h8 : frameByte t 8 = 0x01)
    (_h9 : frameByte t 9 = v) (hf : f ≤ 5) :
    (read_udp g [t]).1.light_status.field f = some (frameByte t 8 : Int) ∧
      (read_udp g [t]).1.light_status.field f = some 1 := by
  have hl := hv.2.2.2.1
  rw [hlen] at hl
  have hb : ∀ k, k < 12 →
      byteAt (decodeInto (List.replicate 1024 0) t t.length) (0 + k) = frameByte t k := by
    intro k hk
    rw [Nat.zero_add, byteAt_decodeInto _ _ _ _ (by omega), frameByte_eq _ _ (by omega)]
  have key : (read_udp g [t]).1.light_status.field f = some (frameByte t 8 : Int) := by
    rw [read_udp_valid_frame g t hv]
    unfold applyMessage
    rw [hb 5 (by omega), hkind, if_neg (show ¬ (0x02 = LIGHT_MSG_VAR_ALL) by decide),
      if_pos (show 0x02 = LIGHT_MSG_VAR_SET from rfl)]
    have h := applyVarSet_field (decodeInto (List.replicate 1024 0) t t.length) 0 g
      (by rw [hb 7 (by omega), h7]; exact hf)
    rw [hb 7 (by omega), hb 8 (by omega), h7] at h
    exact h
  refine ⟨key, ?_⟩
  rw [key, h8]
  rfl

/-- Witness of `set_ack_sets_field_from_offset_8`: the frame
"4C5409003002000201327CEA" (field 2, count 1, value 0x32). -/
theorem set_ack_sets_field_from_offset_8_witness :
    (read_udp GvmLightControl.init
      ["4C5409003002000201327CEA".toList]).1.light_status.field 2 = some 1 :=
  (set_ack_sets_field_from_offset_8 GvmLightControl.init "4C5409003002000201327CEA".toList
    2 0x32 (by decide!) (by decide!) (by decide!) (by decide!) (by decide!) (by decide!)
    (by decide!) (by decide)).2

/-- C3 (failing input): "4C54050030037474" is a valid frame of type 3 with
declared length 5 and "4C54080030020002030AEA" is the documented valid frame
of type 2. Decoding their concatenation returns 2 and calls `onStatusUpdated`
twice, but the first frame's brightness, cct, hue and saturation are read at
offsets 8..11, past its end, from the header of the second frame: cct ends as
0x54 = 84 and hue as 8. Decoding the first frame and then the second (in two
calls, or as two datagrams of one call) ends with cct 0 and hue 0. -/
theorem two_frames_short_status_frame :
    validFrame "4C54050030037474".toList ∧
      frameByte "4C54050030037474".toList 5 = LIGHT_MSG_VAR_ALL ∧
      validFrame "4C54080030020002030AEA".toList ∧
      frameByte "4C54080030020002030AEA".toList 5 = LIGHT_MSG_VAR_SET ∧
      read_udp (callbackOnStatusUpdated GvmLightControl.init)
          ["4C54050030037474".toList ++ "4C54080030020002030AEA".toList] =
        ({ callbackOnStatusUpdated GvmLightControl.init with
            light_status :=
              { on_off := 0x74, channel := 0x74, brightness := 3, cct := 0x54, hue := 8,
                saturation := 0 },
            statusUpdatedCalls := 2 }, 2) ∧
      read_udp (read_udp (callbackOnStatusUpdated GvmLightControl.init)
          ["4C54050030037474".toList]).1 ["4C54080030020002030AEA".toList] =
        ({ callbackOnStatusUpdated GvmLightControl.init with
            light_status :=
              { on_off := 0x74, channel := 0x74, brightness := 3, cct := 0, hue := 0,
                saturation := 0 },
            statusUpdatedCalls := 2 }, 1) ∧
      read_udp (callbackOnStatusUpdated GvmLightControl.init)
          ["4C54050030037474".toList, "4C54080030020002030AEA".toList] =
        ({ callbackOnStatusUpdated GvmLightControl.init with
            light_status :=
              { on_off := 0x74, channel := 0x74, brightness := 3, cct := 0, hue := 0,
                saturation := 0 },
            statusUpdatedCalls := 2 }, 2) ∧
      (read_udp (callbackOnStatusUpdated GvmLightControl.init)
          ["4C54050030037474".toList ++ "4C54080030020002030AEA".toList]).1 ≠
        (read_udp (read_udp (callbackOnStatusUpdated GvmLightControl.init)
          ["4C54050030037474".toList]).1 ["4C54080030020002030AEA".toList]).1 := by
  decide!

/-- C4 (failing input): the valid frame "4C54050030037474" (type 3, declared
length 5) followed by "4C54", a strict prefix of the documented frame
"4C54080030020002030AEA". Decoding returns 1 and stops at the truncated frame,
but brightness and cct are read at offsets 8 and 9, past the end of the frame,
from the truncated one: brightness ends as 0x4C = 76 and cct as 0x54 = 84,
where decoding the frame alone gives brightness 0 and cct 0. -/
theorem frame_then_prefix_short_status_frame :
    validFrame "4C54050030037474".toList ∧
      validFrame "4C54080030020002030AEA".toList ∧
      "4C54".toList <+: "4C54080030020002030AEA".toList ∧
      read_udp (callbackOnStatusUpdated GvmLightControl.init)
          ["4C54050030037474".toList ++ "4C54".toList] =
        ({ callbackOnStatusUpdated GvmLightControl.init with
            light_status :=
              { on_off := 0x74, channel := 0x74, brightness := 0x4C, cct := 0x54, hue := 0,
                saturation := 0 },
            statusUpdatedCalls := 1 }, 1) ∧
      read_udp (callbackOnStatusUpdated GvmLightControl.init) ["4C54050030037474".toList] =
        ({ callbackOnStatusUpdated GvmLightControl.init with
            light_status :=
              { on_off := 0x74, channel := 0x74, brightness := 0, cct := 0, hue := 0,
                saturation := 0 },
            statusUpdatedCalls := 1 }, 1) ∧
      (read_udp (callbackOnStatusUpdated GvmLightControl.init)
          ["4C54050030037474".toList ++ "4C54".toList]).1 ≠
        (read_udp (callbackOnStatusUpdated GvmLightControl.init)
          ["4C54050030037474".toList]).1 := by
  decide!

/-! ## CRC-16/XMODEM -/

theorem crcShift_eq_xmodemBit (c : Nat) (h : c < 65536) : crcShift c = xmodemBit c := by
  rw [crcShift_eq c h]
  unfold xmodemBit
  rw [testBit_15 c h, Nat.mul_comm c 2]
  by_cases hc : 32768 ≤ c <;> simp [hc]

theorem crcBits_eq_iterate (n c : Nat) (h : c < 65536) : crcBits n c = xmodemBit^[n] c := by
  induction n generalizing c with
  | zero => rfl
  | succ n ih =>
    rw [Function.iterate_succ_apply, ← crcShift_eq_xmodemBit c h]
    exact ih _ (crcShift_lt c)

theorem crcByte_eq_xmodemByte (crc b : Nat) (h : crc < 65536) (hb : b < 256) :
    crcByte crc b = xmodemByte crc b := by
  unfold crcByte xmodemByte
  have e : b <<< 8 = b * 256 := by rw [Nat.shiftLeft_eq]
  rw [Nat.mod_eq_of_lt (xor_shift8_lt crc b h hb), e]
  apply crcBits_eq_iterate
  rw [← e]
  exact xor_shift8_lt crc b h hb

theorem calcCrcLoop_eq_foldl : ∀ (len : Nat) (str : List Char) (crc : Nat), crc < 65536 →
    calcCrcLoop str len crc = (hexStringToBytes str len).foldl xmodemByte crc
  | 0, _, _, _ => rfl
  | 1, _, _, _ => rfl
  | len + 2, str, crc, h => by
    rw [calcCrcLoop_step, hexStringToBytes_step, List.foldl_cons,
      ← crcByte_eq_xmodemByte crc _ h (textByte_lt str 0)]
    exact calcCrcLoop_eq_foldl len _ _ (crcByte_lt _ _)

/-- The code's CRC is CRC-16/XMODEM of the bytes `hexStringToBytes` produces. -/
theorem calcCrcFromHexStr_eq_crc16_xmodem (str : List Char) (len : Nat) :
    calcCrcFromHexStr str len = crc16_xmodem (hexStringToBytes str len) := by
  rw [calcCrcFromHexStr_eq]
  exact calcCrcLoop_eq_foldl len str 0 (by decide)

/-! ## CRC-16/XMODEM as a polynomial remainder

A number stands for the polynomial over GF(2) whose coefficients are its bits;
for the low `N` bits of `m` this is the sum over `i < N` of the `i`-th power of
the indeterminate for every set bit `i`. -/

theorem bitsPoly_xor (N a b : Nat) :
    (∑ i in Finset.range N, if (a ^^^ b).testBit i then (X : (ZMod 2)[X]) ^ i else 0) =
      (∑ i in Finset.range N, if a.testBit i then (X : (ZMod 2)[X]) ^ i else 0) +
        ∑ i in Finset.range N, if b.testBit i then (X : (ZMod 2)[X]) ^ i else 0 := by
  rw [← Finset.sum_add_distrib]
  apply Finset.sum_congr rfl
  intro i _
  rw [Nat.testBit_xor]
  cases a.testBit i <;> cases b.testBit i <;> simp [CharTwo.add_self_eq_zero]

theorem bitsPoly_double (N a : Nat) :
    (∑ i in Finset.range (N + 1), if (a * 2).testBit i then (X : (ZMod 2)[X]) ^ i else 0) =
      X * ∑ i in Finset.range N, if a.testBit i then (X : (ZMod 2)[X]) ^ i else 0 := by
  rw [Finset.sum_range_succ', Finset.mul_sum]
  have h0 : (a * 2).testBit 0 = false := by simp [Nat.testBit_zero]
  rw [h0]
  simp only [Bool.false_eq_true, if_false, add_zero]
  apply Finset.sum_congr rfl
  intro i _
  have : (a * 2).testBit (i + 1) = a.testBit i := by
    rw [Nat.testBit_succ]; congr 1; omega
  rw [this]
  split_ifs
  · rw [pow_succ, mul_comm]
  · simp

theorem bitsPoly_shift (N k a : Nat) :
    (∑ i in Finset.range (N + k), if (a * 2 ^ k).testBit i then (X : (ZMod 2)[X]) ^ i else 0) =
      X ^ k * ∑ i in Finset.range N, if a.testBit i then (X : (ZMod 2)[X]) ^ i else 0 := by
  induction k with
  | zero => simp
  | succ k ih =>
    have e : a * 2 ^ (k + 1) = a * 2 ^ k * 2 := by rw [pow_succ, Nat.mul_assoc]
    rw [e, ← Nat.add_assoc, bitsPoly_double, ih, pow_succ]
    ring

theorem bitsPoly_mod (N m : Nat) :
    (∑ i in Finset.range N, if (m % 2 ^ N).testBit i then (X : (ZMod 2)[X]) ^ i else 0) =
      ∑ i in Finset.range N, if m.testBit i then (X : (ZMod 2)[X]) ^ i else 0 := by
  apply Finset.sum_congr rfl
  intro i hi
  rw [Nat.testBit_mod_two_pow]
  simp [Finset.mem_range.1 hi]

theorem bitsPoly_1021 :
    (∑ i in Finset.range 16, if (0x1021 : Nat).testBit i then (X : (ZMod 2)[X]) ^ i else 0) =
      X ^ 12 + X ^ 5 + 1 := by
  simp only [Finset.sum_range_succ, Finset.sum_range_zero]
  have h : ∀ i, i < 16 → (0x1021 : Nat).testBit i = decide (i = 0 ∨ i = 5 ∨ i = 12) := by
    decide
  simp only [h 0 (by decide), h 1 (by decide), h 2 (by decide), h 3 (by decide), h 4 (by decide),
    h 5 (by decide), h 6 (by decide), h 7 (by decide), h 8 (by decide), h 9 (by decide),
    h 10 (by decide), h 11 (by decide), h 12 (by decide), h 13 (by decide), h 14 (by decide),
    h 15 (by decide)]
  simp
  ring

theorem bitsPoly_xmodemBit (c : Nat) :
    (∑ i in Finset.range 16, if (xmodemBit c).testBit i then (X : (ZMod 2)[X]) ^ i else 0) =
      X * (∑ i in Finset.range 16, if c.testBit i then (X : (ZMod 2)[X]) ^ i else 0) +
        if c.testBit 15 then X ^ 16 + X ^ 12 + X ^ 5 + 1 else 0 := by
  have hd := bitsPoly_double 16 c
  rw [Finset.sum_range_succ] at hd
  have ht : (c * 2).testBit 16 = c.testBit 15 := by
    rw [Nat.testBit_succ]; congr 1; omega
  rw [ht] at hd
  have e : (65536 : Nat) = 2 ^ 16 := rfl
  unfold xmodemBit
  by_cases h : c.testBit 15
  · rw [if_pos h, if_pos h, bitsPoly_xor, e, bitsPoly_mod, bitsPoly_1021]
    rw [if_pos h] at hd
    rw [← hd]
    have := CharTwo.add_self_eq_zero ((X : (ZMod 2)[X]) ^ 16)
    linear_combination (-1 : (ZMod 2)[X]) * this
  · rw [if_neg h, if_neg h, e, bitsPoly_mod]
    rw [if_neg h] at hd
    rw [← hd]
    ring

/-- The generator polynomial divides the difference between the register
after `n` bit steps and the register multiplied by the `n`-th power of the
indeterminate. -/
theorem bitsPoly_iterate (n c : Nat) :
    ∃ q : (ZMod 2)[X],
      (∑ i in Finset.range 16, if (xmodemBit^[n] c).testBit i then (X : (ZMod 2)[X]) ^ i else 0) =
        X ^ n * (∑ i in Finset.range 16, if c.testBit i then (X : (ZMod 2)[X]) ^ i else 0) +
          (X ^ 16 + X ^ 12 + X ^ 5 + 1) * q := by
  induction n generalizing c with
  | zero => exact ⟨0, by simp⟩
  | succ n ih =>
    obtain ⟨q, hq⟩ := ih (xmodemBit c)
    rw [Function.iterate_succ_apply, hq, bitsPoly_xmodemBit]
    refine ⟨q + X ^ n * (if c.testBit 15 then 1 else 0), ?_⟩
    by_cases h : c.testBit 15
    · rw [if_pos h, if_pos h]; ring
    · rw [if_neg h, if_neg h]; ring

theorem bitsPoly_xmodemByte (reg b : Nat) :
    ∃ q : (ZMod 2)[X],
      (∑ i in Finset.range 16,
          if (xmodemByte reg b).testBit i then (X : (ZMod 2)[X]) ^ i else 0) =
        X ^ 8 * (∑ i in Finset.range 16, if reg.testBit i then (X : (ZMod 2)[X]) ^ i else 0) +
          X ^ 16 * (∑ i in Finset.range 8, if b.testBit i then (X : (ZMod 2)[X]) ^ i else 0) +
          (X ^ 16 + X ^ 12 + X ^ 5 + 1) * q := by
  obtain ⟨q, hq⟩ := bitsPoly_iterate 8 (reg ^^^ (b * 256))
  refine ⟨q, ?_⟩
  have hs := bitsPoly_shift 8 8 b
  unfold xmodemByte
  rw [hq, bitsPoly_xor, show (256 : Nat) = 2 ^ 8 from rfl, hs]
  ring

/-- The message polynomial by Horner's rule: each byte contributes its eight
bits, most significant first. -/
theorem bitsPoly_foldl (bs : List Nat) (reg : Nat) (p q : (ZMod 2)[X])
    (h : (∑ i in Finset.range 16, if reg.testBit i then (X : (ZMod 2)[X]) ^ i else 0) =
      X ^ 16 * p + (X ^ 16 + X ^ 12 + X ^ 5 + 1) * q) :
    ∃ q' : (ZMod 2)[X],
      (∑ i in Finset.range 16,
          if (bs.foldl xmodemByte reg).testBit i then (X : (ZMod 2)[X]) ^ i else 0) =
        X ^ 16 * bs.foldl (fun p b => p * X ^ 8 +
            ∑ i in Finset.range 8, if b.testBit i then (X : (ZMod 2)[X]) ^ i else 0) p +
          (X ^ 16 + X ^ 12 + X ^ 5 + 1) * q' := by
  induction bs generalizing reg p q with
  | nil => exact ⟨q, h⟩
  | cons b bs ih =>
    obtain ⟨q1, hq1⟩ := bitsPoly_xmodemByte reg b
    rw [List.foldl_cons, List.foldl_cons]
    apply ih (xmodemByte reg b) _ (X ^ 8 * q + q1)
    rw [hq1, h]
    ring

theorem bitsPoly_degree_lt (N m : Nat) :
    (∑ i in Finset.range N, if m.testBit i then (X : (ZMod 2)[X]) ^ i else 0).degree < N := by
  rw [← Polynomial.mem_degreeLT]
  apply Submodule.sum_mem
  intro i hi
  rw [Polynomial.mem_degreeLT]
  split_ifs
  · rw [Polynomial.degree_X_pow]
    exact_mod_cast Finset.mem_range.1 hi
  · rw [Polynomial.degree_zero]
    exact WithBot.bot_lt_coe _

theorem bitsPoly_coeff (N m j : Nat) :
    (∑ i in Finset.range N, if m.testBit i then (X : (ZMod 2)[X]) ^ i else 0).coeff j =
      if j < N ∧ m.testBit j then 1 else 0 := by
  rw [Polynomial.finset_sum_coeff]
  have : ∀ i ∈ Finset.range N,
      (if m.testBit i then (X : (ZMod 2)[X]) ^ i else 0).coeff j =
        if i = j then (if m.testBit j then 1 else 0) else 0 := by
    intro i _
    by_cases hij : i = j
    · subst hij
      by_cases hm : m.testBit i <;> simp [hm]
    · by_cases hm : m.testBit i <;> simp [hm, hij, Polynomial.coeff_X_pow, Ne.symm hij]
  rw [Finset.sum_congr rfl this, Finset.sum_ite_eq' (Finset.range N) j]
  by_cases hj : j < N <;> by_cases hm : m.testBit j <;> simp [hj, hm]

theorem generator_monic : (X ^ 16 + X ^ 12 + X ^ 5 + 1 : (ZMod 2)[X]).Monic := by
  monicity!

theorem generator_degree : (X ^ 16 + X ^ 12 + X ^ 5 + 1 : (ZMod 2)[X]).degree = 16 := by
  compute_degree!

/-- The register of `crc16_xmodem`, read as a polynomial over GF(2), is the
remainder of the message polynomial times the 16th power of the indeterminate
modulo the generator. -/
theorem crc16_xmodem_eq_remainder (bs : List Nat) :
    (∑ i in Finset.range 16,
        if (crc16_xmodem bs).testBit i then (X : (ZMod 2)[X]) ^ i else 0) =
      (bs.foldl (fun p b => p * X ^ 8 +
          ∑ i in Finset.range 8, if b.testBit i then (X : (ZMod 2)[X]) ^ i else 0) 0 * X ^ 16)
        %ₘ (X ^ 16 + X ^ 12 + X ^ 5 + 1) := by
  obtain ⟨q, hq⟩ := bitsPoly_foldl bs 0 0 0 (by simp)
  symm
  refine (Polynomial.div_modByMonic_unique q _ generator_monic ⟨?_, ?_⟩).2
  · unfold crc16_xmodem
    rw [hq]
    have := CharTwo.add_self_eq_zero ((X ^ 16 + X ^ 12 + X ^ 5 + 1 : (ZMod 2)[X]) * q)
    linear_combination this
  · rw [generator_degree]
    exact_mod_cast bitsPoly_degree_lt 16 _

/-- C7: for every character string `s` and length `n`, `calcCrcFromHexStr(s, n)`
is the CRC-16/XMODEM (polynomial 0x1021, initial value 0, no reflection, no
final XOR) of the `n / 2` bytes that `hexStringToBytes(s, n)` produces; bit `i`
of it is the coefficient of degree `i` of the remainder of the message
polynomial times the 16th power of the indeterminate modulo the generator of
degrees 16, 12, 5 and 0; it depends only on the decoded bytes; and on the hex
text of ASCII "123456789" it gives the check value 0x31C3. -/
theorem calcCrcFromHexStr_is_crc16_xmodem (s : List Char) (n : Nat) :
    calcCrcFromHexStr s n = crc16_xmodem (hexStringToBytes s n) ∧
      (hexStringToBytes s n).length = n / 2 ∧
      (∀ j, (calcCrcFromHexStr s n).testBit j = true ↔
        (((hexStringToBytes s n).foldl (fun p b => p * X ^ 8 +
            ∑ i in Finset.range 8, if b.testBit i then (X : (ZMod 2)[X]) ^ i else 0) 0 * X ^ 16)
          %ₘ (X ^ 16 + X ^ 12 + X ^ 5 + 1)).coeff j = 1) ∧
      (∀ s' n', hexStringToBytes s' n' = hexStringToBytes s n →
        calcCrcFromHexStr s' n' = calcCrcFromHexStr s n) ∧
      hexStringToBytes "313233343536373839".toList 18 = "123456789".toList.map Char.toNat ∧
      calcCrcFromHexStr "313233343536373839".toList 18 = 0x31C3 := by
  refine ⟨calcCrcFromHexStr_eq_crc16_xmodem s n, hexStringToBytes_length n s, ?_, ?_,
    by decide!, by decide!⟩
  · intro j
    have hlt := calcCrcFromHexStr_lt s n
    rw [← crc16_xmodem_eq_remainder, ← calcCrcFromHexStr_eq_crc16_xmodem, bitsPoly_coeff]
    by_cases hj : j < 16
    · by_cases hb : (calcCrcFromHexStr s n).testBit j <;> simp [hj, hb]
    · have hb : (calcCrcFromHexStr s n).testBit j = false := by
        apply Nat.testBit_lt_two_pow
        calc calcCrcFromHexStr s n < 2 ^ 16 := hlt
          _ ≤ 2 ^ j := Nat.pow_le_pow_right (by decide) (by omega)
      simp [hj, hb]
  · intro s' n' h
    rw [calcCrcFromHexStr_eq_crc16_xmodem, calcCrcFromHexStr_eq_crc16_xmodem, h]

/-- Witness of `calcCrcFromHexStr_is_crc16_xmodem`: the lowercase text "4c54"
decodes to the same bytes as "4C54", so it has the same CRC. -/
theorem calcCrcFromHexStr_is_crc16_xmodem_witness :
    calcCrcFromHexStr "4c54".toList 4 = calcCrcFromHexStr "4C54".toList 4 :=
  (calcCrcFromHexStr_is_crc16_xmodem "4C54".toList 4).2.2.2.1 "4c54".toList 4 (by decide!)

/-! ## The encode path -/

theorem valToChar_eq_upperHexDigit (v : Nat) (h : v < 16) : valToChar v = upperHexDigit v := by
  interval_cases v <;> rfl

theorem valToChar_high (b : Nat) (h : b < 256) : valToChar (b >>> 4) = upperHexDigit (b / 16) := by
  rw [valToChar_eq_upperHexDigit _ (byte_shift_lt b h), Nat.shiftRight_eq_div_pow]

theorem valToChar_low (b : Nat) : valToChar (b &&& 0xf) = upperHexDigit (b % 16) := by
  rw [valToChar_eq_upperHexDigit _ (byte_and_lt b)]
  have h : b &&& 0xf = b % 16 := Nat.and_pow_two_sub_one_eq_mod b 4
  rw [h]

theorem bytesToHexString_eq_upperHexText (b : List Nat) (hb : ∀ x ∈ b, x < 256) :
    bytesToHexString b b.length = upperHexText b := by
  induction b with
  | nil => rfl
  | cons x xs ih =>
    have hx : x < 256 := hb x (List.mem_cons_self _ _)
    have hxs : ∀ y ∈ xs, y < 256 := fun y hy => hb y (List.mem_cons_of_mem _ hy)
    rw [List.length_cons, bytesToHexString_cons, ih hxs, Nat.mod_eq_of_lt hx, valToChar_high x hx,
      valToChar_low]
    rfl

theorem shortToHex_eq_upperHex16 (n : Nat) (h : n < 65536) : shortToHex n = upperHex16 n := by
  have h0 : n % 65536 / 256 < 256 := by omega
  have h1 : n % 65536 % 256 < 256 := by omega
  simp only [shortToHex, upperHex16, valToChar_high _ h0, valToChar_high _ h1, valToChar_low]
  have e1 : n % 65536 / 256 / 16 = n / 4096 % 16 := by omega
  have e2 : n % 65536 / 256 % 16 = n / 256 % 16 := by omega
  have e3 : n % 65536 % 256 / 16 = n / 16 % 16 := by omega
  have e4 : n % 65536 % 256 % 16 = n % 16 := by omega
  rw [e1, e2, e3, e4]

theorem cmd_buffer_eq (setting value : Nat) (hs : setting < 256) (hv : value < 256) :
    cmd_buffer setting value =
      [0x4C, 0x54, 0x09, 0x00, 0x30, 0x57, 0x00, setting, 0x01, value, 0, 0] := by
  simp [cmd_buffer, List.replicate, LIGHT_MSG_SETVAR, Nat.mod_eq_of_lt hs, Nat.mod_eq_of_lt hv]

theorem bytesToHexString_ten (a0 a1 a2 a3 a4 a5 a6 a7 a8 a9 : Nat) (rest : List Nat) :
    bytesToHexString (a0 :: a1 :: a2 :: a3 :: a4 :: a5 :: a6 :: a7 :: a8 :: a9 :: rest) 10 =
      bytesToHexString [a0, a1, a2, a3, a4, a5, a6, a7, a8, a9] 10 := by
  simp only [bytesToHexString_cons]
  rfl

/-- The text built by `send_set_cmd` is the uppercase hex text of the ten
command bytes followed by the four digits of the CRC of that text. -/
theorem encoded_cmd_buffer_eq (setting value : Nat) (hs : setting < 256) (hv : value < 256) :
    encoded_cmd_buffer setting value =
      upperHexText [0x4C, 0x54, 0x09, 0x00, 0x30, 0x57, 0x00, setting, 0x01, value] ++
        upperHex16 (calcCrcFromHexStr
          (upperHexText [0x4C, 0x54, 0x09, 0x00, 0x30, 0x57, 0x00, setting, 0x01, value]) 20) := by
  have hb : ∀ x ∈ [0x4C, 0x54, 0x09, 0x00, 0x30, 0x57, 0x00, setting, 0x01, value], x < 256 := by
    intro x hx
    simp only [List.mem_cons, List.mem_singleton, List.not_mem_nil, or_false] at hx
    omega
  have hhex := bytesToHexString_eq_upperHexText _ hb
  simp only [List.length_cons, List.length_nil] at hhex
  unfold encoded_cmd_buffer
  simp only [cmd_buffer_eq setting value hs hv]
  rw [show 3 + 3 + 4 + 2 - 2 = 10 from rfl, bytesToHexString_ten, hhex,
    shortToHex_eq_upperHex16 _ (calcCrcFromHexStr_lt _ _)]
  rfl

set_option maxRecDepth 100000 in
theorem documentedSetCommands_encoded :
    ∀ e ∈ documentedSetCommands, (e.1, e.2.1) ≠ (2, 0x64) →
      encoded_cmd_buffer e.1 e.2.1 = e.2.2.toList := by
  decide!

/-- C8 (as stated, refuted): for setting 2 and value 0x64 the header documents
"4C5409003057000201644C1E" (Brightness = 100%), but `send_set_cmd(2, 0x64)`
broadcasts "4C54090030570002016470BC": the documented checksum 4C1E is not the
CRC of the 20 preceding characters, which is 70BC. -/
theorem send_set_cmd_brightness100_differs :
    (2, 0x64, "4C5409003057000201644C1E") ∈ documentedSetCommands ∧
      calcCrcFromHexStr "4C540900305700020164".toList 20 = 0x70BC ∧
      send_set_cmd { GvmLightControl.init with udp_2525_fd := 3 } 2 0x64 =
        ({ GvmLightControl.init with
            udp_2525_fd := 3, broadcasts := ["4C54090030570002016470BC".toList] }, 0) ∧
      send_set_cmd { GvmLightControl.init with udp_2525_fd := 3 } 2 0x64 ≠
        ({ GvmLightControl.init with
            udp_2525_fd := 3, broadcasts := ["4C5409003057000201644C1E".toList] }, 0) := by
  decide!

/-- C8 (amended): for every setting byte `s` and value byte `v`, with the
command channel open, `send_set_cmd(s, v)` returns 0 and broadcasts exactly
one payload of 24 characters: the uppercase hex text of the ten bytes
4C 54 09 00 30 57 00 s 01 v followed by the four uppercase hex digits, most
significant first, of `calcCrcFromHexStr` over those 20 characters; and it
reproduces every set command documented in the header other than the one for
Brightness = 100% (setting 2, value 0x64). -/
theorem send_set_cmd_frame (g : GvmLightControl) (s v : Nat) (hs : s < 256) (hv : v < 256)
    (hfd : g.udp_2525_fd ≠ -1) :
    send_set_cmd g s v =
        ({ g with broadcasts := g.broadcasts ++
            [upperHexText [0x4C, 0x54, 0x09, 0x00, 0x30, 0x57, 0x00, s, 0x01, v] ++
              upperHex16 (calcCrcFromHexStr
                (upperHexText [0x4C, 0x54, 0x09, 0x00, 0x30, 0x57, 0x00, s, 0x01, v]) 20)] }, 0) ∧
      (upperHexText [0x4C, 0x54, 0x09, 0x00, 0x30, 0x57, 0x00, s, 0x01, v] ++
        upperHex16 (calcCrcFromHexStr
          (upperHexText [0x4C, 0x54, 0x09, 0x00, 0x30, 0x57, 0x00, s, 0x01, v]) 20)).length = 24 ∧
      (∀ e ∈ documentedSetCommands, (e.1, e.2.1) ≠ (2, 0x64) →
        send_set_cmd g e.1 e.2.1 = ({ g with broadcasts := g.broadcasts ++ [e.2.2.toList] }, 0)) := by
  refine ⟨?_, rfl, ?_⟩
  · simp only [send_set_cmd, if_neg hfd, broadcast_udp, encoded_cmd_buffer_eq s v hs hv]
  · intro e he hne
    simp only [send_set_cmd, if_neg hfd, broadcast_udp, documentedSetCommands_encoded e he hne]

/-- Witness of `send_set_cmd_frame`: brightness 50% on an object whose command
socket is descriptor 3. -/
theorem send_set_cmd_frame_witness :
    send_set_cmd { GvmLightControl.init with udp_2525_fd := 3 } 2 0x32 =
      ({ GvmLightControl.init with
          udp_2525_fd := 3, broadcasts := ["4C5409003057000201324A8F".toList] }, 0) :=
  ((send_set_cmd_frame { GvmLightControl.init with udp_2525_fd := 3 } 2 0x32
    (by decide) (by decide) (by decide)).1).trans (by decide!)

/-! ## Setters -/

theorem toInt8_of_range (v : Int) (h0 : -128 ≤ v) (h1 : v ≤ 127) : toInt8 v = v := by
  unfold toInt8; omega

theorem toUInt8_of_range (v : Int) (h0 : 0 ≤ v) (h1 : v ≤ 255) : toUInt8 v = v.toNat := by
  unfold toUInt8; omega

theorem set_bounded_range (v lo hi : Int) (h : lo ≤ hi) :
    lo ≤ set_bounded v lo hi ∧ set_bounded v lo hi ≤ hi := by
  unfold set_bounded
  split_ifs <;> omega

/-- What a setter does with the value `w` it has computed, when the command
channel is open: the set command and then the hello message are broadcast. -/
theorem send_set_cmd_and_hello_open (g : GvmLightControl) (s w : Nat)
    (hfd : g.udp_2525_fd ≠ -1) :
    (send_set_cmd_and_hello g s w).1 =
      { g with broadcasts := g.broadcasts ++ [encoded_cmd_buffer s w, first_connect] } := by
  simp [send_set_cmd_and_hello, send_set_cmd, send_hello_msg, broadcast_udp, hfd]

/-- C2 (as stated, refuted): `setBrightness(150)` returns 0 and puts value byte
00 in the command, not 100; `setHue(-5)` returns 72 and puts value byte 0x48
in the command, not 0. -/
theorem setters_do_not_clamp :
    (setBrightness { GvmLightControl.init with udp_2525_fd := 3 } 150).2 = 0 ∧
      (setBrightness { GvmLightControl.init with udp_2525_fd := 3 } 150).2
        ≠ min (max 150 0) 100 ∧
      (setBrightness { GvmLightControl.init with udp_2525_fd := 3 } 150).1.broadcasts =
        ["4C5409003057000201005C9E".toList, first_connect] ∧
      (setHue { GvmLightControl.init with udp_2525_fd := 3 } (-5)).2 = 72 ∧
      (setHue { GvmLightControl.init with udp_2525_fd := 3 } (-5)).2 ≠ min (max (-5) 0) 72 ∧
      (setHue { GvmLightControl.init with udp_2525_fd := 3 } (-5)).1.broadcasts =
        [upperHexText [0x4C, 0x54, 0x09, 0x00, 0x30, 0x57, 0x00, 4, 0x01, 72] ++
          upperHex16 (calcCrcFromHexStr
            (upperHexText [0x4C, 0x54, 0x09, 0x00, 0x30, 0x57, 0x00, 4, 0x01, 72]) 20),
          first_connect] := by
  decide!

/-- C2 (amended): setter values wrap to the opposite bound. For every integer
`v`, `setBrightness(v)` returns `v` when `0 ≤ v ≤ 100`, 100 when `v < 0` and 0
when `v > 100`; `setHue(v)` returns `v` when `0 ≤ v ≤ 72`, 72 when `v < 0` and
0 when `v > 72`; with the command channel open the returned value is the value
byte (frame offset 9) of the set command that is broadcast, followed by the
hello message. -/
theorem setters_wrap (g : GvmLightControl) (v : Int) :
    (setBrightness g v).2 = (if v < 0 then 100 else if v > 100 then 0 else v) ∧
      (setHue g v).2 = (if v < 0 then 72 else if v > 72 then 0 else v) ∧
      (g.udp_2525_fd ≠ -1 →
        (setBrightness g v).1.broadcasts = g.broadcasts ++
          [upperHexText [0x4C, 0x54, 0x09, 0x00, 0x30, 0x57, 0x00, 2, 0x01,
              ((setBrightness g v).2).toNat] ++
            upperHex16 (calcCrcFromHexStr (upperHexText
              [0x4C, 0x54, 0x09, 0x00, 0x30, 0x57, 0x00, 2, 0x01,
                ((setBrightness g v).2).toNat]) 20),
            first_connect] ∧
        (setHue g v).1.broadcasts = g.broadcasts ++
          [upperHexText [0x4C, 0x54, 0x09, 0x00, 0x30, 0x57, 0x00, 4, 0x01,
              ((setHue g v).2).toNat] ++
            upperHex16 (calcCrcFromHexStr (upperHexText
              [0x4C, 0x54, 0x09, 0x00, 0x30, 0x57, 0x00, 4, 0x01,
                ((setHue g v).2).toNat]) 20),
            first_connect]) := by
  have hb := set_bounded_range v 0 100 (by decide)
  have hh := set_bounded_range v 0 72 (by decide)
  have eb : toInt8 (set_bounded v 0 100) = set_bounded v 0 100 :=
    toInt8_of_range _ (by omega) (by omega)
  have eh : toInt8 (set_bounded v 0 72) = set_bounded v 0 72 :=
    toInt8_of_range _ (by omega) (by omega)
  refine ⟨?_, ?_, ?_⟩
  · show toInt8 (set_bounded v 0 100) = _
    rw [eb]; rfl
  · show toInt8 (set_bounded v 0 72) = _
    rw [eh]; rfl
  · intro hfd
    constructor
    · simp only [setBrightness, eb]
      rw [send_set_cmd_and_hello_open, toUInt8_of_range _ (by omega) (by omega),
        encoded_cmd_buffer_eq _ _ (by decide) (by omega)]
      · rfl
      · exact hfd
    · simp only [setHue, eh]
      rw [send_set_cmd_and_hello_open, toUInt8_of_range _ (by omega) (by omega),
        encoded_cmd_buffer_eq _ _ (by decide) (by omega)]
      · rfl
      · exact hfd

/-- Witness of `setters_wrap`: brightness 150 and hue 150 with the command
socket open on descriptor 3. -/
theorem setters_wrap_witness :
    (setBrightness { GvmLightControl.init with udp_2525_fd := 3 } 150).1.broadcasts =
      ["4C5409003057000201005C9E".toList, first_connect] :=
  (((setters_wrap { GvmLightControl.init with udp_2525_fd := 3 } 150).2.2
    (by decide)).1).trans (by decide!)

/-! ## The documented brightness command -/

/-- C6: `calcCrcFromHexStr` over the 20 hex digits "4C540900305700020132", the
body of the documented Brightness = 50% command, returns exactly 0x4A8F. -/
theorem calcCrcFromHexStr_brightness50 :
    calcCrcFromHexStr "4C540900305700020132".toList 20 = 0x4A8F := by
  decide!

/-! ## Set-acknowledge and unrecognised frames -/

theorem byteAt_decodeInto_zeros (t : List Char) (len k : Nat) (h : len / 2 ≤ k) :
    byteAt (decodeInto (List.replicate 1024 0) t len) k = 0 := by
  have hl := hexStringToBytes_length len t
  unfold decodeInto byteAt
  simp only []
  rw [List.getD_append_right _ _ _ _ (by omega), List.getD_eq_getElem?_getD,
    List.getElem?_drop, List.getElem?_replicate]
  split_ifs <;> rfl

theorem frameByte_of_le (t : List Char) (k : Nat) (h : t.length / 2 ≤ k) : frameByte t k = 0 := by
  have hl := hexStringToBytes_length t.length t
  unfold frameByte byteAt
  rw [List.getD_eq_getElem?_getD, List.getElem?_eq_none (by omega)]
  rfl

/-- In a datagram that holds one frame, the decode buffer shows the decoded
frame at every offset (zero past its end). -/
theorem byteAt_decodeInto_frame (t : List Char) (k : Nat) :
    byteAt (decodeInto (List.replicate 1024 0) t t.length) (0 + k) = frameByte t k := by
  rw [Nat.zero_add]
  by_cases h : k < t.length / 2
  · rw [byteAt_decodeInto _ _ _ _ h, frameByte_eq _ _ h]
  · rw [byteAt_decodeInto_zeros _ _ _ (by omega), frameByte_of_le _ _ (by omega)]

theorem applyVarSet_eq (buf : List Nat) (off : Nat) (g : GvmLightControl) :
    applyVarSet buf off g =
      notifyStatusUpdated { g with
        light_status :=
          g.light_status.setField (byteAt buf (off + 7)) (byteAt buf (off + 8) : Int) } := by
  unfold applyVarSet
  generalize byteAt buf (off + 7) = f
  generalize byteAt buf (off + 8) = v
  by_cases h0 : f = 0
  · subst h0; rfl
  by_cases h1 : f = 1
  · subst h1; rfl
  by_cases h2 : f = 2
  · subst h2; rfl
  by_cases h3 : f = 3
  · subst h3; rfl
  by_cases h4 : f = 4
  · subst h4; rfl
  by_cases h5 : f = 5
  · subst h5; rfl
  have e : g.light_status.setField f (v : Int) = g.light_status := by
    unfold LightStatus.setField
    split <;> first | rfl | omega
  simp only [LIGHT_VAR_ON_OFF, LIGHT_VAR_CHANNEL, LIGHT_VAR_BRIGHTNESS, LIGHT_VAR_CCT,
    LIGHT_VAR_HUE, LIGHT_VAR_SATURATION, if_neg h0, if_neg h1, if_neg h2, if_neg h3, if_neg h4,
    if_neg h5, e]

theorem field_setField (st : LightStatus) (f : Nat) (v : Int) (code : Nat) :
    (st.setField f v).field code = if code = f ∧ f ≤ 5 then some v else st.field code := by
  by_cases hf : f ≤ 5
  · have hc : f = 0 ∨ f = 1 ∨ f = 2 ∨ f = 3 ∨ f = 4 ∨ f = 5 := by omega
    by_cases hcode : code ≤ 5
    · have hd : code = 0 ∨ code = 1 ∨ code = 2 ∨ code = 3 ∨ code = 4 ∨ code = 5 := by omega
      rcases hc with e | e | e | e | e | e <;> subst e <;>
        rcases hd with d | d | d | d | d | d <;> subst d <;> rfl
    · have e1 : ∀ s : LightStatus, s.field code = none := by
        intro s
        unfold LightStatus.field
        split <;> first | omega | rfl
      rw [e1, e1, if_neg (by omega)]
  · have e : st.setField f v = st := by
      unfold LightStatus.setField
      split <;> first | rfl | omega
    rw [e, if_neg (by omega)]

/-- C11: for every valid frame of kind 0x02 with byte `f` at frame offset 7
and byte `v` at frame offset 8, decoding it returns 1 and passes the
`onStatusUpdated` call once; if `f` is in 0..5 the one member selected by `f`
becomes `v` and the other five keep their values, if `f > 5` no member
changes; nothing else of the object changes. (`frameByte` is 0 past the end of
a frame, as is the fresh decode buffer, so the statement also covers a frame
of fewer than 9 bytes decoded as the first datagram of a call.) The documented
acknowledgement "4C54080030020002030AEA" is accepted and sets brightness to 3
and nothing else. -/
theorem set_ack_changes_one_field (g : GvmLightControl) (t : List Char) (hv : validFrame t)
    (hkind : frameByte t 5 = 0x02) :
    read_udp g [t] =
        ({ g with
            light_status := g.light_status.setField (frameByte t 7) (frameByte t 8 : Int),
            statusUpdatedCalls :=
              if g.onStatusUpdated then g.statusUpdatedCalls + 1 else g.statusUpdatedCalls }, 1) ∧
      (∀ code, (read_udp g [t]).1.light_status.field code =
        if code = frameByte t 7 ∧ frameByte t 7 ≤ 5 then some (frameByte t 8 : Int)
        else g.light_status.field code) ∧
      (5 < frameByte t 7 → (read_udp g [t]).1.light_status = g.light_status) ∧
      validFrame "4C54080030020002030AEA".toList ∧
      read_udp g ["4C54080030020002030AEA".toList] =
        ({ g with
            light_status := { g.light_status with brightness := 3 },
            statusUpdatedCalls :=
              if g.onStatusUpdated then g.statusUpdatedCalls + 1 else g.statusUpdatedCalls }, 1) := by
  have key : ∀ (u : List Char), validFrame u → frameByte u 5 = 0x02 →
      read_udp g [u] =
        ({ g with
            light_status := g.light_status.setField (frameByte u 7) (frameByte u 8 : Int),
            statusUpdatedCalls :=
              if g.onStatusUpdated then g.statusUpdatedCalls + 1 else g.statusUpdatedCalls }, 1) := by
    intro u hu hk
    rw [read_udp_valid_frame g u hu]
    unfold applyMessage
    rw [byteAt_decodeInto_frame u 5, hk, if_neg (show ¬ (0x02 = LIGHT_MSG_VAR_ALL) by decide),
      if_pos (show 0x02 = LIGHT_MSG_VAR_SET from rfl), applyVarSet_eq,
      byteAt_decodeInto_frame u 7, byteAt_decodeInto_frame u 8]
    unfold notifyStatusUpdated
    split_ifs <;> rfl
  refine ⟨key t hv hkind, ?_, ?_, by decide!, ?_⟩
  · intro code
    rw [key t hv hkind]
    exact field_setField _ _ _ _
  · intro h5
    rw [key t hv hkind]
    show g.light_status.setField (frameByte t 7) _ = _
    unfold LightStatus.setField
    split <;> first | rfl | omega
  · rw [key _ (by decide!) (by decide!)]
    have e7 : frameByte "4C54080030020002030AEA".toList 7 = 2 := by decide!
    have e8 : frameByte "4C54080030020002030AEA".toList 8 = 3 := by decide!
    rw [e7, e8]
    rfl

/-- Witness of `set_ack_changes_one_field`: the other acknowledgement quoted
in the source, "4C54080030020002003A89" (brightness 0). -/
theorem set_ack_changes_one_field_witness :
    read_udp GvmLightControl.init ["4C54080030020002003A89".toList] =
      ({ GvmLightControl.init with
          light_status := { LightStatus.init with brightness := 0 } }, 1) :=
  ((set_ack_changes_one_field GvmLightControl.init "4C54080030020002003A89".toList
    (by decide!) (by decide!)).1).trans (by decide!)

/-- C12: for every CRC-valid frame whose message-kind byte (offset 5) is
neither 0x02 nor 0x03, decoding returns 1 and leaves the whole object
unchanged: no `light_status` member changes and `onStatusUpdated` is not
called. The hello broadcast "4C5409000053000001009474" is such a frame (its
kind byte is 0x53): fed through the decode path it is counted and changes
nothing. -/
theorem unrecognised_kind_changes_nothing (g : GvmLightControl) (t : List Char)
    (hv : validFrame t) (h2 : frameByte t 5 ≠ 0x02) (h3 : frameByte t 5 ≠ 0x03) :
    read_udp g [t] = (g, 1) ∧
      validFrame first_connect ∧ frameByte first_connect 5 = 0x53 ∧
      read_udp g [first_connect] = (g, 1) := by
  have key : ∀ (u : List Char), validFrame u → frameByte u 5 ≠ 0x02 → frameByte u 5 ≠ 0x03 →
      read_udp g [u] = (g, 1) := by
    intro u hu hk2 hk3
    rw [read_udp_valid_frame g u hu]
    unfold applyMessage
    rw [byteAt_decodeInto_frame u 5,
      if_neg (show ¬ frameByte u 5 = LIGHT_MSG_VAR_ALL from hk3),
      if_neg (show ¬ frameByte u 5 = LIGHT_MSG_VAR_SET from hk2)]
  exact ⟨key t hv h2 h3, by decide!, by decide!, key _ (by decide!) (by decide!) (by decide!)⟩

/-- Witness of `unrecognised_kind_changes_nothing`: the documented set
command "4C5409003057000201324A8F" (kind 0x57) received on the socket. -/
theorem unrecognised_kind_changes_nothing_witness :
    read_udp GvmLightControl.init ["4C5409003057000201324A8F".toList] =
      (GvmLightControl.init, 1) :=
  (unrecognised_kind_changes_nothing GvmLightControl.init "4C5409003057000201324A8F".toList
    (by decide!) (by decide!) (by decide!)).1

/-! ## Hex decoding is total -/

theorem charToVal_of_not_hex (c : Char) (h : c ∉ "0123456789abcdefABCDEF".toList) :
    charToVal c = 0 := by
  have hc := Char.ofNat_toNat c
  unfold charToVal
  by_cases h1 : 48 ≤ c.toNat ∧ c.toNat ≤ 57
  · exfalso
    apply h
    obtain ⟨a, b⟩ := h1
    rw [← hc]
    interval_cases c.toNat <;> decide
  by_cases h2 : 97 ≤ c.toNat ∧ c.toNat ≤ 102
  · exfalso
    apply h
    obtain ⟨a, b⟩ := h2
    rw [← hc]
    interval_cases c.toNat <;> decide
  by_cases h3 : 65 ≤ c.toNat ∧ c.toNat ≤ 70
  · exfalso
    apply h
    obtain ⟨a, b⟩ := h3
    rw [← hc]
    interval_cases c.toNat <;> decide
  rw [if_neg h1, if_neg h2, if_neg h3]

/-- C20: hex decoding is total and treats invalid digits as zero. For every
character string `s` and length `n`, `hexStringToBytes` produces exactly
`n / 2` bytes (a trailing unpaired digit is ignored), byte `i` being
`16 * charToVal(s[2i]) + charToVal(s[2i+1])`; `charToVal` maps the digits
"0123456789abcdef" and "0123456789ABCDEF" to 0..15 and every other character
to 0. -/
theorem hexStringToBytes_total (s : List Char) (n : Nat) :
    (hexStringToBytes s n).length = n / 2 ∧
      (∀ i, i < n / 2 → (hexStringToBytes s n).getD i 0 =
        16 * charToVal (charAt s (2 * i)) + charToVal (charAt s (2 * i + 1))) ∧
      hexStringToBytes s (2 * (n / 2) + 1) = hexStringToBytes s (2 * (n / 2)) ∧
      (∀ v, v < 16 → charToVal ("0123456789abcdef".toList.getD v 'x') = v ∧
        charToVal ("0123456789ABCDEF".toList.getD v 'X') = v) ∧
      (∀ c, c ∉ "0123456789abcdefABCDEF".toList → charToVal c = 0) := by
  refine ⟨hexStringToBytes_length n s, ?_, ?_, ?_, charToVal_of_not_hex⟩
  · intro i hi
    exact getD_hexStringToBytes n s i hi
  · apply List.ext_getElem
    · rw [hexStringToBytes_length, hexStringToBytes_length]; omega
    · intro i h1 h2
      rw [hexStringToBytes_length] at h1 h2
      have a := getD_hexStringToBytes (2 * (n / 2) + 1) s i (by omega)
      have b := getD_hexStringToBytes (2 * (n / 2)) s i (by omega)
      rw [List.getD_eq_getElem?_getD, List.getElem?_eq_getElem (by rw [hexStringToBytes_length]; omega)] at a b
      simp only [Option.getD_some] at a b
      rw [a, b]
  · intro v hv
    interval_cases v <;> decide

/-- Witness of `hexStringToBytes_total`: in "4cZ9q" the pair "Z9" decodes to
9, the invalid digit counting as 0, and the unpaired `q` is ignored. -/
theorem hexStringToBytes_total_witness :
    hexStringToBytes "4cZ9q".toList 5 = [0x4C, 0x09] ∧ charToVal 'Z' = 0 :=
  ⟨by decide, (hexStringToBytes_total "4cZ9q".toList 5).2.2.2.2 'Z' (by decide)⟩

/-! ## The fields of `light_status` under decoding and setters -/

theorem byteAt_lt (buf : List Nat) (i : Nat) : byteAt buf i < 256 :=
  Nat.mod_lt _ (by decide)

theorem notifyStatusUpdated_light_status (g : GvmLightControl) :
    (notifyStatusUpdated g).light_status = g.light_status := by
  unfold notifyStatusUpdated
  split_ifs <;> rfl

theorem applyMessage_bytesOrUnknown (buf : List Nat) (off : Nat) (g : GvmLightControl)
    (h : g.light_status.bytesOrUnknown) : (applyMessage buf off g).light_status.bytesOrUnknown := by
  have b6 := byteAt_lt buf (off + 6)
  have b7 := byteAt_lt buf (off + 7)
  have b8 := byteAt_lt buf (off + 8)
  have b9 := byteAt_lt buf (off + 9)
  have b10 := byteAt_lt buf (off + 10)
  have b11 := byteAt_lt buf (off + 11)
  unfold applyMessage
  split_ifs
  · unfold applyVarAll
    rw [notifyStatusUpdated_light_status]
    unfold LightStatus.bytesOrUnknown
    simp only []
    omega
  · rw [applyVarSet_eq, notifyStatusUpdated_light_status]
    unfold LightStatus.bytesOrUnknown at h ⊢
    unfold LightStatus.setField
    split <;> simp only [] <;> omega
  · exact h

theorem decodeFrames_bytesOrUnknown (rx : List Char) (buf : List Nat) :
    ∀ (fuel : Nat) (s : RxLoop), s.g.light_status.bytesOrUnknown →
      (decodeFrames rx buf fuel s).g.light_status.bytesOrUnknown
  | 0, _, h => h
  | fuel + 1, s, h => by
    rw [decodeFrames_succ]
    split_ifs
    · exact h
    · exact decodeFrames_bytesOrUnknown rx buf fuel _ (applyMessage_bytesOrUnknown _ _ _ h)
    · exact h

theorem recvLoop_bytesOrUnknown : ∀ (pending : List (List Char)) (buf : List Nat)
    (g : GvmLightControl) (m : Nat), g.light_status.bytesOrUnknown →
      (recvLoop buf g m pending).1.light_status.bytesOrUnknown
  | [], _, _, _, h => h
  | d :: pending, buf, g, m, h => by
    unfold recvLoop
    exact recvLoop_bytesOrUnknown pending _ _ _ (decodeFrames_bytesOrUnknown _ _ _ _ h)

theorem send_set_cmd_and_hello_light_status (g : GvmLightControl) (s w : Nat) :
    (send_set_cmd_and_hello g s w).1.light_status = g.light_status := by
  by_cases hfd : g.udp_2525_fd = -1
  · simp [send_set_cmd_and_hello, send_set_cmd, hfd]
  · simp [send_set_cmd_and_hello, send_set_cmd, send_hello_msg, broadcast_udp, hfd]

/-- The value a setter stores and returns: `set_bounded` of the argument, which
the conversion to `int8_t` leaves as it is. -/
theorem toInt8_set_bounded (v lo hi : Int) (h : lo ≤ hi) (h0 : -128 ≤ lo) (h1 : hi ≤ 127) :
    toInt8 (set_bounded v lo hi) = set_bounded v lo hi := by
  have := set_bounded_range v lo hi h
  exact toInt8_of_range _ (by omega) (by omega)

theorem Op_apply_bytesOrUnknown (g : GvmLightControl) (op : Op)
    (h : g.light_status.bytesOrUnknown) : (op.apply g).light_status.bytesOrUnknown := by
  cases op with
  | decode pending => exact recvLoop_bytesOrUnknown pending _ g 0 h
  | setOnOff v =>
    have r := set_bounded_range v 0 1 (by decide)
    have e := toInt8_set_bounded v 0 1 (by decide) (by decide) (by decide)
    show (send_set_cmd_and_hello _ _ _).1.light_status.bytesOrUnknown
    rw [send_set_cmd_and_hello_light_status, e]
    unfold LightStatus.bytesOrUnknown at h ⊢
    simp only []
    omega
  | setChannel v =>
    have r := set_bounded_range v 1 12 (by decide)
    have e := toInt8_set_bounded v 1 12 (by decide) (by decide) (by decide)
    show (send_set_cmd_and_hello _ _ _).1.light_status.bytesOrUnknown
    rw [send_set_cmd_and_hello_light_status, e]
    unfold LightStatus.bytesOrUnknown at h ⊢
    simp only []
    omega
  | setBrightness v =>
    have r := set_bounded_range v 0 100 (by decide)
    have e := toInt8_set_bounded v 0 100 (by decide) (by decide) (by decide)
    show (send_set_cmd_and_hello _ _ _).1.light_status.bytesOrUnknown
    rw [send_set_cmd_and_hello_light_status, e]
    unfold LightStatus.bytesOrUnknown at h ⊢
    simp only []
    omega
  | setCct v =>
    have r := set_bounded_range v 32 56 (by decide)
    have e := toInt8_set_bounded v 32 56 (by decide) (by decide) (by decide)
    show (send_set_cmd_and_hello _ _ _).1.light_status.bytesOrUnknown
    rw [send_set_cmd_and_hello_light_status, e]
    unfold LightStatus.bytesOrUnknown at h ⊢
    simp only []
    omega
  | setHue v =>
    have r := set_bounded_range v 0 72 (by decide)
    have e := toInt8_set_bounded v 0 72 (by decide) (by decide) (by decide)
    show (send_set_cmd_and_hello _ _ _).1.light_status.bytesOrUnknown
    rw [send_set_cmd_and_hello_light_status, e]
    unfold LightStatus.bytesOrUnknown at h ⊢
    simp only []
    omega
  | setSaturation v =>
    have r := set_bounded_range v 0 100 (by decide)
    have e := toInt8_set_bounded v 0 100 (by decide) (by decide) (by decide)
    show (send_set_cmd_and_hello _ _ _).1.light_status.bytesOrUnknown
    rw [send_set_cmd_and_hello_light_status, e]
    unfold LightStatus.bytesOrUnknown at h ⊢
    simp only []
    omega

theorem runOps_bytesOrUnknown (ops : List Op) (g : GvmLightControl)
    (h : g.light_status.bytesOrUnknown) : (runOps g ops).light_status.bytesOrUnknown := by
  induction ops generalizing g with
  | nil => exact h
  | cons op ops ih => exact ih _ (Op_apply_bytesOrUnknown g op h)

/-- C13 (as stated, refuted): "4C540B0030030102C82C3819258E" is a valid status
frame whose brightness byte is 0xC8. From the initial state, one decode call
on it leaves brightness at 200, outside 0..100: the documented ranges are not
an invariant of the decode path. -/
theorem decode_breaks_documented_ranges :
    GvmLightControl.init.light_status.inDocumentedRanges ∧
      validFrame "4C540B0030030102C82C3819258E".toList ∧
      (runOps GvmLightControl.init
        [Op.decode ["4C540B0030030102C82C3819258E".toList]]).light_status.brightness = 200 ∧
      ¬ (runOps GvmLightControl.init
        [Op.decode ["4C540B0030030102C82C3819258E".toList]]).light_status.inDocumentedRanges := by
  decide!

/-- C13 (amended): starting from an object whose fields are all unknown (-1),
after any sequence of decode calls on arbitrary buffers and setter calls with
arbitrary integer arguments, each field is either -1 or a byte value 0..255
(a decoded byte is stored without a range check); the value each setter
returns lies in the documented range of its setting. -/
theorem fields_stay_bytes_or_unknown (g : GvmLightControl) (ops : List Op)
    (h : g.light_status = LightStatus.init) :
    (runOps g ops).light_status.bytesOrUnknown ∧
      (∀ (g' : GvmLightControl) (v : Int),
        (0 ≤ (setOnOff g' v).2 ∧ (setOnOff g' v).2 ≤ 1) ∧
        (1 ≤ (setChannel g' v).2 ∧ (setChannel g' v).2 ≤ 12) ∧
        (0 ≤ (setBrightness g' v).2 ∧ (setBrightness g' v).2 ≤ 100) ∧
        (32 ≤ (setCct g' v).2 ∧ (setCct g' v).2 ≤ 56) ∧
        (0 ≤ (setHue g' v).2 ∧ (setHue g' v).2 ≤ 72) ∧
        (0 ≤ (setSaturation g' v).2 ∧ (setSaturation g' v).2 ≤ 100)) := by
  constructor
  · apply runOps_bytesOrUnknown
    rw [h]
    decide
  · intro g' v
    have e1 := toInt8_set_bounded v 0 1 (by decide) (by decide) (by decide)
    have e2 := toInt8_set_bounded v 1 12 (by decide) (by decide) (by decide)
    have e3 := toInt8_set_bounded v 0 100 (by decide) (by decide) (by decide)
    have e4 := toInt8_set_bounded v 32 56 (by decide) (by decide) (by decide)
    have e5 := toInt8_set_bounded v 0 72 (by decide) (by decide) (by decide)
    have r1 := set_bounded_range v 0 1 (by decide)
    have r2 := set_bounded_range v 1 12 (by decide)
    have r3 := set_bounded_range v 0 100 (by decide)
    have r4 := set_bounded_range v 32 56 (by decide)
    have r5 := set_bounded_range v 0 72 (by decide)
    simp only [setOnOff, setChannel, setBrightness, setCct, setHue, setSaturation, e1, e2, e3, e4,
      e5]
    exact ⟨r1, r2, r3, r4, r5, r3⟩

/-- Witness of `fields_stay_bytes_or_unknown`: a setter call, a decode call on
the out-of-range status frame, and another setter call. -/
theorem fields_stay_bytes_or_unknown_witness :
    (runOps GvmLightControl.init
      [Op.setCct 40, Op.decode ["4C540B0030030102C82C3819258E".toList],
        Op.setHue (-5)]).light_status.bytesOrUnknown :=
  (fields_stay_bytes_or_unknown GvmLightControl.init
    [Op.setCct 40, Op.decode ["4C540B0030030102C82C3819258E".toList], Op.setHue (-5)] rfl).1

/-- C14 (as stated, refuted): from the initial object (command channel
closed, so nothing is sent and no frame is decoded), `setBrightness(50)`
returns 50 and leaves brightness at 50 instead of -1. -/
theorem setter_writes_light_status :
    (setBrightness GvmLightControl.init 50).2 = 50 ∧
      (setBrightness GvmLightControl.init 50).1.broadcasts = [] ∧
      (setBrightness GvmLightControl.init 50).1.light_status.brightness = 50 ∧
      (setBrightness GvmLightControl.init 50).1.light_status ≠
        GvmLightControl.init.light_status := by
  decide!

/-- C14 (amended): each of `setOnOff`, `setChannel`, `setBrightness`, `setCct`
and `setHue`, for every integer argument, stores the value it returns into its
own field of `light_status` during the call and leaves the other five fields
as they were. -/
theorem setters_store_returned_value (g : GvmLightControl) (v : Int) :
    (setOnOff g v).1.light_status = { g.light_status with on_off := (setOnOff g v).2 } ∧
      (setChannel g v).1.light_status = { g.light_status with channel := (setChannel g v).2 } ∧
      (setBrightness g v).1.light_status =
        { g.light_status with brightness := (setBrightness g v).2 } ∧
      (setCct g v).1.light_status = { g.light_status with cct := (setCct g v).2 } ∧
      (setHue g v).1.light_status = { g.light_status with hue := (setHue g v).2 } := by
  refine ⟨?_, ?_, ?_, ?_, ?_⟩
  · show (send_set_cmd_and_hello _ _ _).1.light_status = _
    rw [send_set_cmd_and_hello_light_status]; rfl
  · show (send_set_cmd_and_hello _ _ _).1.light_status = _
    rw [send_set_cmd_and_hello_light_status]; rfl
  · show (send_set_cmd_and_hello _ _ _).1.light_status = _
    rw [send_set_cmd_and_hello_light_status]; rfl
  · show (send_set_cmd_and_hello _ _ _).1.light_status = _
    rw [send_set_cmd_and_hello_light_status]; rfl
  · show (send_set_cmd_and_hello _ _ _).1.light_status = _
    rw [send_set_cmd_and_hello_light_status]; rfl

/-- C15 (failing input): `setSaturation(50)` with the command channel open on
descriptor 3. It returns 50, but the set command it broadcasts is
"4C540900305700040132F82F": the field code at frame offset 7 is 4 (hue), not 5,
and the value is stored into hue while saturation stays unknown. -/
theorem setSaturation_acts_on_hue :
    (setSaturation { GvmLightControl.init with udp_2525_fd := 3 } 50).2 = 50 ∧
      (setSaturation { GvmLightControl.init with udp_2525_fd := 3 } 50).1.broadcasts =
        ["4C540900305700040132F82F".toList, first_connect] ∧
      frameByte "4C540900305700040132F82F".toList 7 = LIGHT_VAR_HUE ∧
      frameByte "4C540900305700040132F82F".toList 7 ≠ LIGHT_VAR_SATURATION ∧
      (setSaturation { GvmLightControl.init with udp_2525_fd := 3 } 50).1.light_status.hue = 50 ∧
      (setSaturation { GvmLightControl.init with udp_2525_fd := 3 } 50).1.light_status.saturation
        = -1 := by
  decide!

/-! ## The loop over a buffer of several frames -/

theorem charAt_take (r : List Char) (n j : Nat) (h : j < n) : charAt (r.take n) j = charAt r j := by
  unfold charAt
  rw [List.getD_eq_getElem?_getD, List.getD_eq_getElem?_getD, List.getElem?_take_of_lt h]

theorem textByte_take (r : List Char) (n k : Nat) (h : 2 * k + 1 < n) :
    textByte (r.take n) k = textByte r k := by
  unfold textByte
  rw [charAt_take r n _ (by omega), charAt_take r n _ h]

/-- A text whose header is well formed and whose CRC matches starts with a
valid frame: its first `2 * (3 + L)` characters. -/
theorem validFrame_take (r : List Char) (h6 : 6 ≤ r.length) (h0 : textByte r 0 = 0x4C)
    (h1 : textByte r 1 = 0x54) (hl : textByte r 2 ≤ r.length / 2 - 3)
    (hc : calcCrcFromHexStr r (2 * (3 + textByte r 2 - 2)) =
      textByte r (3 + textByte r 2 - 2) * 256 + textByte r (3 + textByte r 2 - 2 + 1)) :
    validFrame (r.take (2 * (3 + textByte r 2))) := by
  have hlen : (r.take (2 * (3 + textByte r 2))).length = 2 * (3 + textByte r 2) := by
    rw [List.length_take]; omega
  have hb : ∀ k, k < 3 + textByte r 2 →
      frameByte (r.take (2 * (3 + textByte r 2))) k = textByte r k := by
    intro k hk
    rw [frameByte_eq _ _ (by omega), textByte_take _ _ _ (by omega)]
  unfold validFrame
  rw [hb 0 (by omega), hb 1 (by omega), hb 2 (by omega), hb _ (by omega), hb _ (by omega), hlen]
  refine ⟨by omega, h0, h1, rfl, ?_⟩
  rw [← hc, calcCrcFromHexStr_eq, calcCrcFromHexStr_eq]
  apply calcCrcLoop_congr
  intro i hi
  exact charAt_take r _ i (by omega)

/-- The loop stops, with nothing changed, where what is left of the buffer
does not start with a valid frame. -/
theorem decodeFrames_rest (rx : List Char) (buf : List Nat) (fuel : Nat) (s : RxLoop)
    (r : List Char) (hw : RestAtCursor rx buf s r) (hno : ∀ p, p <+: r → ¬ validFrame p) :
    decodeFrames rx buf fuel s = s := by
  obtain ⟨hr, hch, hb⟩ := hw
  cases fuel with
  | zero => rfl
  | succ n =>
    rw [decodeFrames_succ]
    by_cases hg : frameGuard buf s = true
    · rw [if_pos hg]
      have h6 : 6 ≤ r.length := by
        have := frameGuard_rx_len buf s hg
        omega
      unfold frameGuard at hg
      rw [hb 0 (by omega), hb 1 (by omega), hb 2 (by omega), hr] at hg
      simp only [Bool.and_eq_true, decide_eq_true_eq] at hg
      obtain ⟨⟨⟨-, h0⟩, h1⟩, hl⟩ := hg
      by_cases hc : frameCrc rx buf s ≠ frameMsgCrc buf s
      · rw [if_pos hc]
      · exfalso
        apply hno _ (List.take_prefix (2 * (3 + textByte r 2)) r)
        apply validFrame_take r h6 h0 h1 hl
        have hc' : frameCrc rx buf s = frameMsgCrc buf s := by
          by_contra hne
          exact hc hne
        unfold frameCrc frameMsgCrc at hc'
        simp only [] at hc'
        rw [hb 2 (by omega), Nat.add_assoc, hb _ (by omega), hb _ (by omega)] at hc'
        rw [← hc', calcCrcFromHexStr_eq, calcCrcFromHexStr_eq]
        apply calcCrcLoop_congr
        intro i hi
        rw [charAt_drop]
        exact (hch i (by omega)).symm
    · rw [if_neg hg]

/-- The loop over consecutive valid frames followed by text that does not
start with a valid frame: every frame is counted and applied, and the loop
stops at the remaining text. -/
theorem decodeFrames_frames (rx : List Char) (buf : List Nat)
    (hbuf : ∀ k, k < rx.length / 2 → byteAt buf k = textByte rx k) (r : List Char)
    (hno : ∀ p, p <+: r → ¬ validFrame p) :
    ∀ (fs : List (List Char)) (pre : List Char) (off : Nat) (g : GvmLightControl) (m fuel : Nat),
      rx = pre ++ (fs.flatten ++ r) → pre.length = 2 * off → (∀ f ∈ fs, validFrame f) →
      (fs.flatten ++ r).length / 6 < fuel →
      decodeFrames rx buf fuel
          { g := g, msgs_processed := m, rx_len := (fs.flatten ++ r).length, hexDecode := off,
            msgDecode := pre.length } =
        { g := applyFrames buf off g fs, msgs_processed := m + fs.length, rx_len := r.length,
          hexDecode := off + fs.flatten.length / 2, msgDecode := pre.length + fs.flatten.length }
  | [], pre, off, g, m, fuel, hrx, hpre, _, _ => by
    simp only [List.flatten_nil, List.nil_append, List.length_nil, Nat.add_zero, Nat.zero_div,
      applyFrames]
    simp only [List.flatten_nil, List.nil_append] at hrx
    apply decodeFrames_rest rx buf fuel _ r _ hno
    refine ⟨rfl, ?_, ?_⟩
    · intro j _
      rw [hrx]
      exact charAt_append_right pre r j
    · intro k hk
      have hlen : rx.length = pre.length + r.length := by rw [hrx, List.length_append]
      show byteAt buf (off + k) = _
      rw [hbuf _ (by omega), hrx, textByte_append_right pre r off k hpre]
  | f :: fs, pre, off, g, m, fuel, hrx, hpre, hv, hfuel => by
    have hvf := hv f (List.mem_cons_self _ _)
    have hvfs : ∀ f' ∈ fs, validFrame f' := fun f' hf' => hv f' (List.mem_cons_of_mem _ hf')
    have h6 := hvf.1
    have hev : f.length = 2 * (f.length / 2) := by
      have := hvf.2.2.2.1
      omega
    have hfl : ((f :: fs).flatten ++ r).length = f.length + (fs.flatten ++ r).length := by
      simp only [List.flatten_cons, List.append_assoc, List.length_append]
    have hlen : rx.length = pre.length + (f.length + (fs.flatten ++ r).length) := by
      rw [hrx, List.length_append, hfl]
    have hrx1 : rx = pre ++ (f ++ (fs.flatten ++ r)) := by
      rw [hrx, List.flatten_cons, List.append_assoc]
    have hrx2 : rx = (pre ++ f) ++ (fs.flatten ++ r) := by
      rw [hrx1, List.append_assoc]
    have hw : FrameAtCursor rx buf
        { g := g, msgs_processed := m, rx_len := ((f :: fs).flatten ++ r).length, hexDecode := off,
          msgDecode := pre.length } f := by
      refine ⟨?_, ?_, ?_⟩
      · show f.length ≤ ((f :: fs).flatten ++ r).length
        omega
      · intro j hj
        show charAt rx (pre.length + j) = _
        rw [hrx1, charAt_append_right, charAt_append_left _ _ _ hj]
      · intro k hk
        show byteAt buf (off + k) = _
        rw [hbuf _ (by omega), hrx1, textByte_append_right pre _ off k hpre,
          textByte_append_left f _ k (by omega)]
    obtain ⟨n, rfl⟩ : ∃ n, fuel = n + 1 := ⟨fuel - 1, by omega⟩
    rw [decodeFrames_accept rx buf n _ f hvf hw]
    have ih := decodeFrames_frames rx buf hbuf r hno fs (pre ++ f) (off + f.length / 2)
      (applyMessage buf off g) (m + 1) n hrx2 (by rw [List.length_append]; omega) hvfs
      (by omega)
    have e1 : ((f :: fs).flatten ++ r).length - f.length = (fs.flatten ++ r).length := by omega
    have e2 : (f :: fs).flatten.length = f.length + fs.flatten.length := by
      simp only [List.flatten_cons, List.length_append]
    have e3 : pre.length + f.length = (pre ++ f).length := (List.length_append _ _).symm
    simp only [e1]
    rw [e3, ih, e2, ← e3]
    simp only [applyFrames, List.length_cons]
    congr 1
    · omega
    · omega
    · omega

/-- Frames that hold every byte read for them are applied as if each were
decoded on its own, one after the other. -/
theorem applyFrames_eq_foldl (rx : List Char) (buf : List Nat)
    (hbuf : ∀ k, k < rx.length / 2 → byteAt buf k = textByte rx k) (r : List Char) :
    ∀ (fs : List (List Char)) (pre : List Char) (off : Nat) (g : GvmLightControl),
      rx = pre ++ (fs.flatten ++ r) → pre.length = 2 * off →
      (∀ f ∈ fs, validFrame f) → (∀ f ∈ fs, readsInside f) →
      applyFrames buf off g fs = fs.foldl (fun g' f => (read_udp g' [f]).1) g
  | [], _, _, _, _, _, _, _ => rfl
  | f :: fs, pre, off, g, hrx, hpre, hv, hin => by
    have hvf := hv f (List.mem_cons_self _ _)
    have hev : f.length = 2 * (f.length / 2) := by
      have := hvf.2.2.2.1
      omega
    have hrx1 : rx = pre ++ (f ++ (fs.flatten ++ r)) := by
      rw [hrx, List.flatten_cons, List.append_assoc]
    have hrx2 : rx = (pre ++ f) ++ (fs.flatten ++ r) := by
      rw [hrx1, List.append_assoc]
    have hlen : rx.length = pre.length + (f.length + (fs.flatten ++ r).length) := by
      rw [hrx1, List.length_append, List.length_append]
    have e := applyMessage_of_frame buf off g f (hin f (List.mem_cons_self _ _)) (by
      intro k hk
      rw [hbuf _ (by omega), hrx1, textByte_append_right pre _ off k hpre,
        textByte_append_left f _ k (by omega)])
    simp only [applyFrames, List.foldl_cons]
    rw [read_udp_valid_frame g f hvf, e]
    exact applyFrames_eq_foldl rx buf hbuf r fs (pre ++ f) (off + f.length / 2) _ hrx2
      (by rw [List.length_append]; omega)
      (fun f' hf' => hv f' (List.mem_cons_of_mem _ hf'))
      (fun f' hf' => hin f' (List.mem_cons_of_mem _ hf'))

/-- A buffer whose first candidate frame fails validation does not start with
a valid frame. -/
theorem firstFrameRejected_no_valid (d : List Char) (h : firstFrameRejected d) :
    ∀ p, p <+: d → ¬ validFrame p := by
  rintro p ⟨r, rfl⟩ hv
  obtain ⟨h6, h0, h1, hl, hc⟩ := validFrame_text p hv
  have hlen : (p ++ r).length = p.length + r.length := List.length_append _ _
  have hb : ∀ k, k < p.length / 2 → frameByte (p ++ r) k = textByte p k := by
    intro k hk
    rw [frameByte_eq _ _ (by omega), textByte_append_left p r k (by omega)]
  unfold firstFrameRejected at h
  rw [hb 0 (by omega), hb 1 (by omega), hb 2 (by omega), hb _ (by omega), hb _ (by omega)] at h
  have hcrc : calcCrcFromHexStr (p ++ r) (2 * (3 + textByte p 2 - 2)) =
      calcCrcFromHexStr p (2 * (3 + textByte p 2 - 2)) := by
    rw [calcCrcFromHexStr_eq, calcCrcFromHexStr_eq]
    apply calcCrcLoop_congr
    intro i hi
    exact charAt_append_left p r i (by omega)
  rw [hcrc] at h
  rcases h with h | h | h | h | h
  · omega
  · exact h h0
  · exact h h1
  · omega
  · exact h hc

/-- Decoding a datagram made of consecutive valid frames followed by text that
does not start with a valid frame. -/
theorem read_udp_frames (g : GvmLightControl) (fs : List (List Char)) (r : List Char)
    (hv : ∀ f ∈ fs, validFrame f) (hno : ∀ p, p <+: r → ¬ validFrame p)
    (hlen : (fs.flatten ++ r).length ≤ 2047) :
    read_udp g [fs.flatten ++ r] =
      (applyFrames (decodeInto (List.replicate 1024 0) (fs.flatten ++ r) (fs.flatten ++ r).length)
        0 g fs, fs.length) := by
  have h := decodeFrames_frames (fs.flatten ++ r)
    (decodeInto (List.replicate 1024 0) (fs.flatten ++ r) (fs.flatten ++ r).length)
    (fun k hk => byteAt_decodeInto _ _ _ k hk) r hno fs [] 0 g 0
    ((fs.flatten ++ r).length / 6 + 1) rfl rfl hv (by omega)
  rw [read_udp_single, processDatagram_eq _ _ _ _ hlen]
  simp only [List.length_nil] at h
  rw [h]
  simp only [Nat.zero_add]

/-- C16: decoding never resynchronises. For every received buffer (at most
2047 characters) whose first candidate frame fails validation (fewer than 6
digits, wrong magic, declared length exceeding the remaining bytes, or CRC
mismatch), `read_udp` returns 0 and leaves the object unchanged, even when a
valid frame follows, as in "00" or a corrupted frame followed by the
documented acknowledgement. More generally, for consecutive valid frames `fs`
followed by text `r` whose first candidate frame fails validation, exactly the
frames of `fs` are processed: `read_udp` returns their number, no frame starts
at `r`, and (when each frame holds every byte read for it) the object is the
one obtained by decoding the frames of `fs` one after the other. -/
theorem decode_never_resynchronises (g : GvmLightControl) :
    (∀ d : List Char, d.length ≤ 2047 → firstFrameRejected d → read_udp g [d] = (g, 0)) ∧
      (∀ (fs : List (List Char)) (r : List Char), (∀ f ∈ fs, validFrame f) →
        firstFrameRejected r → (fs.flatten ++ r).length ≤ 2047 →
        (read_udp g [fs.flatten ++ r]).2 = fs.length ∧
          (∀ p, p <+: r → ¬ validFrame p) ∧
          ((∀ f ∈ fs, readsInside f) →
            (read_udp g [fs.flatten ++ r]).1 = fs.foldl (fun g' f => (read_udp g' [f]).1) g)) ∧
      read_udp g ["004C54080030020002030AEA".toList] = (g, 0) ∧
      read_udp g ["4C54080030020002070AEA4C54080030020002030AEA".toList] = (g, 0) := by
  have part1 : ∀ d : List Char, d.length ≤ 2047 → firstFrameRejected d →
      read_udp g [d] = (g, 0) := by
    intro d hd hrej
    have h := read_udp_frames g [] d (by intro f hf; cases hf)
      (firstFrameRejected_no_valid d hrej) (by simpa using hd)
    simpa [applyFrames] using h
  refine ⟨part1, ?_, part1 _ (by decide) (by decide!), part1 _ (by decide) (by decide!)⟩
  intro fs r hv hrej hlen
  have hno := firstFrameRejected_no_valid r hrej
  have h := read_udp_frames g fs r hv hno hlen
  refine ⟨by rw [h], hno, ?_⟩
  intro hin
  rw [h]
  exact applyFrames_eq_foldl (fs.flatten ++ r) _ (fun k hk => byteAt_decodeInto _ _ _ k hk) r fs []
    0 g rfl rfl hv hin

/-- Witness of `decode_never_resynchronises`: the documented acknowledgement
and status report, then a corrupted acknowledgement, then the acknowledgement
again: two frames are processed. -/
theorem decode_never_resynchronises_witness :
    (read_udp GvmLightControl.init
      [["4C54080030020002030AEA".toList, "4C540B0030030102322C3819D268".toList].flatten ++
        "4C54080030020002070AEA4C54080030020002030AEA".toList]).2 = 2 :=
  ((decode_never_resynchronises GvmLightControl.init).2.1
    ["4C54080030020002030AEA".toList, "4C540B0030030102322C3819D268".toList]
    "4C54080030020002070AEA4C54080030020002030AEA".toList (by decide!) (by decide!)
    (by decide)).1

/-! ## Joining: attempts and verification -/

theorem applyMessage_fds (buf : List Nat) (off : Nat) (g : GvmLightControl) :
    (applyMessage buf off g).udp_1112_fd = g.udp_1112_fd ∧
      (applyMessage buf off g).udp_2525_fd = g.udp_2525_fd := by
  have hn : ∀ g' : GvmLightControl,
      (notifyStatusUpdated g').udp_1112_fd = g'.udp_1112_fd ∧
        (notifyStatusUpdated g').udp_2525_fd = g'.udp_2525_fd := by
    intro g'
    unfold notifyStatusUpdated
    split_ifs <;> exact ⟨rfl, rfl⟩
  unfold applyMessage
  split_ifs
  · exact hn _
  · exact hn _
  · exact ⟨rfl, rfl⟩

theorem decodeFrames_fds (rx : List Char) (buf : List Nat) :
    ∀ (fuel : Nat) (s : RxLoop),
      (decodeFrames rx buf fuel s).g.udp_1112_fd = s.g.udp_1112_fd ∧
        (decodeFrames rx buf fuel s).g.udp_2525_fd = s.g.udp_2525_fd
  | 0, _ => ⟨rfl, rfl⟩
  | fuel + 1, s => by
    rw [decodeFrames_succ]
    split_ifs
    · exact ⟨rfl, rfl⟩
    · have h := decodeFrames_fds rx buf fuel
        { g := applyMessage buf s.hexDecode s.g
          msgs_processed := s.msgs_processed + 1
          rx_len := s.rx_len - (3 + byteAt buf (s.hexDecode + 2)) * 2
          hexDecode := s.hexDecode + (3 + byteAt buf (s.hexDecode + 2))
          msgDecode := s.msgDecode + (3 + byteAt buf (s.hexDecode + 2)) * 2 }
      have h' := applyMessage_fds buf s.hexDecode s.g
      exact ⟨h.1.trans h'.1, h.2.trans h'.2⟩
    · exact ⟨rfl, rfl⟩

theorem recvLoop_fds : ∀ (pending : List (List Char)) (buf : List Nat) (g : GvmLightControl)
    (m : Nat), (recvLoop buf g m pending).1.udp_1112_fd = g.udp_1112_fd ∧
      (recvLoop buf g m pending).1.udp_2525_fd = g.udp_2525_fd
  | [], _, _, _ => ⟨rfl, rfl⟩
  | d :: pending, buf, g, m => by
    unfold recvLoop
    have h := recvLoop_fds pending (processDatagram buf g m d).1 (processDatagram buf g m d).2.1
      (processDatagram buf g m d).2.2
    have h' := decodeFrames_fds (d.take 2047)
      (decodeInto buf (d.take 2047) (d.take 2047).length) ((d.take 2047).length / 6 + 1)
      { g := g, msgs_processed := m, rx_len := (d.take 2047).length, hexDecode := 0,
        msgDecode := 0 }
    exact ⟨h.1.trans h'.1, h.2.trans h'.2⟩

/-- `read_udp` leaves both socket descriptors of the object as they are. -/
theorem read_udp_fds (g : GvmLightControl) (pending : List (List Char)) :
    (read_udp g pending).1.udp_1112_fd = g.udp_1112_fd ∧
      (read_udp g pending).1.udp_2525_fd = g.udp_2525_fd :=
  recvLoop_fds pending _ g 0

theorem idlePolls_succ (fd : Int) (n : Nat) :
    idlePolls fd (n + 1) = Event.poll fd 0 :: Event.delay 20 :: idlePolls fd n := by
  simp [idlePolls, List.replicate_succ]

/-- The poll loop with `n` tests of its condition left to pass: either every
poll validates nothing and it returns -1 after `n` polls, each followed by the
delay, or it returns 0 at the first poll that validates a frame. -/
theorem pollLoop_events {W : Type} (S : Collaborator W) :
    ∀ (n fuel : Nat) (w : World W), n < fuel →
      ((pollLoop S fuel ((n : Int) - 1) w).2 = -1 ∧
        (pollLoop S fuel ((n : Int) - 1) w).1.events =
          w.events ++ idlePolls w.g.udp_1112_fd n) ∨
      ((pollLoop S fuel ((n : Int) - 1) w).2 = 0 ∧
        ∃ k m, k < n ∧ 0 < m ∧
          (pollLoop S fuel ((n : Int) - 1) w).1.events =
            w.events ++ idlePolls w.g.udp_1112_fd k ++ [Event.poll w.g.udp_1112_fd m])
  | 0, fuel, w, h => by
    left
    obtain ⟨f, rfl⟩ : ∃ f, fuel = f + 1 := ⟨fuel - 1, by omega⟩
    have hw : ¬ ((((0 : Nat) : Int) - 1) ≥ 0) := by omega
    simp only [pollLoop, if_neg hw]
    simp [idlePolls]
  | n + 1, fuel, w, h => by
    obtain ⟨f, rfl⟩ : ∃ f, fuel = f + 1 := ⟨fuel - 1, by omega⟩
    have hw : (((n + 1 : Nat) : Int) - 1) ≥ 0 := by omega
    have e : (((n + 1 : Nat) : Int) - 1) - 1 = (n : Int) - 1 := by omega
    simp only [pollLoop, if_pos hw, e]
    by_cases hc : (read_udp w.g (S.recv w.net w.g.udp_1112_fd).1).2 ≠ 0
    · right
      rw [if_pos hc]
      refine ⟨rfl, 0, _, by omega, Nat.pos_of_ne_zero hc, ?_⟩
      simp [idlePolls]
    · rw [if_neg hc]
      have hz : (read_udp w.g (S.recv w.net w.g.udp_1112_fd).1).2 = 0 := by
        by_contra hne
        exact hc hne
      have ih := pollLoop_events S n f
        (doDelay S 20
          { g := (read_udp w.g (S.recv w.net w.g.udp_1112_fd).1).1,
            net := (S.recv w.net w.g.udp_1112_fd).2,
            events := w.events ++
              [Event.poll w.g.udp_1112_fd (read_udp w.g (S.recv w.net w.g.udp_1112_fd).1).2] })
        (by omega)
      have hfd : (doDelay S 20
          { g := (read_udp w.g (S.recv w.net w.g.udp_1112_fd).1).1,
            net := (S.recv w.net w.g.udp_1112_fd).2,
            events := w.events ++
              [Event.poll w.g.udp_1112_fd
                (read_udp w.g (S.recv w.net w.g.udp_1112_fd).1).2] }).g.udp_1112_fd
          = w.g.udp_1112_fd := (read_udp_fds _ _).1
      have hev : (doDelay S 20
          { g := (read_udp w.g (S.recv w.net w.g.udp_1112_fd).1).1,
            net := (S.recv w.net w.g.udp_1112_fd).2,
            events := w.events ++
              [Event.poll w.g.udp_1112_fd
                (read_udp w.g (S.recv w.net w.g.udp_1112_fd).1).2] }).events
          = w.events ++ [Event.poll w.g.udp_1112_fd 0, Event.delay 20] := by
        simp [doDelay, hz]
      rw [hfd, hev] at ih
      rcases ih with ⟨h1, h2⟩ | ⟨h1, k, m, hk, hm, h2⟩
      · left
        refine ⟨h1, ?_⟩
        rw [h2, idlePolls_succ]
        simp
      · right
        refine ⟨h1, k + 1, m, by omega, hm, ?_⟩
        rw [h2, idlePolls_succ]
        simp

/-- The wait of one attempt only sleeps: at most `n` delays of 100 ms, and the
object is not touched. -/
theorem waitConnected_spec {W : Type} (S : Collaborator W) :
    ∀ (n : Nat) (w : World W), ∃ k, k ≤ n ∧
      (waitConnected S n w).events = w.events ++ List.replicate k (Event.delay 100) ∧
      (waitConnected S n w).g = w.g
  | 0, w => ⟨0, le_refl _, by simp [waitConnected], rfl⟩
  | n + 1, w => by
    unfold waitConnected
    split_ifs with h
    · obtain ⟨k, hk, he, hg⟩ := waitConnected_spec S n (doDelay S 100 w)
      refine ⟨k + 1, by omega, ?_, ?_⟩
      · rw [he, List.replicate_succ]
        simp [doDelay]
      · rw [hg]
        rfl
    · exact ⟨0, by omega, by simp, rfl⟩

/-- One attempt: the callback (when registered) with the attempt number, then
`WiFi.begin`, then at most 35 delays of 100 ms; the object is not touched. -/
theorem joinAttempt_spec {W : Type} (S : Collaborator W) (ssid password : String)
    (channel : Int) (bssid : List Nat) (n : Int) (w : World W) :
    ∃ k, k ≤ 35 ∧
      (joinAttempt S ssid password channel bssid n w).events =
        w.events ++ attemptEvents w.g.onWiFiConnectAttempt ssid password channel bssid n ++
          List.replicate k (Event.delay 100) ∧
      (joinAttempt S ssid password channel bssid n w).g = w.g := by
  unfold joinAttempt
  by_cases hc : w.g.onWiFiConnectAttempt = true
  · simp only [hc, if_true]
    obtain ⟨k, hk, he, hg⟩ := waitConnected_spec S 35
      { g := w.g,
        net := S.begin (S.clearDisconnected w.net) ssid password channel bssid,
        events := w.events ++ [Event.connectAttempt bssid n] ++
          [Event.wifiBegin ssid password channel bssid] }
    refine ⟨k, hk, ?_, ?_⟩
    · rw [he]
      simp [attemptEvents]
    · rw [hg]
  · have hf : w.g.onWiFiConnectAttempt = false := by simpa using hc
    simp only [hf]
    obtain ⟨k, hk, he, hg⟩ := waitConnected_spec S 35
      { g := w.g,
        net := S.begin (S.clearDisconnected w.net) ssid password channel bssid,
        events := w.events ++ [Event.wifiBegin ssid password channel bssid] }
    refine ⟨k, hk, ?_, ?_⟩
    · simp only [Bool.false_eq_true, if_false]
      rw [he]
      simp [attemptEvents]
    · simp only [Bool.false_eq_true, if_false]
      rw [hg]

/-- The attempt loop is the first attempt, and the second one when the first
did not associate; there is no third. -/
theorem connectAttempts_eq {W : Type} (S : Collaborator W) (ssid password : String)
    (channel : Int) (bssid : List Nat) (w : World W) :
    connectAttempts S ssid password channel bssid 3 0 w =
      if S.connected (joinAttempt S ssid password channel bssid 1 w).net then
        joinAttempt S ssid password channel bssid 1 w
      else joinAttempt S ssid password channel bssid 2
        (joinAttempt S ssid password channel bssid 1 w) := by
  simp only [connectAttempts]
  norm_num


theorem send_hello_msg_fds (g : GvmLightControl) :
    (send_hello_msg g).1.udp_1112_fd = g.udp_1112_fd := by
  unfold send_hello_msg
  split_ifs <;> rfl

/-- Verification opens both ports and polls descriptor `fd` of port 1112: it
returns -1 after 61 polls that validate nothing, or 0 at the first poll that
validates a frame. -/
theorem test_light_connection_spec {W : Type} (S : Collaborator W) (w : World W) :
    ∃ fd : Int,
      ((test_light_connection S w).2 = -1 ∧
        (test_light_connection S w).1.events =
          w.events ++ [Event.openUdp 2525, Event.openUdp 1112] ++ idlePolls fd 61) ∨
      ((test_light_connection S w).2 = 0 ∧
        ∃ k m, k ≤ 60 ∧ 0 < m ∧
          (test_light_connection S w).1.events =
            w.events ++ [Event.openUdp 2525, Event.openUdp 1112] ++ idlePolls fd k ++
              [Event.poll fd m]) := by
  unfold test_light_connection
  simp only []
  generalize hw3 : ({ (open_udp_port S _ 1112 _).1 with g := (send_hello_msg _).1 } : World W) = w3
  have hev : w3.events = w.events ++ [Event.openUdp 2525, Event.openUdp 1112] := by
    rw [← hw3]
    simp [open_udp_port]
  have h := pollLoop_events S 61 62 w3 (by omega)
  have e : (((61 : Nat) : Int) - 1) = 60 := by norm_num
  rw [e, hev] at h
  refine ⟨w3.g.udp_1112_fd, ?_⟩
  rcases h with ⟨h1, h2⟩ | ⟨h1, k, m, hk, hm, h2⟩
  · exact Or.inl ⟨h1, h2⟩
  · exact Or.inr ⟨h1, k, m, by omega, hm, h2⟩

theorem test_light_connection_rc {W : Type} (S : Collaborator W) (w : World W) :
    (test_light_connection S w).2 = -1 ∨ (test_light_connection S w).2 = 0 := by
  obtain ⟨fd, h | h⟩ := test_light_connection_spec S w
  · exact Or.inl h.1
  · exact Or.inr h.1

/-- After the attempts, `try_connect_wifi` is verification when the station
is associated and -1 otherwise. -/
theorem try_connect_wifi_eq {W : Type} (S : Collaborator W) (ssid password : String)
    (channel : Int) (bssid : List Nat) (w : World W) :
    try_connect_wifi S ssid password channel bssid w =
      if S.connected (connectAttempts S ssid password channel bssid 3 0 w).net then
        test_light_connection S (connectAttempts S ssid password channel bssid 3 0 w)
      else (connectAttempts S ssid password channel bssid 3 0 w, -1) := by
  unfold try_connect_wifi
  simp only []
  by_cases hc : S.connected (connectAttempts S ssid password channel bssid 3 0 w).net = true
  · simp only [hc, Bool.not_true, Bool.false_eq_true, if_false, if_true]
    rcases test_light_connection_rc S (connectAttempts S ssid password channel bssid 3 0 w)
      with h | h
    · rw [if_neg (by rw [h]; decide)]
      exact Prod.ext rfl h.symm
    · rw [if_pos h]
      exact Prod.ext rfl h.symm
  · have hf : S.connected (connectAttempts S ssid password channel bssid 3 0 w).net = false := by
      simpa using hc
    simp [hf]


/-- C17: per-candidate join attempts are bounded at exactly 2. For every
collaborator and every start, `try_connect_wifi` makes attempt 1: the callback
(when one is registered) with number 1, then `WiFi.begin`, then at most 35
delays of 100 ms. If the station is associated after it, the call is
verification from there (`test_light_connection`). Otherwise it makes attempt
2 in the same way with number 2; if the station is associated after it, the
call is verification from there; otherwise it returns -1 and all it did is the
two attempts: no port was opened, nothing was polled, and the object is as it
was (no hello message was sent). There is no third attempt. -/
theorem try_connect_wifi_two_attempts {W : Type} (S : Collaborator W) (ssid password : String)
    (channel : Int) (bssid : List Nat) (w : World W) :
    ∃ k1 k2 : Nat, k1 ≤ 35 ∧ k2 ≤ 35 ∧
      (joinAttempt S ssid password channel bssid 1 w).events =
        w.events ++ attemptEvents w.g.onWiFiConnectAttempt ssid password channel bssid 1 ++
          List.replicate k1 (Event.delay 100) ∧
      (if S.connected (joinAttempt S ssid password channel bssid 1 w).net then
        try_connect_wifi S ssid password channel bssid w =
          test_light_connection S (joinAttempt S ssid password channel bssid 1 w)
      else
        (joinAttempt S ssid password channel bssid 2
            (joinAttempt S ssid password channel bssid 1 w)).events =
          w.events ++ attemptEvents w.g.onWiFiConnectAttempt ssid password channel bssid 1 ++
            List.replicate k1 (Event.delay 100) ++
            attemptEvents w.g.onWiFiConnectAttempt ssid password channel bssid 2 ++
            List.replicate k2 (Event.delay 100) ∧
        (if S.connected (joinAttempt S ssid password channel bssid 2
            (joinAttempt S ssid password channel bssid 1 w)).net then
          try_connect_wifi S ssid password channel bssid w =
            test_light_connection S (joinAttempt S ssid password channel bssid 2
              (joinAttempt S ssid password channel bssid 1 w))
        else
          (try_connect_wifi S ssid password channel bssid w).2 = -1 ∧
          (try_connect_wifi S ssid password channel bssid w).1.events =
            w.events ++ attemptEvents w.g.onWiFiConnectAttempt ssid password channel bssid 1 ++
              List.replicate k1 (Event.delay 100) ++
              attemptEvents w.g.onWiFiConnectAttempt ssid password channel bssid 2 ++
              List.replicate k2 (Event.delay 100) ∧
          (try_connect_wifi S ssid password channel bssid w).1.g = w.g)) := by
  obtain ⟨k1, hk1, he1, hg1⟩ := joinAttempt_spec S ssid password channel bssid 1 w
  obtain ⟨k2, hk2, he2, hg2⟩ := joinAttempt_spec S ssid password channel bssid 2
    (joinAttempt S ssid password channel bssid 1 w)
  rw [he1, hg1] at he2
  refine ⟨k1, k2, hk1, hk2, he1, ?_⟩
  have hcon := connectAttempts_eq S ssid password channel bssid w
  have htry := try_connect_wifi_eq S ssid password channel bssid w
  by_cases c1 : S.connected (joinAttempt S ssid password channel bssid 1 w).net = true
  · rw [if_pos c1]
    rw [if_pos c1] at hcon
    rw [hcon, if_pos c1] at htry
    exact htry
  · rw [if_neg c1]
    rw [if_neg c1] at hcon
    rw [hcon] at htry
    refine ⟨he2, ?_⟩
    by_cases c2 : S.connected (joinAttempt S ssid password channel bssid 2
        (joinAttempt S ssid password channel bssid 1 w)).net = true
    · rw [if_pos c2]
      rw [if_pos c2] at htry
      exact htry
    · rw [if_neg c2]
      rw [if_neg c2] at htry
      rw [htry]
      exact ⟨rfl, he2, hg2.trans hg1⟩

/-- C18: verification is bounded and reports failure. For every collaborator
and every start, `test_light_connection` opens ports 2525 and 1112 and polls
the descriptor of port 1112: either it returns -1 and what it did after
opening the ports is exactly 61 polls that each validated no frame, every one
followed by a delay of 20 ms, or it returns 0 and what it did is at most 60
such polls followed by one poll that validated `m > 0` frames, with nothing
after it. `try_connect_wifi` returns what verification returns when the
station is associated after the attempts (so -1 when verification times out),
and -1 otherwise. -/
theorem verification_bounded {W : Type} (S : Collaborator W) (ssid password : String)
    (channel : Int) (bssid : List Nat) (w : World W) :
    (∃ fd : Int,
      ((test_light_connection S w).2 = -1 ∧
        (test_light_connection S w).1.events =
          w.events ++ [Event.openUdp 2525, Event.openUdp 1112] ++ idlePolls fd 61) ∨
      ((test_light_connection S w).2 = 0 ∧
        ∃ k m, k ≤ 60 ∧ 0 < m ∧
          (test_light_connection S w).1.events =
            w.events ++ [Event.openUdp 2525, Event.openUdp 1112] ++ idlePolls fd k ++
              [Event.poll fd m])) ∧
      (try_connect_wifi S ssid password channel bssid w).2 =
        if S.connected (connectAttempts S ssid password channel bssid 3 0 w).net then
          (test_light_connection S (connectAttempts S ssid password channel bssid 3 0 w)).2
        else -1 := by
  refine ⟨test_light_connection_spec S w, ?_⟩
  rw [try_connect_wifi_eq]
  split_ifs <;> rfl


theorem joinsOnly_append (ssid password : String) (a b : List Event)
    (ha : joinsOnly ssid password a) (hb : joinsOnly ssid password b) :
    joinsOnly ssid password (a ++ b) := by
  intro s p c bb h
  rcases List.mem_append.1 h with h | h
  · exact ha s p c bb h
  · exact hb s p c bb h

theorem joinsOnly_attemptEvents (reg : Bool) (ssid password : String) (channel : Int)
    (bssid : List Nat) (n : Int) :
    joinsOnly ssid password (attemptEvents reg ssid password channel bssid n) := by
  intro s p c b h
  unfold attemptEvents at h
  cases reg <;> simp at h <;> exact ⟨h.1, h.2.1⟩

theorem joinsOnly_delays (ssid password : String) (k ms : Nat) :
    joinsOnly ssid password (List.replicate k (Event.delay ms)) := by
  intro s p c b h
  have := (List.mem_replicate.1 h).2
  cases this

theorem joinsOnly_idlePolls (ssid password : String) (fd : Int) :
    ∀ n : Nat, joinsOnly ssid password (idlePolls fd n)
  | 0 => by
    intro s p c b h
    simp [idlePolls] at h
  | n + 1 => by
    intro s p c b h
    rw [idlePolls_succ] at h
    rcases List.mem_cons.1 h with h | h
    · cases h
    · rcases List.mem_cons.1 h with h | h
      · cases h
      · exact joinsOnly_idlePolls ssid password fd n s p c b h

theorem joinsOnly_test_light_connection {W : Type} (S : Collaborator W) (ssid password : String)
    (w : World W) :
    ∃ evs, (test_light_connection S w).1.events = w.events ++ evs ∧
      joinsOnly ssid password evs := by
  have hopen : joinsOnly ssid password [Event.openUdp 2525, Event.openUdp 1112] := by
    intro s p c b h
    simp at h
  obtain ⟨fd, ⟨_, h⟩ | ⟨_, k, m, _, _, h⟩⟩ := test_light_connection_spec S w
  · refine ⟨[Event.openUdp 2525, Event.openUdp 1112] ++ idlePolls fd 61, ?_, ?_⟩
    · rw [h, List.append_assoc]
    · exact joinsOnly_append _ _ _ _ hopen (joinsOnly_idlePolls _ _ fd 61)
  · refine ⟨[Event.openUdp 2525, Event.openUdp 1112] ++ idlePolls fd k ++ [Event.poll fd m],
      ?_, ?_⟩
    · rw [h]
      simp only [List.append_assoc]
    · refine joinsOnly_append _ _ _ _
        (joinsOnly_append _ _ _ _ hopen (joinsOnly_idlePolls _ _ fd k)) ?_
      intro s p c b h
      simp at h

theorem joinsOnly_joinAttempt {W : Type} (S : Collaborator W) (ssid password : String)
    (channel : Int) (bssid : List Nat) (n : Int) (w : World W) :
    ∃ evs, (joinAttempt S ssid password channel bssid n w).events = w.events ++ evs ∧
      joinsOnly ssid password evs := by
  obtain ⟨k, _, he, _⟩ := joinAttempt_spec S ssid password channel bssid n w
  refine ⟨attemptEvents w.g.onWiFiConnectAttempt ssid password channel bssid n ++
    List.replicate k (Event.delay 100), ?_, ?_⟩
  · rw [he, List.append_assoc]
  · exact joinsOnly_append _ _ _ _ (joinsOnly_attemptEvents _ _ _ _ _ _)
      (joinsOnly_delays _ _ _ _)

/-- Every `WiFi.begin` that `try_connect_wifi` calls is for the network and
password it was given. -/
theorem joinsOnly_try_connect_wifi {W : Type} (S : Collaborator W) (ssid password : String)
    (channel : Int) (bssid : List Nat) (w : World W) :
    ∃ evs, (try_connect_wifi S ssid password channel bssid w).1.events = w.events ++ evs ∧
      joinsOnly ssid password evs := by
  obtain ⟨e1, h1, j1⟩ := joinsOnly_joinAttempt S ssid password channel bssid 1 w
  obtain ⟨e2, h2, j2⟩ := joinsOnly_joinAttempt S ssid password channel bssid 2
    (joinAttempt S ssid password channel bssid 1 w)
  have hc : ∃ evs, (connectAttempts S ssid password channel bssid 3 0 w).events =
      w.events ++ evs ∧ joinsOnly ssid password evs := by
    rw [connectAttempts_eq]
    split_ifs
    · exact ⟨e1, h1, j1⟩
    · exact ⟨e1 ++ e2, by rw [h2, h1, List.append_assoc], joinsOnly_append _ _ _ _ j1 j2⟩
  obtain ⟨ec, hc, jc⟩ := hc
  rw [try_connect_wifi_eq]
  split_ifs
  · obtain ⟨et, ht, jt⟩ := joinsOnly_test_light_connection S ssid password
      (connectAttempts S ssid password channel bssid 3 0 w)
    exact ⟨ec ++ et, by rw [ht, hc, List.append_assoc], joinsOnly_append _ _ _ _ jc jt⟩
  · exact ⟨ec, hc, jc⟩

theorem countLightNetworks_cons (e : ScanEntry) (rest : List ScanEntry) :
    countLightNetworks (e :: rest) =
      countLightNetworks rest + (if e.ssid = ssid then 1 else 0) := by
  unfold countLightNetworks
  rw [List.countP_cons]
  simp

/-- The loop over the scanned entries: either every matching entry was tried
in order and failed, the loop returns -1 and has counted all of them; or the
entries before some matching entry `c` were tried and failed, the try on `c`
returned 0, and the loop returns 0 having counted the matching entries up to
and including `c`. Every `WiFi.begin` it calls names the light's network. -/
theorem scanLoop_spec {W : Type} (S : Collaborator W) :
    ∀ (nets : List ScanEntry) (found : Nat) (w : World W),
      (((scanLoop S nets found w).2.1 = -1 ∧
          (scanLoop S nets found w).2.2 = found + countLightNetworks nets ∧
          triedAndFailed S nets w (scanLoop S nets found w).1) ∨
        ((scanLoop S nets found w).2.1 = 0 ∧
          ∃ pre c post w', nets = pre ++ c :: post ∧ c.ssid = ssid ∧
            triedAndFailed S pre w w' ∧
            try_connect_wifi S c.ssid password c.channel c.bssid w' =
              ((scanLoop S nets found w).1, 0) ∧
            (scanLoop S nets found w).2.2 = found + countLightNetworks pre + 1)) ∧
      ∃ evs, (scanLoop S nets found w).1.events = w.events ++ evs ∧
        joinsOnly ssid password evs
  | [], found, w => by
    refine ⟨Or.inl ⟨rfl, by simp [scanLoop, countLightNetworks], ?_⟩, [], by simp [scanLoop], ?_⟩
    · simp [scanLoop, triedAndFailed]
    · intro s p c b h
      simp at h
  | e :: rest, found, w => by
    by_cases hn : e.ssid ≠ ssid
    · have hs : scanLoop S (e :: rest) found w = scanLoop S rest found w := by
        rw [scanLoop, if_pos hn]
      rw [hs]
      obtain ⟨ih, ihe⟩ := scanLoop_spec S rest found w
      refine ⟨?_, ihe⟩
      rcases ih with ⟨h1, h2, h3⟩ | ⟨h1, pre, c, post, w', hl, hc, ht, hy, hf⟩
      · left
        refine ⟨h1, ?_, ?_⟩
        · rw [h2, countLightNetworks_cons, if_neg hn]
          rfl
        · rw [triedAndFailed, if_pos hn]
          exact h3
      · right
        refine ⟨h1, e :: pre, c, post, w', by rw [hl]; rfl, hc, ?_, hy, ?_⟩
        · rw [triedAndFailed, if_pos hn]
          exact ht
        · rw [hf, countLightNetworks_cons, if_neg hn]
          rfl
    · have he : e.ssid = ssid := by
        by_contra h
        exact hn h
      obtain ⟨et, het, jt⟩ := joinsOnly_try_connect_wifi S e.ssid password e.channel e.bssid w
      rw [he] at jt
      by_cases h0 : (try_connect_wifi S e.ssid password e.channel e.bssid w).2 = 0
      · have hs : scanLoop S (e :: rest) found w =
            ((try_connect_wifi S e.ssid password e.channel e.bssid w).1, 0, found + 1) := by
          rw [scanLoop, if_neg hn]
          simp only []
          rw [if_pos h0]
        rw [hs]
        refine ⟨Or.inr ⟨rfl, [], e, rest, w, rfl, he, ?_, ?_, ?_⟩, et, het, jt⟩
        · simp [triedAndFailed]
        · exact Prod.ext rfl h0
        · simp [countLightNetworks]
      · have hs : scanLoop S (e :: rest) found w =
            scanLoop S rest (found + 1)
              (try_connect_wifi S e.ssid password e.channel e.bssid w).1 := by
          rw [scanLoop, if_neg hn]
          simp only []
          rw [if_neg h0]
        rw [hs]
        obtain ⟨ih, er, her, jr⟩ := scanLoop_spec S rest (found + 1)
          (try_connect_wifi S e.ssid password e.channel e.bssid w).1
        refine ⟨?_, et ++ er, by rw [her, het, List.append_assoc],
          joinsOnly_append _ _ _ _ jt jr⟩
        rcases ih with ⟨h1, h2, h3⟩ | ⟨h1, pre, c, post, w', hl, hc, ht, hy, hf⟩
        · left
          refine ⟨h1, ?_, ?_⟩
          · rw [h2, countLightNetworks_cons, if_pos he]
            omega
          · rw [triedAndFailed, if_neg hn]
            exact ⟨h0, h3⟩
        · right
          refine ⟨h1, e :: pre, c, post, w', by rw [hl]; rfl, hc, ?_, hy, ?_⟩
          · rw [triedAndFailed, if_neg hn]
            exact ⟨h0, ht⟩
          · rw [hf, countLightNetworks_cons, if_pos he]
            omega


/-- C19: `find_and_join_light_wifi` when the remembered configuration does
not connect. With `nets` the entries of the scan, in scan order: either the
call returns -1, `*networks_found` is the number of entries named "GVM_LED",
and every one of them was tried, in scan order, and failed; or it returns 0 at
a matching entry `c`: the matching entries before `c` were tried in order and
failed, the try on `c` returned 0 and ended the call, and `*networks_found` is
the number of matching entries up to and including `c`. Every `WiFi.begin`
called after the scan names "GVM_LED" with the password "gvm_admin": an entry
with another name is never tried. (When the remembered configuration connects,
the call returns 0 with `*networks_found` = 0.) -/
theorem find_and_join_counts_candidates {W : Type} (S : Collaborator W) (w : World W) :
    if (tryRemembered S w).2 then
      find_and_join_light_wifi S w = ((tryRemembered S w).1, 0, 0)
    else
      (((find_and_join_light_wifi S w).2.1 = -1 ∧
          (find_and_join_light_wifi S w).2.2 =
            countLightNetworks (scanAfterClear S (tryRemembered S w).1).2 ∧
          triedAndFailed S (scanAfterClear S (tryRemembered S w).1).2
            (scanAfterClear S (tryRemembered S w).1).1 (find_and_join_light_wifi S w).1) ∨
        ((find_and_join_light_wifi S w).2.1 = 0 ∧
          ∃ pre c post w', (scanAfterClear S (tryRemembered S w).1).2 = pre ++ c :: post ∧
            c.ssid = "GVM_LED" ∧
            triedAndFailed S pre (scanAfterClear S (tryRemembered S w).1).1 w' ∧
            try_connect_wifi S c.ssid password c.channel c.bssid w' =
              ((find_and_join_light_wifi S w).1, 0) ∧
            (find_and_join_light_wifi S w).2.2 = countLightNetworks pre + 1)) ∧
      ∃ evs, (find_and_join_light_wifi S w).1.events =
          (scanAfterClear S (tryRemembered S w).1).1.events ++ evs ∧
        joinsOnly "GVM_LED" "gvm_admin" evs := by
  by_cases hr : (tryRemembered S w).2 = true
  · rw [if_pos hr]
    unfold find_and_join_light_wifi
    simp only []
    rw [if_pos hr]
  · rw [if_neg hr]
    have hf : find_and_join_light_wifi S w =
        if (scanAfterClear S (tryRemembered S w).1).2.length = 0 then
          ((scanAfterClear S (tryRemembered S w).1).1, -1, 0)
        else scanLoop S (scanAfterClear S (tryRemembered S w).1).2 0
          (scanAfterClear S (tryRemembered S w).1).1 := by
      unfold find_and_join_light_wifi
      simp only []
      rw [if_neg hr]
    have hl := scanLoop_spec S (scanAfterClear S (tryRemembered S w).1).2 0
      (scanAfterClear S (tryRemembered S w).1).1
    have hz : (scanAfterClear S (tryRemembered S w).1).2.length = 0 →
        scanLoop S (scanAfterClear S (tryRemembered S w).1).2 0
            (scanAfterClear S (tryRemembered S w).1).1 =
          ((scanAfterClear S (tryRemembered S w).1).1, -1, 0) := by
      intro h0
      rw [List.length_eq_zero.1 h0]
      rfl
    have hf' : find_and_join_light_wifi S w =
        scanLoop S (scanAfterClear S (tryRemembered S w).1).2 0
          (scanAfterClear S (tryRemembered S w).1).1 := by
      rw [hf]
      split_ifs with h0
      · exact (hz h0).symm
      · rfl
    rw [hf']
    simpa [ssid, password] using hl

/-! ## Joining: a scripted collaborator -/

set_option maxRecDepth 100000 in
/-- A collaborator that never associates: two attempts, numbered 1 and 2, each
announced before its `WiFi.begin`, then -1 with no port opened and no poll. -/
theorem never_associated_two_attempts :
    (try_connect_wifi (scripted [] [] [] []) "GVM_LED" "gvm_admin" 6 [1, 2, 3, 4, 5, 6]
        World.start).2 = -1 ∧
      (try_connect_wifi (scripted [] [] [] []) "GVM_LED" "gvm_admin" 6 [1, 2, 3, 4, 5, 6]
        World.start).1.events.filter Event.isJoin =
        [Event.connectAttempt [1, 2, 3, 4, 5, 6] 1,
          Event.wifiBegin "GVM_LED" "gvm_admin" 6 [1, 2, 3, 4, 5, 6],
          Event.connectAttempt [1, 2, 3, 4, 5, 6] 2,
          Event.wifiBegin "GVM_LED" "gvm_admin" 6 [1, 2, 3, 4, 5, 6]] ∧
      (try_connect_wifi (scripted [] [] [] []) "GVM_LED" "gvm_admin" 6 [1, 2, 3, 4, 5, 6]
        World.start).1.events.filter Event.isVerify = [] ∧
      (try_connect_wifi (scripted [] [] [] []) "GVM_LED" "gvm_admin" 6 [1, 2, 3, 4, 5, 6]
        World.start).1.g.broadcasts = [] := by
  decide!

set_option maxRecDepth 100000 in
/-- A collaborator that associates on the second `WiFi.begin` and delivers the
status frame on the third poll: verification returns 0 at that poll. -/
theorem second_attempt_then_third_poll :
    (try_connect_wifi (scripted [2] [3] "4C540B0030030102322C3819D268".toList []) "GVM_LED"
        "gvm_admin" 6 [1, 2, 3, 4, 5, 6] World.start).2 = 0 ∧
      (try_connect_wifi (scripted [2] [3] "4C540B0030030102322C3819D268".toList []) "GVM_LED"
        "gvm_admin" 6 [1, 2, 3, 4, 5, 6] World.start).1.events.filter Event.isVerify =
        [Event.openUdp 2525, Event.openUdp 1112, Event.poll 1112 0, Event.poll 1112 0,
          Event.poll 1112 1] ∧
      (try_connect_wifi (scripted [2] [3] "4C540B0030030102322C3819D268".toList []) "GVM_LED"
        "gvm_admin" 6 [1, 2, 3, 4, 5, 6] World.start).1.g.broadcasts = [first_connect] ∧
      (try_connect_wifi (scripted [2] [3] "4C540B0030030102322C3819D268".toList []) "GVM_LED"
        "gvm_admin" 6 [1, 2, 3, 4, 5, 6] World.start).1.g.light_status.brightness = 50 := by
  decide!

set_option maxRecDepth 100000 in
/-- A collaborator that associates but never hears from a light: 61 polls,
then -1. -/
theorem silent_network_times_out :
    (test_light_connection (scripted [] [] [] []) World.start).2 = -1 ∧
      ((test_light_connection (scripted [] [] [] []) World.start).1.events.filter
        Event.isVerify).length = 63 := by
  decide!

set_option maxRecDepth 100000 in
/-- A scan that finds a foreign network and two lights, the second of which
associates and answers: the call returns 0 with `*networks_found` = 2 and the
foreign network is never joined. -/
theorem second_light_joined :
    (find_and_join_light_wifi
        (scripted [3] [1] "4C540B0030030102322C3819D268".toList
          [{ ssid := "Home", channel := 1, bssid := [9] },
            { ssid := "GVM_LED", channel := 6, bssid := [1] },
            { ssid := "GVM_LED", channel := 11, bssid := [2] }]) World.start).2 = (0, 2) ∧
      ((find_and_join_light_wifi
        (scripted [3] [1] "4C540B0030030102322C3819D268".toList
          [{ ssid := "Home", channel := 1, bssid := [9] },
            { ssid := "GVM_LED", channel := 6, bssid := [1] },
            { ssid := "GVM_LED", channel := 11, bssid := [2] }]) World.start).1.events.filter
          Event.isJoin) =
        [Event.connectAttempt [1] 1, Event.wifiBegin "GVM_LED" "gvm_admin" 6 [1],
          Event.connectAttempt [1] 2, Event.wifiBegin "GVM_LED" "gvm_admin" 6 [1],
          Event.connectAttempt [2] 1, Event.wifiBegin "GVM_LED" "gvm_admin" 11 [2]] := by
  decide!

/-! ## The encoder's output read by the decoder -/

theorem upperHexText_append : ∀ (a b : List Nat),
    upperHexText (a ++ b) = upperHexText a ++ upperHexText b
  | [], _ => rfl
  | x :: a, b => by
    have ih := upperHexText_append a b
    show upperHexText (x :: (a ++ b)) = upperHexText (x :: a) ++ upperHexText b
    simp only [upperHexText, ih, List.cons_append]

theorem upperHexText_length : ∀ b : List Nat, (upperHexText b).length = 2 * b.length
  | [] => rfl
  | x :: b => by
    simp only [upperHexText, List.length_cons, upperHexText_length b]
    omega

theorem upperHex16_eq (n : Nat) (h : n < 65536) :
    upperHex16 n = upperHexText [n / 256, n % 256] := by
  have e1 : n / 4096 % 16 = n / 256 / 16 := by omega
  have e2 : n / 256 % 16 = n / 256 % 16 := rfl
  have e3 : n / 16 % 16 = n % 256 / 16 := by omega
  have e4 : n % 16 = n % 256 % 16 := by omega
  simp only [upperHex16, upperHexText, e1, e3]
  rw [e4]

theorem hexStringToBytes_upperHexText (b : List Nat) (hb : ∀ x ∈ b, x < 256) :
    hexStringToBytes (upperHexText b) (2 * b.length) = b := by
  rw [← bytesToHexString_eq_upperHexText b hb]
  exact hexStringToBytes_bytesToHexString b hb

theorem frameByte_upperHexText (b : List Nat) (hb : ∀ x ∈ b, x < 256) (k : Nat) :
    frameByte (upperHexText b) k = byteAt b k := by
  unfold frameByte
  rw [upperHexText_length, hexStringToBytes_upperHexText b hb]

/-- The parameters of `send_set_cmd` are bytes: only `setting % 256` and
`value % 256` reach the text. -/
theorem encoded_cmd_buffer_mod (setting value : Nat) :
    encoded_cmd_buffer setting value = encoded_cmd_buffer (setting % 256) (value % 256) := by
  unfold encoded_cmd_buffer cmd_buffer
  simp only [Nat.mod_mod]

/-- The text built by `send_set_cmd` is the hex text of twelve bytes: the ten
command bytes and the CRC of their text, high byte first. -/
theorem encoded_cmd_buffer_bytes (setting value : Nat) (hs : setting < 256) (hv : value < 256) :
    encoded_cmd_buffer setting value =
      upperHexText [0x4C, 0x54, 0x09, 0x00, 0x30, 0x57, 0x00, setting, 0x01, value,
        calcCrcFromHexStr
          (upperHexText [0x4C, 0x54, 0x09, 0x00, 0x30, 0x57, 0x00, setting, 0x01, value]) 20 / 256,
        calcCrcFromHexStr
          (upperHexText [0x4C, 0x54, 0x09, 0x00, 0x30, 0x57, 0x00, setting, 0x01, value]) 20 %
          256] := by
  rw [encoded_cmd_buffer_eq setting value hs hv, upperHex16_eq _ (calcCrcFromHexStr_lt _ _),
    ← upperHexText_append]
  rfl

/-- The four digits `shortToHex` writes for a checksum decode to two bytes
that the big-endian read of the decoder turns back into the checksum. -/
theorem shortToHex_read_back (crc : Nat) :
    byteAt (hexStringToBytes (shortToHex crc) 4) 0 * 256 +
      byteAt (hexStringToBytes (shortToHex crc) 4) 1 = crc % 65536 := by
  have h : crc % 65536 < 65536 := Nat.mod_lt _ (by norm_num)
  have e : shortToHex crc = shortToHex (crc % 65536) := by
    unfold shortToHex
    simp only [Nat.mod_mod]
  have hb : ∀ x ∈ [crc % 65536 / 256, crc % 65536 % 256], x < 256 := by
    intro x hx
    simp only [List.mem_cons, List.mem_singleton, List.not_mem_nil, or_false] at hx
    omega
  rw [e, shortToHex_eq_upperHex16 _ h, upperHex16_eq _ h]
  have := hexStringToBytes_upperHexText _ hb
  rw [show 2 * [crc % 65536 / 256, crc % 65536 % 256].length = 4 from rfl] at this
  rw [this]
  simp only [byteAt, List.getD_cons_zero, List.getD_cons_succ]
  omega

theorem encoded_cmd_buffer_length (s v : Nat) (hs : s < 256) (hv : v < 256) :
    (encoded_cmd_buffer s v).length = 24 := by
  rw [encoded_cmd_buffer_bytes s v hs hv, upperHexText_length]
  simp only [List.length_cons, List.length_nil]

theorem frameByte_encoded_cmd_buffer (s v : Nat) (hs : s < 256) (hv : v < 256) (k : Nat) :
    frameByte (encoded_cmd_buffer s v) k =
      byteAt [0x4C, 0x54, 0x09, 0x00, 0x30, 0x57, 0x00, s, 0x01, v,
        calcCrcFromHexStr
          (upperHexText [0x4C, 0x54, 0x09, 0x00, 0x30, 0x57, 0x00, s, 0x01, v]) 20 / 256,
        calcCrcFromHexStr
          (upperHexText [0x4C, 0x54, 0x09, 0x00, 0x30, 0x57, 0x00, s, 0x01, v]) 20 % 256] k := by
  have hc := calcCrcFromHexStr_lt
    (upperHexText [0x4C, 0x54, 0x09, 0x00, 0x30, 0x57, 0x00, s, 0x01, v]) 20
  have hb : ∀ x ∈ [0x4C, 0x54, 0x09, 0x00, 0x30, 0x57, 0x00, s, 0x01, v,
      calcCrcFromHexStr
        (upperHexText [0x4C, 0x54, 0x09, 0x00, 0x30, 0x57, 0x00, s, 0x01, v]) 20 / 256,
      calcCrcFromHexStr
        (upperHexText [0x4C, 0x54, 0x09, 0x00, 0x30, 0x57, 0x00, s, 0x01, v]) 20 % 256],
      x < 256 := by
    intro x hx
    simp only [List.mem_cons, List.mem_singleton, List.not_mem_nil, or_false] at hx
    omega
  rw [encoded_cmd_buffer_bytes s v hs hv]
  exact frameByte_upperHexText _ hb k

theorem calcCrcFromHexStr_encoded_cmd_buffer (s v : Nat) (hs : s < 256) (hv : v < 256) :
    calcCrcFromHexStr (encoded_cmd_buffer s v) 20 =
      calcCrcFromHexStr
        (upperHexText [0x4C, 0x54, 0x09, 0x00, 0x30, 0x57, 0x00, s, 0x01, v]) 20 := by
  rw [calcCrcFromHexStr_eq, calcCrcFromHexStr_eq, encoded_cmd_buffer_eq s v hs hv]
  apply calcCrcLoop_congr
  intro i hi
  refine charAt_append_left _ _ i ?_
  rw [upperHexText_length]
  simp only [List.length_cons, List.length_nil]
  omega

theorem byteAt_ten (a0 a1 a2 a3 a4 a5 a6 a7 a8 a9 x : Nat) (l : List Nat) :
    byteAt (a0 :: a1 :: a2 :: a3 :: a4 :: a5 :: a6 :: a7 :: a8 :: a9 :: x :: l) 10 = x % 256 :=
  rfl

theorem byteAt_eleven (a0 a1 a2 a3 a4 a5 a6 a7 a8 a9 a10 x : Nat) (l : List Nat) :
    byteAt (a0 :: a1 :: a2 :: a3 :: a4 :: a5 :: a6 :: a7 :: a8 :: a9 :: a10 :: x :: l) 11 =
      x % 256 :=
  rfl

/-- The text of a set command is a frame the decoder accepts, of kind 0x57. -/
theorem encoded_cmd_buffer_valid (setting value : Nat) :
    (encoded_cmd_buffer setting value).length = 24 ∧
      validFrame (encoded_cmd_buffer setting value) ∧
      frameByte (encoded_cmd_buffer setting value) 5 = LIGHT_MSG_SETVAR := by
  rw [encoded_cmd_buffer_mod]
  have hs : setting % 256 < 256 := Nat.mod_lt _ (by norm_num)
  have hv : value % 256 < 256 := Nat.mod_lt _ (by norm_num)
  generalize setting % 256 = s at hs
  generalize value % 256 = v at hv
  have hc := calcCrcFromHexStr_lt
    (upperHexText [0x4C, 0x54, 0x09, 0x00, 0x30, 0x57, 0x00, s, 0x01, v]) 20
  have hlen := encoded_cmd_buffer_length s v hs hv
  have hcrc := calcCrcFromHexStr_encoded_cmd_buffer s v hs hv
  have b0 := frameByte_encoded_cmd_buffer s v hs hv 0
  have b1 := frameByte_encoded_cmd_buffer s v hs hv 1
  have b2 := frameByte_encoded_cmd_buffer s v hs hv 2
  have b5 := frameByte_encoded_cmd_buffer s v hs hv 5
  have b10 := frameByte_encoded_cmd_buffer s v hs hv 10
  have b11 := frameByte_encoded_cmd_buffer s v hs hv 11
  rw [byteAt_ten] at b10
  rw [byteAt_eleven] at b11
  simp only [byteAt, List.getD_cons_zero, List.getD_cons_succ] at b0 b1 b2 b5
  norm_num at b0 b1 b2 b5
  refine ⟨hlen, ?_, ?_⟩
  · unfold validFrame
    rw [hlen, b0, b1, b2]
    refine ⟨by norm_num, rfl, rfl, by norm_num, ?_⟩
    have e1 : 2 * (3 + 9 - 2) = 20 := by norm_num
    have e2 : 3 + 9 - 2 = 10 := by norm_num
    rw [e1, e2, hcrc, b10, b11]
    omega
  · rw [b5]
    simp only [LIGHT_MSG_SETVAR]


/-- The decode loop on the text of a set command: one frame is counted, the
object is left as it is, and nothing of the buffer remains. -/
theorem decodeFrames_encoded_cmd_buffer (g : GvmLightControl) (s v : Nat) :
    decodeFrames (encoded_cmd_buffer s v)
        (decodeInto (List.replicate 1024 0) (encoded_cmd_buffer s v) 24) (24 / 6 + 1)
        { g := g, msgs_processed := 0, rx_len := 24, hexDecode := 0, msgDecode := 0 } =
      { g := g, msgs_processed := 1, rx_len := 0, hexDecode := 12, msgDecode := 24 } := by
  obtain ⟨hlen, hv, hk⟩ := encoded_cmd_buffer_valid s v
  have hw := frameAtCursor_start (List.replicate 1024 0) g 0 (encoded_cmd_buffer s v)
  have h := decodeFrames_accept _ _ 4 _ (encoded_cmd_buffer s v) hv hw
  have hstop := decodeFrames_stop (encoded_cmd_buffer s v)
    (decodeInto (List.replicate 1024 0) (encoded_cmd_buffer s v) (encoded_cmd_buffer s v).length) 4
    { g := applyMessage
        (decodeInto (List.replicate 1024 0) (encoded_cmd_buffer s v)
          (encoded_cmd_buffer s v).length) 0 g
      msgs_processed := 0 + 1
      rx_len := (encoded_cmd_buffer s v).length - (encoded_cmd_buffer s v).length
      hexDecode := 0 + (encoded_cmd_buffer s v).length / 2
      msgDecode := 0 + (encoded_cmd_buffer s v).length }
    (frameGuard_short _ _ (by
      show (encoded_cmd_buffer s v).length - (encoded_cmd_buffer s v).length < 6
      omega))
  have ha : applyMessage
      (decodeInto (List.replicate 1024 0) (encoded_cmd_buffer s v) (encoded_cmd_buffer s v).length)
      0 g = g := by
    unfold applyMessage
    rw [byteAt_decodeInto_frame (encoded_cmd_buffer s v) 5, hk,
      if_neg (show ¬ LIGHT_MSG_SETVAR = LIGHT_MSG_VAR_ALL by decide),
      if_neg (show ¬ LIGHT_MSG_SETVAR = LIGHT_MSG_VAR_SET by decide)]
  rw [hstop, ha, hlen] at h
  exact h

/-- C21: encoder and decoder agree on the frame format. For every setting
`s` and value `v` (taken as bytes, as the `uint8_t` parameters are), with the
command channel open `send_set_cmd(s, v)` broadcasts one text of 24
characters; that text passes the decoder's validation (magic, declared length
9 = 24 / 2 - 3, CRC) and its kind byte is 0x57; `read_udp` on it returns
exactly 1 and leaves the whole object unchanged; the decode loop ends with
nothing of the buffer left (`rx_len` = 0, both cursors at the end); the two
checksum bytes the decoder reads big-endian at offsets 10 and 11 are the CRC
of the 20 characters before them; and for every checksum the four characters
written by `shortToHex` are read back by that big-endian read as the same
16-bit value. -/
theorem set_cmd_passes_decoder (g0 g : GvmLightControl) (s v : Nat)
    (hfd : g0.udp_2525_fd ≠ -1) :
    (send_set_cmd g0 s v).1.broadcasts = g0.broadcasts ++ [encoded_cmd_buffer s v] ∧
      (encoded_cmd_buffer s v).length = 24 ∧
      validFrame (encoded_cmd_buffer s v) ∧
      frameByte (encoded_cmd_buffer s v) 5 = 0x57 ∧
      read_udp g [encoded_cmd_buffer s v] = (g, 1) ∧
      decodeFrames (encoded_cmd_buffer s v)
          (decodeInto (List.replicate 1024 0) (encoded_cmd_buffer s v) 24) (24 / 6 + 1)
          { g := g, msgs_processed := 0, rx_len := 24, hexDecode := 0, msgDecode := 0 } =
        { g := g, msgs_processed := 1, rx_len := 0, hexDecode := 12, msgDecode := 24 } ∧
      frameByte (encoded_cmd_buffer s v) 10 * 256 + frameByte (encoded_cmd_buffer s v) 11 =
        calcCrcFromHexStr (encoded_cmd_buffer s v) 20 ∧
      ∀ crc : Nat,
        byteAt (hexStringToBytes (shortToHex crc) 4) 0 * 256 +
          byteAt (hexStringToBytes (shortToHex crc) 4) 1 = crc % 65536 := by
  obtain ⟨hlen, hv, hk⟩ := encoded_cmd_buffer_valid s v
  refine ⟨?_, hlen, hv, hk, ?_, decodeFrames_encoded_cmd_buffer g s v, ?_, shortToHex_read_back⟩
  · unfold send_set_cmd
    rw [if_neg hfd]
    rfl
  · rw [read_udp_valid_frame g _ hv]
    unfold applyMessage
    rw [byteAt_decodeInto_frame (encoded_cmd_buffer s v) 5, hk,
      if_neg (show ¬ LIGHT_MSG_SETVAR = LIGHT_MSG_VAR_ALL by decide),
      if_neg (show ¬ LIGHT_MSG_SETVAR = LIGHT_MSG_VAR_SET by decide)]
  · obtain ⟨_, h0, h1, hl, hc⟩ := hv
    have e : frameByte (encoded_cmd_buffer s v) 2 = 9 := by omega
    rw [e] at hc
    exact hc.symm

set_option maxRecDepth 100000 in
/-- Witness of `set_cmd_passes_decoder`: Brightness = 50% (setting 2, value
0x32) sent on an open channel is the documented text
"4C5409003057000201324A8F", which the decoder counts as one frame. -/
theorem set_cmd_passes_decoder_witness :
    encoded_cmd_buffer 2 0x32 = "4C5409003057000201324A8F".toList ∧
      (send_set_cmd { GvmLightControl.init with udp_2525_fd := 3 } 2 0x32).1.broadcasts =
        [] ++ [encoded_cmd_buffer 2 0x32] ∧
      read_udp GvmLightControl.init [encoded_cmd_buffer 2 0x32] = (GvmLightControl.init, 1) :=
  ⟨by decide!,
    (set_cmd_passes_decoder { GvmLightControl.init with udp_2525_fd := 3 } GvmLightControl.init
      2 0x32 (by decide)).1,
    (set_cmd_passes_decoder { GvmLightControl.init with udp_2525_fd := 3 } GvmLightControl.init
      2 0x32 (by decide)).2.2.2.2.1⟩


/-! ## The decode loop terminates -/

/-- An iteration that passes the guard consumes `2 * (3 + L)` digits: at
least 6 and no more than what remains. -/
theorem frameGuard_consumes (buf : List Nat) (s : RxLoop) (h : frameGuard buf s = true) :
    6 ≤ (3 + byteAt buf (s.hexDecode + 2)) * 2 ∧
      (3 + byteAt buf (s.hexDecode + 2)) * 2 ≤ s.rx_len := by
  unfold frameGuard at h
  simp only [Bool.and_eq_true, decide_eq_true_eq] at h
  omega

/-- `rx_len / 6` iterations are enough: more change nothing. -/
theorem decodeFrames_fuel_le (rx : List Char) (buf : List Nat) :
    ∀ (fuel fuel' : Nat) (s : RxLoop), s.rx_len / 6 ≤ fuel → s.rx_len / 6 ≤ fuel' →
      decodeFrames rx buf fuel s = decodeFrames rx buf fuel' s
  | 0, 0, _, _, _ => rfl
  | 0, m + 1, s, h, _ => by
    rw [decodeFrames_stop rx buf (m + 1) s (frameGuard_short buf s (by omega))]
    rfl
  | n + 1, 0, s, _, h => by
    rw [decodeFrames_stop rx buf (n + 1) s (frameGuard_short buf s (by omega))]
    rfl
  | n + 1, m + 1, s, hn, hm => by
    rw [decodeFrames_succ, decodeFrames_succ]
    by_cases hg : frameGuard buf s = true
    · have hc := frameGuard_consumes buf s hg
      rw [if_pos hg, if_pos hg]
      by_cases hcrc : frameCrc rx buf s ≠ frameMsgCrc buf s
      · rw [if_pos hcrc, if_pos hcrc]
      · rw [if_neg hcrc, if_neg hcrc]
        apply decodeFrames_fuel_le rx buf n m
        · show (s.rx_len - (3 + byteAt buf (s.hexDecode + 2)) * 2) / 6 ≤ n
          omega
        · show (s.rx_len - (3 + byteAt buf (s.hexDecode + 2)) * 2) / 6 ≤ m
          omega
    · rw [if_neg hg, if_neg hg]

/-- Across the loop, every frame counted has consumed at least 6 digits of
what remained, and the digits consumed are those the text cursor moved over. -/
theorem decodeFrames_consumed (rx : List Char) (buf : List Nat) :
    ∀ (fuel : Nat) (s : RxLoop),
      s.msgs_processed ≤ (decodeFrames rx buf fuel s).msgs_processed ∧
        (decodeFrames rx buf fuel s).rx_len +
            6 * ((decodeFrames rx buf fuel s).msgs_processed - s.msgs_processed) ≤ s.rx_len ∧
        (decodeFrames rx buf fuel s).rx_len + (decodeFrames rx buf fuel s).msgDecode =
          s.rx_len + s.msgDecode
  | 0, s => ⟨le_refl _, by simp [decodeFrames], rfl⟩
  | fuel + 1, s => by
    rw [decodeFrames_succ]
    by_cases hg : frameGuard buf s = true
    · have hc := frameGuard_consumes buf s hg
      rw [if_pos hg]
      by_cases hcrc : frameCrc rx buf s ≠ frameMsgCrc buf s
      · rw [if_pos hcrc]
        exact ⟨le_refl _, by simp, rfl⟩
      · rw [if_neg hcrc]
        obtain ⟨h1, h2, h3⟩ := decodeFrames_consumed rx buf fuel
          { g := applyMessage buf s.hexDecode s.g
            msgs_processed := s.msgs_processed + 1
            rx_len := s.rx_len - (3 + byteAt buf (s.hexDecode + 2)) * 2
            hexDecode := s.hexDecode + (3 + byteAt buf (s.hexDecode + 2))
            msgDecode := s.msgDecode + (3 + byteAt buf (s.hexDecode + 2)) * 2 }
        simp only [] at h1 h2 h3
        refine ⟨by omega, by omega, by omega⟩
    · rw [if_neg hg]
      exact ⟨le_refl _, by simp, rfl⟩

theorem processDatagram_count (buf : List Nat) (g : GvmLightControl) (m : Nat) (d : List Char) :
    (processDatagram buf g m d).2.2 ≤ m + d.length / 6 := by
  unfold processDatagram
  simp only []
  have h := (decodeFrames_consumed (d.take 2047)
    (decodeInto buf (d.take 2047) (d.take 2047).length) ((d.take 2047).length / 6 + 1)
    { g := g, msgs_processed := m, rx_len := (d.take 2047).length, hexDecode := 0,
      msgDecode := 0 }).2.1
  simp only [] at h
  have hl : (d.take 2047).length ≤ d.length := by
    rw [List.length_take]
    omega
  omega

theorem recvLoop_count : ∀ (pending : List (List Char)) (buf : List Nat) (g : GvmLightControl)
    (m : Nat),
    (recvLoop buf g m pending).2 ≤ m + (pending.map (fun d => d.length / 6)).sum
  | [], _, _, _ => by simp [recvLoop]
  | d :: pending, buf, g, m => by
    unfold recvLoop
    have h := recvLoop_count pending (processDatagram buf g m d).1 (processDatagram buf g m d).2.1
      (processDatagram buf g m d).2.2
    have h' := processDatagram_count buf g m d
    simp only [List.map_cons, List.sum_cons]
    omega

/-- C23: the decode loop terminates on every buffer. From any loop state `s`
(any buffer, any cursor, `n = s.rx_len` digits remaining): an iteration that
passes the guard consumes `2 * (3 + L)` digits, at least 6 and at most `n`
(so the remaining length does not go below 0), also when the declared length
`L` is 0, and an iteration that does not pass it ends the loop; `n / 6`
iterations are the whole loop, any further allowance changes nothing; the
frames counted by the loop are at most `n / 6`, each having consumed at least
6 digits, and the digits consumed are exactly those the cursor moved over. For
`read_udp` the count returned is at most the sum of `length / 6` over the
datagrams received, so at most `n / 6` for one buffer of `n` digits. -/
theorem decode_loop_terminates (rx : List Char) (buf : List Nat) (s : RxLoop) (extra : Nat)
    (g : GvmLightControl) (pending : List (List Char)) (d : List Char) :
    (if frameGuard buf s then
        6 ≤ (3 + byteAt buf (s.hexDecode + 2)) * 2 ∧
          (3 + byteAt buf (s.hexDecode + 2)) * 2 ≤ s.rx_len
      else decodeFrames rx buf (extra + 1) s = s) ∧
      decodeFrames rx buf (s.rx_len / 6 + extra) s = decodeFrames rx buf (s.rx_len / 6) s ∧
      (decodeFrames rx buf (s.rx_len / 6) s).msgs_processed ≤ s.msgs_processed + s.rx_len / 6 ∧
      (decodeFrames rx buf (s.rx_len / 6) s).rx_len +
          6 * ((decodeFrames rx buf (s.rx_len / 6) s).msgs_processed - s.msgs_processed) ≤
        s.rx_len ∧
      (decodeFrames rx buf (s.rx_len / 6) s).rx_len +
          (decodeFrames rx buf (s.rx_len / 6) s).msgDecode = s.rx_len + s.msgDecode ∧
      (read_udp g pending).2 ≤ (pending.map (fun d => d.length / 6)).sum ∧
      (read_udp g [d]).2 ≤ d.length / 6 := by
  obtain ⟨h1, h2, h3⟩ := decodeFrames_consumed rx buf (s.rx_len / 6) s
  have hp := recvLoop_count pending (List.replicate 1024 0) g 0
  have hd := recvLoop_count [d] (List.replicate 1024 0) g 0
  simp only [List.map_cons, List.map_nil, List.sum_cons, List.sum_nil] at hd
  refine ⟨?_, decodeFrames_fuel_le rx buf _ _ s (by omega) (le_refl _), by omega, h2, h3, ?_, ?_⟩
  · by_cases hg : frameGuard buf s = true
    · rw [if_pos hg]
      exact frameGuard_consumes buf s hg
    · rw [if_neg hg]
      exact decodeFrames_stop rx buf _ s (by simpa using hg)
  · unfold read_udp
    omega
  · unfold read_udp
    omega


/-! ## Reads outside the validated frame -/

set_option maxRecDepth 100000 in
/-- C22 (failing input): "4C54050030037474" is a frame the decoder accepts,
with declared length 5 and kind 0x03: its checksum is at offsets 6 and 7
(= 3 + 5 - 2) and it ends there. The decoder reads offsets 6..11 for it
without looking at the declared length. Received alone, power and channel end
as 0x74 = 116, the two checksum bytes, and the other four fields as 0, read
past the received data. Followed in the same datagram by the documented set
command "4C5409003057000201324A8F" (kind 0x57, which changes nothing),
brightness, cct and hue end as 0x4C = 76, 0x54 = 84 and 9: the header of the
following frame. Received after the datagram "4C54080030020002030AEA" in one
call, cct and hue end as 0x0A = 10 and 0xEA = 234: the checksum bytes the
earlier datagram left in the decode buffer. -/
theorem status_frame_reads_past_checksum :
    validFrame "4C54050030037474".toList ∧
      frameByte "4C54050030037474".toList 2 = 5 ∧
      frameByte "4C54050030037474".toList 5 = LIGHT_MSG_VAR_ALL ∧
      ¬ readsInside "4C54050030037474".toList ∧
      ¬ (6 < 3 + frameByte "4C54050030037474".toList 2 - 2) ∧
      read_udp GvmLightControl.init ["4C54050030037474".toList] =
        ({ GvmLightControl.init with
            light_status :=
              { on_off := 116, channel := 116, brightness := 0, cct := 0, hue := 0,
                saturation := 0 } }, 1) ∧
      validFrame "4C5409003057000201324A8F".toList ∧
      read_udp GvmLightControl.init
          ["4C54050030037474".toList ++ "4C5409003057000201324A8F".toList] =
        ({ GvmLightControl.init with
            light_status :=
              { on_off := 116, channel := 116, brightness := 76, cct := 84, hue := 9,
                saturation := 0 } }, 2) ∧
      read_udp GvmLightControl.init
          ["4C54080030020002030AEA".toList, "4C54050030037474".toList] =
        ({ GvmLightControl.init with
            light_status :=
              { on_off := 116, channel := 116, brightness := 3, cct := 10, hue := 234,
                saturation := 0 } }, 2) := by
  decide!

/-! ## Setters stay within the documented ranges -/

theorem byteAt_nine (a0 a1 a2 a3 a4 a5 a6 a7 a8 x : Nat) (l : List Nat) :
    byteAt (a0 :: a1 :: a2 :: a3 :: a4 :: a5 :: a6 :: a7 :: a8 :: x :: l) 9 = x % 256 :=
  rfl

/-- The value byte (offset 9) of the text of a set command is the value. -/
theorem frameByte_encoded_cmd_buffer_value (setting value : Nat) :
    frameByte (encoded_cmd_buffer setting value) 9 = value % 256 := by
  rw [encoded_cmd_buffer_mod,
    frameByte_encoded_cmd_buffer _ _ (Nat.mod_lt _ (by norm_num)) (Nat.mod_lt _ (by norm_num)),
    byteAt_nine, Nat.mod_mod]

theorem set_bounded_of_mem (v lo hi : Int) (h0 : lo ≤ v) (h1 : v ≤ hi) :
    set_bounded v lo hi = v := by
  unfold set_bounded
  rw [if_neg (by omega), if_neg (by omega)]

/-- What every setter does, read off its shape: for a range inside 0..127 it
returns `set_bounded` of its argument, and with the command channel open it
broadcasts a set command whose value byte is the returned value, then the
hello message. -/
theorem setter_shape (setting : Nat) (lo hi : Int) (hlo : 0 ≤ lo) (hle : lo ≤ hi)
    (hhi : hi ≤ 127) (g g' : GvmLightControl) (v : Int)
    (hb : g'.broadcasts = g.broadcasts) (hf : g'.udp_2525_fd = g.udp_2525_fd) :
    toInt8 (set_bounded v lo hi) = set_bounded v lo hi ∧
      ((toUInt8 (toInt8 (set_bounded v lo hi)) : Nat) : Int) = set_bounded v lo hi ∧
      (g.udp_2525_fd ≠ -1 →
        (send_set_cmd_and_hello g' setting (toUInt8 (toInt8 (set_bounded v lo hi)))).1.broadcasts =
          g.broadcasts ++
            [encoded_cmd_buffer setting (toUInt8 (toInt8 (set_bounded v lo hi))), first_connect] ∧
        ((frameByte (encoded_cmd_buffer setting (toUInt8 (toInt8 (set_bounded v lo hi)))) 9 :
          Nat) : Int) = set_bounded v lo hi) := by
  have hr := set_bounded_range v lo hi hle
  have e := toInt8_of_range (set_bounded v lo hi) (by omega) (by omega)
  have eu := toUInt8_of_range (set_bounded v lo hi) (by omega) (by omega)
  rw [e, eu]
  refine ⟨rfl, by omega, ?_⟩
  intro hfd
  rw [send_set_cmd_and_hello_open g' _ _ (by rw [hf]; exact hfd), frameByte_encoded_cmd_buffer_value]
  refine ⟨by rw [← hb], ?_⟩
  omega

/-- C24: for all integers `v`, `lo`, `hi` with `lo ≤ hi`, `set_bounded(v, lo,
hi)` lies in `lo..hi` and is `v` when `lo ≤ v ≤ hi`. For every setter with its
documented range (0..1, 1..12, 0..100, 32..56, 0..72, 0..100), every object
and every argument `x`: the value returned lies in the range; it is `x` when
`x` lies in the range; the conversions to `int8_t` and to `uint8_t` leave it
unchanged; and with the command channel open the setter broadcasts one set
command whose value byte (offset 9) is the value returned, then the hello
message. -/
theorem setters_stay_in_range (v lo hi : Int) (h : lo ≤ hi) (g : GvmLightControl) (x : Int) :
    (lo ≤ set_bounded v lo hi ∧ set_bounded v lo hi ≤ hi) ∧
      (lo ≤ v ∧ v ≤ hi → set_bounded v lo hi = v) ∧
      ∀ e ∈ documentedSetters,
        (e.2.1 ≤ (e.1 g x).2 ∧ (e.1 g x).2 ≤ e.2.2) ∧
          (e.2.1 ≤ x ∧ x ≤ e.2.2 → (e.1 g x).2 = x) ∧
          toInt8 (e.1 g x).2 = (e.1 g x).2 ∧
          ((toUInt8 (e.1 g x).2 : Nat) : Int) = (e.1 g x).2 ∧
          (g.udp_2525_fd ≠ -1 →
            ∃ setting cmd, cmd = encoded_cmd_buffer setting (toUInt8 (e.1 g x).2) ∧
              (e.1 g x).1.broadcasts = g.broadcasts ++ [cmd, first_connect] ∧
              ((frameByte cmd 9 : Nat) : Int) = (e.1 g x).2) := by
  refine ⟨set_bounded_range v lo hi h, fun hv => set_bounded_of_mem v lo hi hv.1 hv.2, ?_⟩
  have key : ∀ (setting : Nat) (a b : Int) (g' : GvmLightControl), 0 ≤ a → a ≤ b → b ≤ 127 →
      g'.broadcasts = g.broadcasts → g'.udp_2525_fd = g.udp_2525_fd →
      (a ≤ toInt8 (set_bounded x a b) ∧ toInt8 (set_bounded x a b) ≤ b) ∧
        (a ≤ x ∧ x ≤ b → toInt8 (set_bounded x a b) = x) ∧
        toInt8 (toInt8 (set_bounded x a b)) = toInt8 (set_bounded x a b) ∧
        ((toUInt8 (toInt8 (set_bounded x a b)) : Nat) : Int) = toInt8 (set_bounded x a b) ∧
        (g.udp_2525_fd ≠ -1 →
          ∃ setting' cmd,
            cmd = encoded_cmd_buffer setting' (toUInt8 (toInt8 (set_bounded x a b))) ∧
            (send_set_cmd_and_hello g' setting
                (toUInt8 (toInt8 (set_bounded x a b)))).1.broadcasts =
              g.broadcasts ++ [cmd, first_connect] ∧
            ((frameByte cmd 9 : Nat) : Int) = toInt8 (set_bounded x a b)) := by
    intro setting a b g' ha hab hb127 hbr hfd
    obtain ⟨e1, e2, e3⟩ := setter_shape setting a b ha hab hb127 g g' x hbr hfd
    have hr := set_bounded_range x a b hab
    refine ⟨by rw [e1]; exact hr, ?_, by rw [e1, e1], by rw [e2, e1], ?_⟩
    · intro hx
      rw [e1]
      exact set_bounded_of_mem x a b hx.1 hx.2
    · intro hopen
      obtain ⟨b1, b2⟩ := e3 hopen
      exact ⟨setting, _, rfl, b1, by rw [b2, e1]⟩
  intro e he
  simp only [documentedSetters, List.mem_cons, List.mem_singleton, List.not_mem_nil,
    or_false] at he
  rcases he with rfl | rfl | rfl | rfl | rfl | rfl
  · exact key LIGHT_VAR_ON_OFF 0 1 _ (by decide) (by decide) (by decide) rfl rfl
  · exact key LIGHT_VAR_CHANNEL 1 12 _ (by decide) (by decide) (by decide) rfl rfl
  · exact key LIGHT_VAR_BRIGHTNESS 0 100 _ (by decide) (by decide) (by decide) rfl rfl
  · exact key LIGHT_VAR_CCT 32 56 _ (by decide) (by decide) (by decide) rfl rfl
  · exact key LIGHT_VAR_HUE 0 72 _ (by decide) (by decide) (by decide) rfl rfl
  · exact key LIGHT_VAR_HUE 0 100 _ (by decide) (by decide) (by decide) rfl rfl

set_option maxRecDepth 100000 in
/-- Witness of `setters_stay_in_range`: `set_bounded(5, 1, 12)` is 5, and
`setCct(40)` on an open channel returns 40 and broadcasts the set command with
value byte 0x28, then the hello message. -/
theorem setters_stay_in_range_witness :
    set_bounded 5 1 12 = 5 ∧
      (setCct { GvmLightControl.init with udp_2525_fd := 3 } 40).2 = 40 ∧
      (setCct { GvmLightControl.init with udp_2525_fd := 3 } 40).1.broadcasts =
        ["4C540900305700030128CEC4".toList, first_connect] :=
  ⟨(setters_stay_in_range 5 1 12 (by decide) { GvmLightControl.init with udp_2525_fd := 3 }
      40).2.1 (by decide),
    (((setters_stay_in_range 5 1 12 (by decide) { GvmLightControl.init with udp_2525_fd := 3 }
      40).2.2 (setCct, 32, 56) (by simp [documentedSetters])).2.1 (by decide)),
    by decide!⟩

end GvmLight
